import Mathlib

/-! # Checkpoint/restore core: parasite injection and socket state

A shallow embedding of `parasite-syscall.c` and `sockets.c`.

Conventions of the embedding:

* `unsigned long` and `u64` values are natural numbers; an operation that can
  wrap is written with an explicit `% 2 ^ 64`.
* `unsigned int` values are natural numbers below `2 ^ 32`, `int` values are
  integers; a conversion between the two is written `to_int` / `to_uint`.
* A linked list (`list_head`, or a `next` chain) is a `List`, head first.
* The outcome of a system call, of an allocation or of a helper that lives
  outside the two files is an argument of the function that makes the call.
-/

namespace Criu

/-! ## Machine words -/

/-- Number of values of an `unsigned long` (x86-64). -/
def ULONG_RANGE : Nat := 2 ^ 64

/-- Subtraction of two `unsigned long` values, as the machine computes it. -/
def ulong_sub (a b : Nat) : Nat := (a + ULONG_RANGE - b % ULONG_RANGE) % ULONG_RANGE

/-- Conversion of an `unsigned int` to `int` (two's complement). -/
def to_int (u : Nat) : Int :=
  if u % 2 ^ 32 < 2 ^ 31 then ((u % 2 ^ 32 : Nat) : Int) else ((u % 2 ^ 32 : Nat) : Int) - 2 ^ 32

/-- Conversion of an `int` to `unsigned int`. -/
def to_uint (i : Int) : Nat := (i % 2 ^ 32).toNat

/-! ## Victim inspector (`parasite-syscall.c`, lines 36-62) -/

/-- The constant `PROT_EXEC` of `<sys/mman.h>`. -/
def PROT_EXEC : Nat := 4

/-- The fields of `VmaEntry` the two files read. -/
structure VmaEntry where
  start : Nat
  «end» : Nat
  prot : Nat
  status : Nat
  deriving DecidableEq, Repr

/-- A `struct vma_area`: the entry; its list linkage is the position in a `List`. -/
structure vma_area where
  vma : VmaEntry
  deriving DecidableEq, Repr

/-- Declarations of the architecture headers that the inspector uses and the
two files do not define: `TASK_SIZE` and `code_syscall_size`. -/
structure Arch where
  TASK_SIZE : Nat
  code_syscall_size : Nat
  deriving DecidableEq, Repr

/-- The function `can_run_syscall(ip, start, end)`. -/
def can_run_syscall (A : Arch) (ip start «end» : Nat) : Bool :=
  decide (ip ≥ start) && decide (ip < ulong_sub «end» A.code_syscall_size)

/-- The function `syscall_fits_vma_area(vma_area)`. -/
def syscall_fits_vma_area (A : Arch) (vma_area : vma_area) : Bool :=
  can_run_syscall A vma_area.vma.start vma_area.vma.start vma_area.vma.«end»

/-- The function `get_vma_by_ip(vma_area_list, ip)`: `none` is `NULL`. -/
def get_vma_by_ip (A : Arch) : List vma_area → Nat → Option vma_area
  | [], _ => none
  | vma_area :: rest, ip =>
    if vma_area.vma.start ≥ A.TASK_SIZE then get_vma_by_ip A rest ip
    else if vma_area.vma.prot &&& PROT_EXEC = 0 then get_vma_by_ip A rest ip
    else if syscall_fits_vma_area A vma_area then some vma_area
    else get_vma_by_ip A rest ip

/-! ## Victim state and ptrace primitives -/

/-- General registers, `user_regs_struct_t`: the instruction pointer (read by
`REG_IP`), the result register (read by `REG_RES`) and the remaining ones. -/
structure user_regs_struct_t where
  ip : Nat
  ax : Nat
  others : List Nat
  deriving DecidableEq, Repr

/-- What ptrace shows of a stopped victim: its memory, byte by byte, and its
general registers. -/
structure Victim where
  mem : Nat → Nat
  regs : user_regs_struct_t

/-- Modelled from the spec: `ptrace_peek_area` of the ptrace primitives, which
are not among the sources ("peek/poke arbitrary byte ranges"): the `bytes`
bytes of the victim that start at `addr`. -/
def ptrace_peek_area (v : Victim) (addr bytes : Nat) : List Nat :=
  (List.range bytes).map (fun i => v.mem (addr + i))

/-- Modelled from the spec: `ptrace_poke_area` of the ptrace primitives, which
are not among the sources ("peek/poke arbitrary byte ranges"): stores the
bytes `src` at `addr`; a failed call (`ok = false`) returns -1 and stores
nothing. -/
def ptrace_poke_area (ok : Bool) (v : Victim) (src : List Nat) (addr : Nat) : Int × Victim :=
  if ok then
    (0, { v with mem := fun a =>
      if addr ≤ a ∧ a < addr + src.length then src.getD (a - addr) 0 else v.mem a })
  else (-1, v)

/-- Modelled from the spec: `ptrace_swap_area` of the ptrace primitives, which
are not among the sources ("Swap `code_syscall_size` bytes at the chosen VMA
start with the native syscall opcode; remember the original bytes"): the
bytes `src` go to `addr` and the bytes that were there come back in `src`;
a failed call returns -1 and changes neither. -/
def ptrace_swap_area (ok : Bool) (v : Victim) (addr : Nat) (src : List Nat) :
    Int × Victim × List Nat :=
  if ok then
    let t := ptrace_peek_area v addr src.length
    ((ptrace_poke_area true v src addr).1, (ptrace_poke_area true v src addr).2, t)
  else (-1, v, src)

/-- The request `ptrace(PTRACE_GETREGS, pid, NULL, &regs)`: a non-zero return is
a failure. -/
def ptrace_getregs (ok : Bool) (v : Victim) : Int × Option user_regs_struct_t :=
  if ok then (0, some v.regs) else (-1, none)

/-- The request `ptrace(PTRACE_SETREGS, pid, NULL, &regs)`: a non-zero return is
a failure. -/
def ptrace_setregs (ok : Bool) (v : Victim) (regs : user_regs_struct_t) : Int × Victim :=
  if ok then (0, { v with regs := regs }) else (-1, v)

/-! ## Control block, infection set-up and cure (`parasite-syscall.c`, lines 741-834) -/

/-- A `struct pid`. -/
structure pid where
  real : Int
  virt : Int
  deriving DecidableEq, Repr

/-- The fields of `struct pstree_item` the file reads. -/
structure pstree_item where
  pid : Criu.pid
  threads : List Criu.pid
  deriving DecidableEq, Repr

/-- A `struct vm_area_list`. -/
structure vm_area_list where
  h : List vma_area
  priv_size : Nat
  longest : Nat
  deriving DecidableEq, Repr

/-- A `struct parasite_ctl`; pointers are addresses, 0 is `NULL`. -/
structure parasite_ctl where
  pid : Int
  remote_map : Nat
  local_map : Nat
  map_length : Nat
  parasite_ip : Nat
  regs_orig : user_regs_struct_t
  syscall_ip : Nat
  code_orig : List Nat
  signals_blocked : Int
  addr_cmd : Nat
  addr_args : Nat
  args_size : Nat
  tsock : Int
  deriving DecidableEq, Repr

/-- The injected opcode and the size of `ctl->code_orig`, both declared in the
architecture headers (`code_syscall`, `BUILTIN_SYSCALL_SIZE`). -/
structure SyscallBlob where
  code_syscall : List Nat
  BUILTIN_SYSCALL_SIZE : Nat
  deriving DecidableEq, Repr

/-- The control block `xzalloc` returns, with `code_orig` of its declared size. -/
def parasite_ctl_zero (B : SyscallBlob) : parasite_ctl :=
  { pid := 0, remote_map := 0, local_map := 0, map_length := 0, parasite_ip := 0,
    regs_orig := { ip := 0, ax := 0, others := [] }, syscall_ip := 0,
    code_orig := List.replicate B.BUILTIN_SYSCALL_SIZE 0, signals_blocked := 0,
    addr_cmd := 0, addr_args := 0, args_size := 0, tsock := 0 }

/-- Outcomes of the calls `parasite_prep_ctl` makes. -/
structure PrepOutcomes where
  task_in_compat_mode : Bool
  xzalloc_ok : Bool
  getregs_ok : Bool
  swap_ok : Bool
  deriving DecidableEq, Repr

/-- The function `parasite_prep_ctl(pid, vma_area_list)`: the control block (`none` is
`NULL`) and the victim as the call leaves it. -/
def parasite_prep_ctl (A : Arch) (B : SyscallBlob) (o : PrepOutcomes) (pid : Int)
    (vma_area_list : vm_area_list) (v : Victim) : Option parasite_ctl × Victim :=
  if o.task_in_compat_mode then (none, v)
  else if !o.xzalloc_ok then (none, v)
  else
    let ctl := { parasite_ctl_zero B with tsock := -1 }
    match (ptrace_getregs o.getregs_ok v).2 with
    | none => (none, v)
    | some regs =>
      let ctl := { ctl with regs_orig := regs }
      match get_vma_by_ip A vma_area_list.h ctl.regs_orig.ip with
      | none => (none, v)
      | some vma_area =>
        let ctl := { ctl with pid := pid, syscall_ip := vma_area.vma.start }
        let ctl := { ctl with code_orig :=
          (List.range ctl.code_orig.length).map (fun i => B.code_syscall.getD i 0) }
        let r := ptrace_swap_area o.swap_ok v ctl.syscall_ip ctl.code_orig
        if r.1 ≠ 0 then (none, r.2.1)
        else (some { ctl with code_orig := r.2.2 }, r.2.1)

/-- A teardown step of `parasite_cure_seized`. -/
inductive CureStep where
  | fini
  | munmap_seized
  | munmap
  | poke_code
  | setregs
  deriving DecidableEq, Repr

/-- What `parasite_cure_seized` calls: the two parasite commands of the
`parasite_ip` branch taken together (their results are ignored; they run code
in the victim and may rewrite `ctl->regs_orig` through the signal path), the
remote `munmap` (a syscall run in the victim), and the outcomes of the local
`munmap`, of `ptrace_poke_area` and of `PTRACE_SETREGS`. -/
structure CureEnv where
  fini : parasite_ctl → pstree_item → Victim → parasite_ctl × Victim
  munmap_seized : parasite_ctl → Victim → Int × parasite_ctl × Victim
  munmap : Int
  poke_ok : Bool
  setregs_ok : Bool

/-- Result of `parasite_cure_seized`: the return value, the victim, and the
teardown steps attempted, in order. -/
structure CureResult where
  ret : Int
  victim : Victim
  steps : List CureStep

/-- The function `parasite_cure_seized(ctl, item)`. -/
def parasite_cure_seized (E : CureEnv) (ctl : parasite_ctl) (item : pstree_item)
    (v : Victim) : CureResult :=
  let ret : Int := 0
  let ctl := { ctl with tsock := -1 }
  let steps : List CureStep := []
  let s1 : parasite_ctl × Victim × List CureStep :=
    if ctl.parasite_ip ≠ 0 then
      let ctl := { ctl with signals_blocked := 0 }
      ((E.fini ctl item v).1, (E.fini ctl item v).2, steps ++ [CureStep.fini])
    else (ctl, v, steps)
  let ctl := s1.1
  let v := s1.2.1
  let steps := s1.2.2
  let s2 : Int × parasite_ctl × Victim × List CureStep :=
    if ctl.remote_map ≠ 0 then
      let r := E.munmap_seized ctl v
      (if r.1 ≠ 0 then -1 else ret, r.2.1, r.2.2, steps ++ [CureStep.munmap_seized])
    else (ret, ctl, v, steps)
  let ret := s2.1
  let ctl := s2.2.1
  let v := s2.2.2.1
  let steps := s2.2.2.2
  let s3 : Int × List CureStep :=
    if ctl.local_map ≠ 0 then
      (if E.munmap ≠ 0 then -1 else ret, steps ++ [CureStep.munmap])
    else (ret, steps)
  let ret := s3.1
  let steps := s3.2
  let p := ptrace_poke_area E.poke_ok v ctl.code_orig ctl.syscall_ip
  let ret := if p.1 ≠ 0 then -1 else ret
  let v := p.2
  let steps := steps ++ [CureStep.poke_code]
  let q := ptrace_setregs E.setregs_ok v ctl.regs_orig
  let ret := if q.1 ≠ 0 then -1 else ret
  let v := q.2
  let steps := steps ++ [CureStep.setregs]
  { ret := ret, victim := v, steps := steps }

/-! ## Page dumper (`parasite-syscall.c`, lines 499-517) -/

/-- The constant `PME_PRESENT`. -/
def PME_PRESENT : Nat := 1 <<< 63

/-- The constant `PME_SWAP`. -/
def PME_SWAP : Nat := 1 <<< 62

/-- The constant `PME_FILE`. -/
def PME_FILE : Nat := 1 <<< 61

/-- Declarations of the image header that `should_dump_page` uses and the two
files do not define: the test `vma_entry_is` and the two status flags. -/
structure VmaKinds where
  vma_entry_is : VmaEntry → Nat → Bool
  VMA_AREA_VDSO : Nat
  VMA_FILE_PRIVATE : Nat

/-- The function `should_dump_page(vmae, pme)`. -/
def should_dump_page (K : VmaKinds) (vmae : VmaEntry) (pme : Nat) : Bool :=
  if K.vma_entry_is vmae K.VMA_AREA_VDSO then true
  else if K.vma_entry_is vmae K.VMA_FILE_PRIVATE && decide (pme &&& PME_FILE ≠ 0) then false
  else if pme &&& (PME_PRESENT ||| PME_SWAP) ≠ 0 then true
  else false

/-! ## Socket descriptors and indexes (`sockets.c`, lines 40-154) -/

/-- The constant `SOCK_STREAM` of `<sys/socket.h>`. -/
def SOCK_STREAM : Nat := 1

/-- The constant `SOCK_DGRAM` of `<sys/socket.h>`. -/
def SOCK_DGRAM : Nat := 2

/-- The constant `TCP_ESTABLISHED` of `<netinet/tcp.h>`. -/
def TCP_ESTABLISHED : Nat := 1

/-- The constant `TCP_CLOSE` of `<netinet/tcp.h>`. -/
def TCP_CLOSE : Nat := 7

/-- The constant `TCP_LISTEN` of `<netinet/tcp.h>`. -/
def TCP_LISTEN : Nat := 10

/-- The constant `AF_UNIX` of `<sys/socket.h>`. -/
def AF_UNIX : Nat := 1

/-- The constant `AF_INET` of `<sys/socket.h>`. -/
def AF_INET : Nat := 2

/-- The constant `UNIX_PATH_MAX` of `<linux/un.h>`. -/
def UNIX_PATH_MAX : Nat := 108

/-- Modelled from the spec: the flag `USK_INFLIGHT` of the image header, which
is not among the sources ("The `USK_INFLIGHT` flag marks a connected UNIX
stream whose peer was discovered only via icons"): one flag bit. -/
def USK_INFLIGHT : Nat := 1

/-- The constant `SK_HASH_SIZE`. -/
def SK_HASH_SIZE : Nat := 32

/-- A `struct socket_desc`; the `next` link is the position in a chain. -/
structure socket_desc where
  family : Nat
  ino : Nat
  deriving DecidableEq, Repr

/-- A `struct unix_sk_desc`. `name` is `none` for `NULL`; `nr_icons` is the
length of `icons`. -/
structure unix_sk_desc where
  sd : socket_desc
  type : Nat
  state : Nat
  peer_ino : Nat
  rqlen : Nat
  wqlen : Nat
  namelen : Nat
  name : Option (List Nat)
  icons : List Nat
  deriving DecidableEq, Repr

/-- A `struct inet_sk_desc`. -/
structure inet_sk_desc where
  sd : socket_desc
  type : Nat
  proto : Nat
  src_port : Nat
  dst_port : Nat
  state : Nat
  rqlen : Nat
  wqlen : Nat
  src_addr : List Nat
  dst_addr : List Nat
  deriving DecidableEq, Repr

/-- What a `struct socket_desc *` of the `sockets` table points into. -/
inductive sk_desc where
  | unix (d : unix_sk_desc)
  | inet (d : inet_sk_desc)
  deriving DecidableEq, Repr

/-- The embedded `struct socket_desc` of a collected descriptor. -/
def sk_desc.sd : sk_desc → socket_desc
  | .unix d => d.sd
  | .inet d => d.sd

/-- A `struct unix_sk_listen_icon`. `sk_desc` is the descriptor the pointer
leads to: the descriptor is not written again once `unix_collect_one` has
returned, so the entry holds its final value. -/
structure unix_sk_listen_icon where
  peer_ino : Nat
  sk_desc : unix_sk_desc
  deriving DecidableEq, Repr

/-- An array of `SK_HASH_SIZE` chains: `head i` is the chain `head[i]`. The
index is an integer because `SK_HASH_LINK` and the lookups compute it with
`%` from a key that may be an `int`. The table itself is the chains at the
indexes 0 to `SK_HASH_SIZE - 1`; a chain at another index is not part of it
and stands for what an access outside the array finds next to it. -/
abbrev sk_hash (α : Type) := Int → List α

/-- The table with every chain empty (the static initial value). -/
def sk_hash_empty {α : Type} : sk_hash α := fun _ => []

/-- The macro `SK_HASH_LINK(head, key, elem)`: `elem` becomes the first element of the
chain at index `key % SK_HASH_SIZE`, `%` being the remainder of C. -/
def SK_HASH_LINK {α : Type} (head : sk_hash α) (key : Int) (elem : α) : sk_hash α :=
  fun i => if i = Int.tmod key SK_HASH_SIZE then elem :: head i else head i

/-- The function `lookup_socket(ino)`, generated with an `int` key: the comparison
`d->ino == ino` converts the key to `unsigned int`. -/
def lookup_socket (sockets : sk_hash sk_desc) (ino : Int) : Option sk_desc :=
  (sockets (Int.tmod ino SK_HASH_SIZE)).find? (fun d => decide (d.sd.ino = to_uint ino))

/-- The function `lookup_unix_listen_icons(ino)`, generated with an `unsigned int` key. -/
def lookup_unix_listen_icons (unix_listen_icons : sk_hash unix_sk_listen_icon) (ino : Nat) :
    Option unix_sk_listen_icon :=
  (unix_listen_icons ((ino % SK_HASH_SIZE : Nat) : Int)).find? (fun d => decide (d.peer_ino = ino))

/-- The function `sk_collect_one(ino, family, d)`: the descriptor with its common part
filled in, and the `sockets` table with the descriptor linked. `mk` rebuilds
the enclosing descriptor around the common part. The key is the `int`
parameter: when it is negative the index can be negative too, and the
descriptor is then linked outside the 32 chains of the table. -/
def sk_collect_one (sockets : sk_hash sk_desc) (ino : Int) (family : Int)
    (mk : socket_desc → sk_desc) : Int × sk_hash sk_desc :=
  let d := mk { ino := to_uint ino, family := to_uint family }
  (0, SK_HASH_LINK sockets ino d)

/-! ## Socket dumper (`sockets.c`, lines 88-105 and 276-370) -/

/-- A `struct sk_queue_item`. -/
structure sk_queue_item where
  fd : Int
  type : Nat
  sk_id : Nat
  deriving DecidableEq, Repr

/-- A `struct sk_queue`: the chain of entries, newest first, and the count. -/
structure sk_queue where
  list : List sk_queue_item
  entries : Nat
  deriving DecidableEq, Repr

/-- The function `unix_sk_queue_add(fd, sd, queue)`. -/
def unix_sk_queue_add (xmalloc_ok : Bool) (fd : Int) (sd : unix_sk_desc) (queue : sk_queue) :
    Int × sk_queue :=
  if !xmalloc_ok then (-1, queue)
  else
    let new : sk_queue_item := { fd := fd, type := sd.type, sk_id := sd.sd.ino }
    (0, { list := new :: queue.list, entries := queue.entries + 1 })

/-- A `struct unix_sk_entry`, the UNIX record of the image. -/
structure unix_sk_entry where
  id : Nat
  fd : Int
  type : Nat
  state : Nat
  namelen : Nat
  backlog : Nat
  flags : Nat
  peer : Nat
  deriving DecidableEq, Repr

/-- What the dumper appends to the `CR_FD_UNIXSK` stream: a record
(`write_img`) or a raw payload (`write_img_buf`). -/
inductive unixsk_item where
  | entry (ue : unix_sk_entry)
  | payload (bytes : List Nat)
  deriving DecidableEq, Repr

/-- The function `can_dump_unix_sk(sk)`. -/
def can_dump_unix_sk (sk : unix_sk_desc) : Int :=
  if sk.type ≠ SOCK_STREAM ∧ sk.type ≠ SOCK_DGRAM then 0
  else if sk.state = TCP_LISTEN then 1
  else if sk.state = TCP_ESTABLISHED then 1
  else if sk.state = TCP_CLOSE then
    if sk.type ≠ SOCK_DGRAM then 0 else 1
  else 0

/-- Outcomes of the calls `dump_one_unix` makes; a write that fails appends
nothing to the stream. -/
structure DumpOutcomes where
  write_img_ok : Bool
  write_img_buf_ok : Bool
  xmalloc_ok : Bool
  deriving DecidableEq, Repr

/-- Result of `dump_one_unix`: the return value, what the call appended to the
`CR_FD_UNIXSK` stream, and the queued-data list. -/
structure DumpResult where
  ret : Int
  written : List unixsk_item
  queue : sk_queue
  deriving DecidableEq, Repr

/-- The record `dump_one_unix` builds (lines 311-350): `none` is the `goto err`
of a dangling in-flight connection. -/
def dump_one_unix_entry (unix_listen_icons : sk_hash unix_sk_listen_icon)
    (sk : unix_sk_desc) (fd : Int) : Option unix_sk_entry :=
  let ue : unix_sk_entry :=
    { fd := fd, id := sk.sd.ino, type := sk.type, state := sk.state, namelen := sk.namelen,
      backlog := sk.wqlen, flags := 0, peer := sk.peer_ino }
  if ue.peer = 0 ∧ ue.state = TCP_ESTABLISHED then
    match lookup_unix_listen_icons unix_listen_icons ue.id with
    | none => none
    | some e =>
      if e.sk_desc.state ≠ TCP_LISTEN then none
      else some { ue with flags := ue.flags ||| USK_INFLIGHT, peer := e.sk_desc.sd.ino }
  else some ue

/-- The function `dump_one_unix(sk, fd, cr_fdset, queue)`. -/
def dump_one_unix (unix_listen_icons : sk_hash unix_sk_listen_icon) (o : DumpOutcomes)
    (sk : unix_sk_desc) (fd : Int) (queue : sk_queue) : DumpResult :=
  if can_dump_unix_sk sk = 0 then { ret := -1, written := [], queue := queue }
  else
    match dump_one_unix_entry unix_listen_icons sk fd with
    | none => { ret := -1, written := [], queue := queue }
    | some ue =>
      if !o.write_img_ok then { ret := -1, written := [], queue := queue }
      else if !o.write_img_buf_ok then
        { ret := -1, written := [unixsk_item.entry ue], queue := queue }
      else
        let written :=
          [unixsk_item.entry ue, unixsk_item.payload ((sk.name.getD []).take ue.namelen)]
        if sk.rqlen ≠ 0 ∧ ¬ (sk.type = SOCK_STREAM ∧ sk.state = TCP_LISTEN) then
          let r := unix_sk_queue_add o.xmalloc_ok fd sk queue
          if r.1 ≠ 0 then { ret := -1, written := written, queue := r.2 }
          else { ret := 0, written := written, queue := r.2 }
        else { ret := 0, written := written, queue := queue }

/-! ## Socket collector (`sockets.c`, lines 453-579) -/

/-- The fields of `struct unix_diag_msg` the collector reads. -/
structure unix_diag_msg where
  udiag_type : Nat
  udiag_state : Nat
  udiag_ino : Nat
  deriving DecidableEq, Repr

/-- A `struct unix_diag_vfs`. -/
structure unix_diag_vfs where
  udiag_vfs_ino : Nat
  udiag_vfs_dev : Nat
  deriving DecidableEq, Repr

/-- A `struct unix_diag_rqlen`. -/
structure unix_diag_rqlen where
  udiag_rqueue : Nat
  udiag_wqueue : Nat
  deriving DecidableEq, Repr

/-- The parsed attributes `tb[]` of one UNIX diag message; `none` is an absent
attribute. `UNIX_DIAG_PEER` carries one word, `UNIX_DIAG_NAME` the bytes of
its payload, `UNIX_DIAG_ICONS` the whole `u32` words of its payload. -/
structure unix_rtattrs where
  UNIX_DIAG_NAME : Option (List Nat)
  UNIX_DIAG_VFS : Option unix_diag_vfs
  UNIX_DIAG_PEER : Option Nat
  UNIX_DIAG_ICONS : Option (List Nat)
  UNIX_DIAG_RQLEN : Option unix_diag_rqlen
  deriving DecidableEq, Repr

/-- The fields of `struct stat` the collector reads. -/
structure stat_buf where
  st_ino : Nat
  st_dev : Nat
  deriving DecidableEq, Repr

/-- Outcomes of the calls `unix_collect_one` makes: the allocations, `stat`
on the bound name (`none` when it fails) and the helper `kdev_to_odev`, which
is not among the sources. `xzalloc_icon_ok i` is the allocation of the entry
for `icons[i]`. -/
structure CollectOutcomes where
  xzalloc_d_ok : Bool
  xmalloc_name_ok : Bool
  stat : Option stat_buf
  kdev_to_odev : Nat → Nat
  xmalloc_icons_ok : Bool
  xzalloc_icon_ok : Nat → Bool

/-- The two tables the collector fills. -/
structure sk_tables where
  sockets : sk_hash sk_desc
  unix_listen_icons : sk_hash unix_sk_listen_icon

/-- The tables before any socket is collected. -/
def sk_tables_empty : sk_tables :=
  { sockets := sk_hash_empty, unix_listen_icons := sk_hash_empty }

/-- The name part of `unix_collect_one` (lines 468-525). `some (some d)` goes on
with the descriptor, `some none` is the `return 0` of a relative bind path,
`none` is `goto err`. -/
def unix_collect_name (o : CollectOutcomes) (tb : unix_rtattrs) (d : unix_sk_desc) : Option (Option unix_sk_desc) :=
  match tb.UNIX_DIAG_NAME with
  | none => some (some d)
  | some data =>
    let len := data.length
    if !o.xmalloc_name_ok then none
    else
      let name := data ++ [0]
      if name.headD 0 ≠ 0 ∧ d.state = TCP_LISTEN then
        if name.headD 0 ≠ 47 then some none
        else
          match tb.UNIX_DIAG_VFS with
          | none => none
          | some uv =>
            match o.stat with
            | none => none
            | some st =>
              if st.st_ino ≠ uv.udiag_vfs_ino ∨ st.st_dev ≠ o.kdev_to_odev uv.udiag_vfs_dev then
                some (some { d with namelen := 0, name := none })
              else some (some { d with namelen := len, name := some name })
      else some (some { d with namelen := len, name := some name })

/-- The loop over `d->icons` of `unix_collect_one` (lines 542-556), from index
`i` on: every entry is linked under the key `icons[i]` and points to `d`.
`false` in the result is the `goto err` of a failed allocation. -/
def unix_collect_icons (o : CollectOutcomes) (d : unix_sk_desc) :
    List Nat → Nat → sk_hash unix_sk_listen_icon → Bool × sk_hash unix_sk_listen_icon
  | [], _, icons_tab => (true, icons_tab)
  | icon :: rest, i, icons_tab =>
    if !o.xzalloc_icon_ok i then (false, icons_tab)
    else
      unix_collect_icons o d rest (i + 1)
        (SK_HASH_LINK icons_tab (icon : Int) { peer_ino := icon, sk_desc := d })

/-- The descriptor after lines 458-466 of `unix_collect_one`: zeroed, then
`type`, `state` and, when the attribute is there, `peer_ino`. -/
def unix_desc_init (m : unix_diag_msg) (tb : unix_rtattrs) : unix_sk_desc :=
  let d : unix_sk_desc :=
    { sd := { family := 0, ino := 0 }, type := m.udiag_type, state := m.udiag_state,
      peer_ino := 0, rqlen := 0, wqlen := 0, namelen := 0, name := none, icons := [] }
  match tb.UNIX_DIAG_PEER with
  | some peer => { d with peer_ino := peer % 2 ^ 32 }
  | none => d

/-- The copy of the `UNIX_DIAG_ICONS` payload into `d->icons` (lines 528-536). -/
def unix_desc_icons (tb : unix_rtattrs) (d : unix_sk_desc) : unix_sk_desc :=
  match tb.UNIX_DIAG_ICONS with
  | some icons => { d with icons := icons }
  | none => d

/-- The `UNIX_DIAG_RQLEN` part of `unix_collect_one` (lines 561-567). -/
def unix_desc_rqlen (tb : unix_rtattrs) (d : unix_sk_desc) : unix_sk_desc :=
  match tb.UNIX_DIAG_RQLEN with
  | some rq => { d with rqlen := rq.udiag_rqueue, wqlen := rq.udiag_wqueue }
  | none => d

/-- The descriptor `d` with its common part replaced. -/
def unix_desc_with_sd (d : unix_sk_desc) (sd : socket_desc) : unix_sk_desc :=
  { d with sd := sd }

/-- The function `unix_collect_one(m, tb)`. The icon entries point to the descriptor, which
the function goes on filling after the loop (`rqlen`, `wqlen`, the common
part): the entries therefore carry the descriptor as it is on return, `d_ret`.
On the `goto err` of the loop the entries already linked stay linked,
pointing to the released descriptor. -/
def unix_collect_one (o : CollectOutcomes) (m : unix_diag_msg) (tb : unix_rtattrs)
    (T : sk_tables) : Int × sk_tables :=
  if !o.xzalloc_d_ok then (-1, T)
  else
    match unix_collect_name o tb (unix_desc_init m tb) with
    | none => (-1, T)
    | some none => (0, T)
    | some (some d) =>
      if tb.UNIX_DIAG_ICONS.isSome ∧ !o.xmalloc_icons_ok then (-1, T)
      else
        let d := unix_desc_icons tb d
        let d_rq := unix_desc_rqlen tb d
        let d_ret := unix_desc_with_sd d_rq
          { ino := to_uint (to_int m.udiag_ino), family := to_uint AF_UNIX }
        let l := unix_collect_icons o d_ret d.icons 0 T.unix_listen_icons
        if !l.1 then (-1, { T with unix_listen_icons := l.2 })
        else
          let c := sk_collect_one T.sockets (to_int m.udiag_ino) AF_UNIX
            (fun sd => sk_desc.unix (unix_desc_with_sd d_rq sd))
          (0, { sockets := c.2, unix_listen_icons := l.2 })

/-- The tables after the diag messages of `calls` have gone through
`unix_collect_one` in order, starting from `T`; `none` when a call returns -1
(the receive loop stops there). -/
def unix_collect_all : List (CollectOutcomes × unix_diag_msg × unix_rtattrs) → sk_tables →
    Option sk_tables
  | [], T => some T
  | (o, m, tb) :: rest, T =>
    if (unix_collect_one o m tb T).1 ≠ 0 then none
    else unix_collect_all rest (unix_collect_one o m tb T).2

/-! ## Socket restorer: environment (`sockets.c`, lines 712-1098) -/

/-- A `struct sockaddr_un`: the family and the bytes of `sun_path`. -/
structure sockaddr_un where
  sun_family : Nat
  sun_path : List Nat
  deriving DecidableEq, Repr

/-- The first `addrlen` bytes of an address, which is what `bind` and `connect`
read of it: the two bytes of `sun_family` (little endian), then `sun_path`. -/
def sockaddr_bytes (addr : sockaddr_un) (addrlen : Int) : List Nat :=
  ([addr.sun_family % 256, addr.sun_family / 256 % 256] ++ addr.sun_path).take addrlen.toNat

/-- A call the restorer makes to the system or to a helper outside the file. -/
inductive sys_call where
  | bind (sk : Int) (addr : List Nat) (addrlen : Int)
  | listen (sk : Int) (backlog : Int)
  | connect (fd : Int) (addr : List Nat) (addrlen : Int)
  | usleep (usec : Nat)
  | sendfile (out_fd : Int) (offset : Int) (count : Nat)
  | unlink (path : List Nat)
  | read_img_buf (size : Nat)
  | xmalloc
  | socket (family : Int) (type : Int) (proto : Int)
  | close (fd : Int)
  | move_img_fd (fd : Int)
  | reopen_fd_as (fd : Int) (sk : Int)
  deriving DecidableEq, Repr

/-- The environment of the restorer: `ret n c` is what the call `c` returns
when `n` calls were made before it (for `xmalloc`, 0 is `NULL`), and
`uninit_addr n` is the content of an uninitialised `struct sockaddr_un` on the
stack at that moment. -/
structure Sys where
  ret : Nat → sys_call → Int
  uninit_addr : Nat → sockaddr_un

/-- A `struct unix_conn_job`. -/
structure unix_conn_job where
  fd : Int
  peer : Nat
  type : Int
  deriving DecidableEq, Repr

/-- The constant `CJ_DGRAM`. -/
def CJ_DGRAM : Int := 0

/-- The constant `CJ_STREAM`. -/
def CJ_STREAM : Int := 1

/-- The constant `CJ_STREAM_INFLIGHT`. -/
def CJ_STREAM_INFLIGHT : Int := 2

/-- A `struct unix_accept_job`. -/
structure unix_accept_job where
  fd : Int
  peer : Int
  deriving DecidableEq, Repr

/-- A `struct unix_sk_listen`. -/
structure unix_sk_listen where
  ino : Nat
  addr : sockaddr_un
  addrlen : Nat
  type : Int
  deriving DecidableEq, Repr

/-- The static state of the restorer (`conn_jobs`, `accept_jobs`,
`unix_listen`) and the calls made so far, oldest first. -/
structure restorer where
  conn_jobs : List unix_conn_job
  accept_jobs : List unix_accept_job
  unix_listen : sk_hash unix_sk_listen
  log : List sys_call

/-- Makes the call `c`: its return value, and the state with the call logged. -/
def sys (S : Sys) (R : restorer) (c : sys_call) : Int × restorer :=
  (S.ret R.log.length c, { R with log := R.log ++ [c] })

/-- The function `lookup_unix_listen(ino, type)`. -/
def lookup_unix_listen (unix_listen : sk_hash unix_sk_listen) (ino : Nat) (type : Int) :
    Option unix_sk_listen :=
  (unix_listen ((ino % SK_HASH_SIZE : Nat) : Int)).find?
    (fun l => decide (l.ino = ino) && decide (l.type = type))

/-! ## Packet pool and queue replay (`sockets.c`, lines 712-785) -/

/-- The fields of `struct sk_packet_entry` the restorer reads. -/
structure sk_packet_entry where
  id_for : Nat
  length : Nat
  deriving DecidableEq, Repr

/-- A `struct sk_packet`; the list linkage is the position in the pool. -/
structure sk_packet where
  entry : sk_packet_entry
  img_off : Int
  deriving DecidableEq, Repr

/-- The function `restore_socket_queue(pool, fd, peer_id)`: the return value, the pool and
the log of calls afterwards. The value `sendfile` returns is the one stored in
`int ret`; `sendfile` advances `pkt->img_off` by the bytes it has sent. -/
def restore_socket_queue (S : Sys) : List sk_packet → Int → Nat → List sys_call →
    Int × List sk_packet × List sys_call
  | [], _, _, log => (0, [], log)
  | pkt :: rest, fd, peer_id, log =>
    if pkt.entry.id_for ≠ peer_id then
      let r := restore_socket_queue S rest fd peer_id log
      (r.1, pkt :: r.2.1, r.2.2)
    else
      let c := sys_call.sendfile fd pkt.img_off pkt.entry.length
      let ret := S.ret log.length c
      if ret < 0 then (-1, pkt :: rest, log ++ [c])
      else if ret ≠ (pkt.entry.length : Int) then
        (-1, { pkt with img_off := pkt.img_off + ret } :: rest, log ++ [c])
      else restore_socket_queue S rest fd peer_id (log ++ [c])

/-! ## Rendezvous address (`sockets.c`, lines 787-795) -/

/-- The conversion `%d` of `printf`. -/
def fmt_d (i : Int) : List Char :=
  if i < 0 then '-' :: Nat.toDigits 10 (-i).toNat else Nat.toDigits 10 i.toNat

/-- A minimum field width of `printf`: blanks on the left up to `width`
characters, nothing cut. -/
def fmt_width (width : Nat) (s : List Char) : List Char :=
  List.replicate (width - s.length) ' ' ++ s

/-- The bytes `snprintf(buf, size, ...)` stores for the output `out`: at most
`size - 1` characters, then a NUL. -/
def snprintf (size : Nat) (out : List Char) : List Nat :=
  if size = 0 then [] else (out.take (size - 1)).map Char.toNat ++ [0]

/-- The buffer `buf` after `src` is stored at offset `off`. -/
def buf_store (buf : List Nat) (off : Nat) (src : List Nat) : List Nat :=
  buf.take off ++ src ++ buf.drop (off + src.length)

/-- The output of the format `"crtools-sk-%10d"` for `id`. -/
def conn_name (id : Int) : List Char :=
  "crtools-sk-".toList ++ fmt_width 10 (fmt_d id)

/-- The function `prep_conn_addr(id, addr, addrlen)`: the address written over `addr`, and
`*addrlen`. `sizeof(addr->sun_family)` is 2 and `sizeof("crtools-sk-")` counts
the closing NUL. -/
def prep_conn_addr (id : Int) (addr : sockaddr_un) : sockaddr_un × Int :=
  let addr := { addr with sun_family := AF_UNIX }
  let addr := { addr with sun_path := buf_store addr.sun_path 0 [0] }
  let name := snprintf (UNIX_PATH_MAX - 1) (conn_name id)
  let addr := { addr with sun_path := buf_store addr.sun_path 1 name }
  (addr, ((2 + ("crtools-sk-".length + 1) + 10 : Nat) : Int))

/-! ## Deferred jobs (`sockets.c`, lines 797-949 and 982-1098) -/

/-- The function `schedule_conn_job(type, ue)`. -/
def schedule_conn_job (S : Sys) (type : Int) (ue : unix_sk_entry) (R : restorer) :
    Int × restorer :=
  let a := sys S R sys_call.xmalloc
  if a.1 = 0 then (-1, a.2)
  else
    let cj : unix_conn_job := { type := type, peer := ue.peer, fd := ue.fd }
    (0, { a.2 with conn_jobs := cj :: a.2.conn_jobs })

/-- The address `run_connect_jobs` connects the job `cj` to (lines 852-870);
`none` is the `return -1` of a peer that is not in the `unix_listen` table. -/
def conn_job_addr (unix_listen : sk_hash unix_sk_listen) (uninit : sockaddr_un)
    (cj : unix_conn_job) : Option (sockaddr_un × Int) :=
  if cj.type = CJ_STREAM then some (prep_conn_addr (to_int cj.peer) uninit)
  else
    let e :=
      if cj.type = CJ_STREAM_INFLIGHT then lookup_unix_listen unix_listen cj.peer SOCK_STREAM
      else lookup_unix_listen unix_listen cj.peer SOCK_DGRAM
    match e with
    | none => none
    | some e => some (e.addr, (e.addrlen : Int))

/-- The `try_again` loop of `run_connect_jobs` (lines 873-882) with `attempts`
retries left: whether a `connect` succeeded, and the log afterwards. -/
def connect_try_again (S : Sys) (fd : Int) (addr : List Nat) (addrlen : Int) :
    Nat → List sys_call → Bool × List sys_call
  | 0, log =>
    if S.ret log.length (sys_call.connect fd addr addrlen) < 0 then
      (false, log ++ [sys_call.connect fd addr addrlen])
    else (true, log ++ [sys_call.connect fd addr addrlen])
  | attempts + 1, log =>
    if S.ret log.length (sys_call.connect fd addr addrlen) < 0 then
      connect_try_again S fd addr addrlen attempts
        (log ++ [sys_call.connect fd addr addrlen] ++ [sys_call.usleep 1000])
    else (true, log ++ [sys_call.connect fd addr addrlen])

/-- The `while (cj)` loop of `run_connect_jobs` over the jobs still to run. -/
def run_connect_jobs_loop (S : Sys) (unix_listen : sk_hash unix_sk_listen) :
    List unix_conn_job → List sk_packet → List sys_call → Int × List sk_packet × List sys_call
  | [], pool, log => (0, pool, log)
  | cj :: next, pool, log =>
    match conn_job_addr unix_listen (S.uninit_addr log.length) cj with
    | none => (-1, pool, log)
    | some (addr, addrlen) =>
      let c := connect_try_again S cj.fd (sockaddr_bytes addr addrlen) addrlen 8 log
      if !c.1 then (-1, pool, c.2)
      else
        let q := restore_socket_queue S pool cj.fd cj.peer c.2
        if q.1 < 0 then (-1, q.2.1, q.2.2)
        else run_connect_jobs_loop S unix_listen next q.2.1 q.2.2

/-- The function `run_connect_jobs(pool)`. The function releases the jobs and the entries
of `unix_listen` without resetting `conn_jobs` or the table heads, which are
left as they were. -/
def run_connect_jobs (S : Sys) (pool : List sk_packet) (R : restorer) :
    Int × List sk_packet × restorer :=
  let r := run_connect_jobs_loop S R.unix_listen R.conn_jobs pool R.log
  (r.1, r.2.1, { R with log := r.2.2 })

/-- The function `schedule_acc_job(sk, ue)`. -/
def schedule_acc_job (S : Sys) (sk : Int) (ue : unix_sk_entry) (R : restorer) :
    Int × restorer :=
  let p := prep_conn_addr (to_int ue.id) (S.uninit_addr R.log.length)
  let b := sys S R (sys_call.bind sk (sockaddr_bytes p.1 p.2) p.2)
  if b.1 < 0 then (-1, b.2)
  else
    let l := sys S b.2 (sys_call.listen sk 1)
    if l.1 < 0 then (-1, l.2)
    else
      let a := sys S l.2 sys_call.xmalloc
      if a.1 = 0 then (-1, a.2)
      else
        let aj : unix_accept_job := { fd := ue.fd, peer := to_int ue.peer }
        (0, { a.2 with accept_jobs := aj :: a.2.accept_jobs })

/-- The function `bind_unix_sk_to_addr(sk, addr, addrlen, id, type)`. -/
def bind_unix_sk_to_addr (S : Sys) (sk : Int) (addr : sockaddr_un) (addrlen : Int) (id : Int)
    (type : Int) (R : restorer) : Int × restorer :=
  let b := sys S R (sys_call.bind sk (sockaddr_bytes addr addrlen) addrlen)
  if b.1 < 0 then (-1, b.2)
  else
    let a := sys S b.2 sys_call.xmalloc
    if a.1 = 0 then (-1, a.2)
    else
      let e : unix_sk_listen :=
        { addr := addr, addrlen := to_uint addrlen, ino := to_uint id, type := type }
      (0, { a.2 with unix_listen := SK_HASH_LINK a.2.unix_listen (e.ino : Int) e })

/-- The function `bind_unix_sk(sk, ue, img_fd)`; `img_name` is what the image holds after
the record. -/
def bind_unix_sk (S : Sys) (sk : Int) (ue : unix_sk_entry) (img_name : List Nat)
    (R : restorer) : Int × restorer :=
  if ue.namelen = 0 ∨ ue.namelen ≥ UNIX_PATH_MAX then (-1, R)
  else
    let addr : sockaddr_un :=
      { sun_family := AF_UNIX, sun_path := List.replicate UNIX_PATH_MAX 0 }
    let r := sys S R (sys_call.read_img_buf ue.namelen)
    if r.1 < 0 then (-1, r.2)
    else
      let addr := { addr with sun_path := buf_store addr.sun_path 0 (img_name.take ue.namelen) }
      let u :=
        if addr.sun_path.headD 0 ≠ 0 then
          (sys S r.2 (sys_call.unlink (addr.sun_path.takeWhile (fun b => b ≠ 0)))).2
        else r.2
      bind_unix_sk_to_addr S sk addr ((2 + ue.namelen : Nat) : Int) (to_int ue.id)
        (ue.type : Int) u

/-- The function `open_unix_sk_stream(sk, ue, img_fd)`. -/
def open_unix_sk_stream (S : Sys) (sk : Int) (ue : unix_sk_entry) (img_name : List Nat)
    (R : restorer) : Int × restorer :=
  if ue.state = TCP_LISTEN then
    let b := bind_unix_sk S sk ue img_name R
    if b.1 < 0 then b
    else sys S b.2 (sys_call.listen sk (to_int ue.backlog))
  else if ue.state = TCP_ESTABLISHED then
    if ue.peer < ue.id ∧ ue.flags &&& USK_INFLIGHT = 0 then schedule_acc_job S sk ue R
    else
      schedule_conn_job S
        (if ue.flags &&& USK_INFLIGHT ≠ 0 then CJ_STREAM_INFLIGHT else CJ_STREAM) ue R
  else (-1, R)

/-! ## Datagram sockets (`sockets.c`, lines 1033-1059) -/

/-- The function `open_unix_sk_dgram(sk, ue, img_fd)`; `img_name` is what the
image holds after the record. -/
def open_unix_sk_dgram (S : Sys) (sk : Int) (ue : unix_sk_entry) (img_name : List Nat)
    (R : restorer) : Int × restorer :=
  let r : Int × restorer :=
    if ue.namelen ≠ 0 then bind_unix_sk S sk ue img_name R
    else if ue.peer ≠ 0 then
      let p := prep_conn_addr (to_int ue.id) (S.uninit_addr R.log.length)
      bind_unix_sk_to_addr S sk p.1 p.2 (to_int ue.id) (SOCK_DGRAM : Int) R
    else (0, R)
  if r.1 = 0 ∧ ue.peer ≠ 0 then schedule_conn_job S CJ_DGRAM ue r.2
  else r

/-! ## INET sockets: dump (`sockets.c`, lines 205-274) -/

/-- The constant `IPPROTO_TCP` of `<netinet/in.h>`. -/
def IPPROTO_TCP : Nat := 6

/-- The constant `IPPROTO_UDP` of `<netinet/in.h>`. -/
def IPPROTO_UDP : Nat := 17

/-- A `struct inet_sk_entry`, the INET record of the image. -/
structure inet_sk_entry where
  id : Nat
  fd : Int
  family : Nat
  type : Nat
  proto : Nat
  state : Nat
  src_port : Nat
  dst_port : Nat
  backlog : Nat
  src_addr : List Nat
  dst_addr : List Nat
  deriving DecidableEq, Repr

/-- The function `can_dump_inet_sk(sk)`. -/
def can_dump_inet_sk (sk : inet_sk_desc) : Int :=
  if sk.sd.family ≠ AF_INET then 0
  else if sk.type = SOCK_DGRAM then 1
  else if sk.type ≠ SOCK_STREAM then 0
  else if sk.state = TCP_LISTEN then
    if sk.rqlen ≠ 0 then 0 else 1
  else 0

/-- The function `dump_one_inet(sk, fd, cr_fdset, queue)`: the return value and what
the call appended to the `CR_FD_INETSK` stream; a `write_img` that fails
appends nothing. -/
def dump_one_inet (write_img_ok : Bool) (sk : inet_sk_desc) (fd : Int) :
    Int × List inet_sk_entry :=
  if can_dump_inet_sk sk = 0 then (-1, [])
  else
    let ie : inet_sk_entry :=
      { fd := fd, id := sk.sd.ino, family := sk.sd.family, type := sk.type, proto := sk.proto,
        state := sk.state, src_port := sk.src_port, dst_port := sk.dst_port,
        backlog := sk.wqlen, src_addr := sk.src_addr.take 4, dst_addr := sk.dst_addr.take 4 }
    if !write_img_ok then (-1, [])
    else (0, [ie])

/-! ## INET sockets: restore (`sockets.c`, lines 1179-1253) -/

/-- The function `htons` on a little-endian host. -/
def htons (x : Nat) : Nat := x % 256 * 256 + x / 256 % 256

/-- The four bytes of a 32-bit word in memory (little endian). -/
def le32 (w : Nat) : List Nat := [w % 256, w / 256 % 256, w / 65536 % 256, w / 16777216 % 256]

/-- The sixteen bytes of the `struct sockaddr_in` that `open_inet_sk` hands to
`bind` and `connect`: `sin_family`, `sin_port` (the value `htons` returned),
then what the `memcpy` of four words to `&addr.sin_addr.s_addr` leaves inside
the structure: the first word in `sin_addr`, the next two in `sin_zero`. The
fourth word falls past the end of `addr`; what it overwrites there is not
part of this model. -/
def sockaddr_in_bytes (family : Nat) (sin_port : Nat) (words : List Nat) : List Nat :=
  [family % 256, family / 256 % 256] ++ [sin_port % 256, sin_port / 256 % 256] ++
    le32 (words.getD 0 0) ++ le32 (words.getD 1 0) ++ le32 (words.getD 2 0)

/-- The label `err` of `open_inet_sk`: `close(sk)`, then -1. -/
def open_inet_sk_err (sk : Int) (log : List sys_call) : Int × List sys_call :=
  (-1, log ++ [sys_call.close sk])

/-- The end of `open_inet_sk` (lines 1245-1248): `move_img_fd`, then
`reopen_fd_as(ie->fd, sk)`, whose value is returned. -/
def open_inet_sk_install (S : Sys) (ie : inet_sk_entry) (sk : Int) (log : List sys_call) :
    Int × List sys_call :=
  if S.ret log.length (sys_call.move_img_fd ie.fd) ≠ 0 then
    (-1, log ++ [sys_call.move_img_fd ie.fd])
  else
    (S.ret (log.length + 1) (sys_call.reopen_fd_as ie.fd sk),
      log ++ [sys_call.move_img_fd ie.fd] ++ [sys_call.reopen_fd_as ie.fd sk])

/-- The `TCP_ESTABLISHED` part of `open_inet_sk` (lines 1228-1243) and what
follows it. -/
def open_inet_sk_established (S : Sys) (ie : inet_sk_entry) (sk : Int) (log : List sys_call) :
    Int × List sys_call :=
  if ie.state = TCP_ESTABLISHED then
    if ie.proto ≠ IPPROTO_UDP then open_inet_sk_err sk log
    else
      let c := sys_call.connect sk
        (sockaddr_in_bytes ie.family (htons ie.dst_port) ie.dst_addr) 16
      if S.ret log.length c = -1 then open_inet_sk_err sk (log ++ [c])
      else open_inet_sk_install S ie sk (log ++ [c])
  else open_inet_sk_install S ie sk log

/-- The `TCP_LISTEN` part of `open_inet_sk` (lines 1216-1226) and what follows
it. -/
def open_inet_sk_listen (S : Sys) (ie : inet_sk_entry) (sk : Int) (log : List sys_call) :
    Int × List sys_call :=
  if ie.state = TCP_LISTEN then
    if ie.proto ≠ IPPROTO_TCP then open_inet_sk_err sk log
    else
      let c := sys_call.listen sk (to_int ie.backlog)
      if S.ret log.length c = -1 then open_inet_sk_err sk (log ++ [c])
      else open_inet_sk_established S ie sk (log ++ [c])
  else open_inet_sk_established S ie sk log

/-- The function `open_inet_sk(ie, img_fd)`: the return value and the log of calls
afterwards. -/
def open_inet_sk (S : Sys) (ie : inet_sk_entry) (log : List sys_call) : Int × List sys_call :=
  if ie.family ≠ AF_INET then (-1, log)
  else if ie.type ≠ SOCK_STREAM ∧ ie.type ≠ SOCK_DGRAM then (-1, log)
  else
    let s := sys_call.socket ie.family ie.type ie.proto
    let sk := S.ret log.length s
    if sk < 0 then (-1, log ++ [s])
    else
      let b := sys_call.bind sk (sockaddr_in_bytes ie.family (htons ie.src_port) ie.src_addr) 16
      if S.ret (log.length + 1) b = -1 then open_inet_sk_err sk (log ++ [s] ++ [b])
      else open_inet_sk_listen S ie sk (log ++ [s] ++ [b])

/-! ## Remote execution (`parasite-syscall.c`, lines 65-186) -/

/-- The constant `SIGTRAP` of `<signal.h>`. -/
def SIGTRAP : Nat := 5

/-- The macro `WIFSTOPPED(status)` of `<sys/wait.h>`. -/
def WIFSTOPPED (status : Nat) : Bool := decide (status &&& 0xff = 0x7f)

/-- The macro `WSTOPSIG(status)` of `<sys/wait.h>`. -/
def WSTOPSIG (status : Nat) : Nat := (status &&& 0xff00) >>> 8

/-- The fields of `siginfo_t` the file reads. -/
structure siginfo_t where
  si_signo : Int
  si_code : Int
  deriving DecidableEq, Repr

/-- Declarations of the ptrace headers that `__parasite_execute` uses and the
two files do not define. -/
structure PtraceDefs where
  ARCH_SI_TRAP : Int
  SI_EVENT : Int → Int
  PTRACE_EVENT_STOP : Int

/-- A call `__parasite_execute` makes; `data` of `PTRACE_CONT` is the signal to
deliver, 0 for `NULL`. -/
inductive ptrace_call where
  | SETREGS (pid : Int) (regs : user_regs_struct_t)
  | CONT (pid : Int) (data : Nat)
  | wait4 (pid : Int)
  | GETSIGINFO (pid : Int)
  | GETREGS (pid : Int)
  | INTERRUPT (pid : Int)
  deriving DecidableEq, Repr

/-- The tracee as the tracer sees it: `ret n c` is what the call `c` returns
when `n` calls were made before it (`wait4` returns a pid), and `status n`,
`siginfo n`, `regs n` are what a `wait4`, a `PTRACE_GETSIGINFO`, a
`PTRACE_GETREGS` made at that moment stores. -/
structure Tracee where
  ret : Nat → ptrace_call → Int
  status : Nat → Nat
  siginfo : Nat → siginfo_t
  regs : Nat → user_regs_struct_t

/-- Result of `__parasite_execute`: the return value, the control block, the
registers left in `*regs`, and the log of calls afterwards. -/
structure exec_result where
  ret : Int
  ctl : parasite_ctl
  regs : user_regs_struct_t
  log : List ptrace_call
  deriving DecidableEq, Repr

/-- The lines `wait4`, `WIFSTOPPED`, `PTRACE_GETSIGINFO` that follow either
`PTRACE_CONT` (lines 87-100 and 145-158): the status and the siginfo of the
stop, `none` for `goto err`, and the log afterwards. -/
def wait_for_stop (T : Tracee) (pid : Int) (log : List ptrace_call) :
    Option (Nat × siginfo_t) × List ptrace_call :=
  if T.ret log.length (ptrace_call.wait4 pid) ≠ pid then (none, log ++ [ptrace_call.wait4 pid])
  else if !WIFSTOPPED (T.status log.length) then (none, log ++ [ptrace_call.wait4 pid])
  else if T.ret (log.length + 1) (ptrace_call.GETSIGINFO pid) ≠ 0 then
    (none, log ++ [ptrace_call.wait4 pid] ++ [ptrace_call.GETSIGINFO pid])
  else
    (some (T.status log.length, T.siginfo (log.length + 1)),
      log ++ [ptrace_call.wait4 pid] ++ [ptrace_call.GETSIGINFO pid])

/-- The two labels `__parasite_execute` jumps to. -/
inductive exec_label where
  | again
  | retry_signal (siginfo : siginfo_t)
  deriving DecidableEq, Repr

/-- The body of `__parasite_execute` from a label on; every jump to a label
uses one unit of `fuel`, and `none` is a run that has not returned when the
fuel is spent. -/
def parasite_execute_from (D : PtraceDefs) (T : Tracee) (pid : Int) :
    Nat → exec_label → parasite_ctl → user_regs_struct_t → List ptrace_call →
    Option exec_result
  | 0, _, _, _, _ => none
  | fuel + 1, exec_label.again, ctl, regs, log =>
    if T.ret log.length (ptrace_call.SETREGS pid regs) ≠ 0 then
      some { ret := -1, ctl := ctl, regs := regs, log := log ++ [ptrace_call.SETREGS pid regs] }
    else if T.ret (log.length + 1) (ptrace_call.CONT pid 0) ≠ 0 then
      some { ret := -1, ctl := ctl, regs := regs,
             log := log ++ [ptrace_call.SETREGS pid regs] ++ [ptrace_call.CONT pid 0] }
    else
      let w := wait_for_stop T pid
        (log ++ [ptrace_call.SETREGS pid regs] ++ [ptrace_call.CONT pid 0])
      match w.1 with
      | none => some { ret := -1, ctl := ctl, regs := regs, log := w.2 }
      | some (status, siginfo) =>
        if T.ret w.2.length (ptrace_call.GETREGS pid) ≠ 0 then
          some { ret := -1, ctl := ctl, regs := regs,
                 log := w.2 ++ [ptrace_call.GETREGS pid] }
        else
          let regs := T.regs w.2.length
          if WSTOPSIG status ≠ SIGTRAP ∨ siginfo.si_code ≠ D.ARCH_SI_TRAP then
            parasite_execute_from D T pid fuel (exec_label.retry_signal siginfo) ctl regs
              (w.2 ++ [ptrace_call.GETREGS pid])
          else
            some { ret := 0, ctl := ctl, regs := regs, log := w.2 ++ [ptrace_call.GETREGS pid] }
  | fuel + 1, exec_label.retry_signal siginfo, ctl, regs, log =>
    if ctl.signals_blocked ≠ 0 then some { ret := -1, ctl := ctl, regs := regs, log := log }
    else if T.ret log.length (ptrace_call.SETREGS pid ctl.regs_orig) ≠ 0 then
      some { ret := -1, ctl := ctl, regs := regs,
             log := log ++ [ptrace_call.SETREGS pid ctl.regs_orig] }
    else if T.ret (log.length + 1) (ptrace_call.INTERRUPT pid) ≠ 0 then
      some { ret := -1, ctl := ctl, regs := regs,
             log := log ++ [ptrace_call.SETREGS pid ctl.regs_orig] ++
               [ptrace_call.INTERRUPT pid] }
    else if T.ret (log.length + 2)
        (ptrace_call.CONT pid (siginfo.si_signo % 2 ^ 64).toNat) ≠ 0 then
      some { ret := -1, ctl := ctl, regs := regs,
             log := log ++ [ptrace_call.SETREGS pid ctl.regs_orig] ++
               [ptrace_call.INTERRUPT pid] ++
               [ptrace_call.CONT pid (siginfo.si_signo % 2 ^ 64).toNat] }
    else
      let w := wait_for_stop T pid
        (log ++ [ptrace_call.SETREGS pid ctl.regs_orig] ++ [ptrace_call.INTERRUPT pid] ++
          [ptrace_call.CONT pid (siginfo.si_signo % 2 ^ 64).toNat])
      match w.1 with
      | none => some { ret := -1, ctl := ctl, regs := regs, log := w.2 }
      | some (_, siginfo) =>
        if D.SI_EVENT siginfo.si_code ≠ D.PTRACE_EVENT_STOP then
          parasite_execute_from D T pid fuel (exec_label.retry_signal siginfo) ctl regs w.2
        else if T.ret w.2.length (ptrace_call.GETREGS pid) ≠ 0 then
          some { ret := -1, ctl := ctl, regs := regs,
                 log := w.2 ++ [ptrace_call.GETREGS pid] }
        else
          parasite_execute_from D T pid fuel exec_label.again
            { ctl with regs_orig := T.regs w.2.length } regs
            (w.2 ++ [ptrace_call.GETREGS pid])

/-- The function `__parasite_execute(ctl, pid, regs)`, entered at `again`, with
`fuel` jumps allowed. -/
def __parasite_execute (D : PtraceDefs) (T : Tracee) (fuel : Nat) (ctl : parasite_ctl)
    (pid : Int) (regs : user_regs_struct_t) (log : List ptrace_call) : Option exec_result :=
  parasite_execute_from D T pid fuel exec_label.again ctl regs log

/-! ## Thread enrolment (`parasite-syscall.c`, lines 709-739) -/

/-- The constant `ENOENT` of `<errno.h>`. -/
def ENOENT : Int := 2

/-- The loop of `parasite_fini_threads_seized` over the threads still to visit.
`exec s tid` stands for `parasite_execute_by_pid(PARASITE_CMD_FINI_THREAD, ctl,
tid)` run in the state `s` of tracer and victim: its return value and the state
it leaves. `ret` is the variable of that name, and `calls` lists the calls made
so far as pairs (thread, value returned), oldest first. -/
def parasite_fini_threads_loop {σ : Type} (exec : σ → Int → Int × σ) (leader : Int) :
    List pid → Int → σ → List (Int × Int) → Int × σ × List (Int × Int)
  | [], ret, s, calls => (ret, s, calls)
  | t :: rest, ret, s, calls =>
    if leader = t.real then parasite_fini_threads_loop exec leader rest ret s calls
    else
      let r := exec s t.real
      if r.1 ≠ 0 ∧ r.1 ≠ -ENOENT then (r.1, r.2, calls ++ [(t.real, r.1)])
      else parasite_fini_threads_loop exec leader rest r.1 r.2 (calls ++ [(t.real, r.1)])

/-- The function `parasite_fini_threads_seized(ctl, item)`: the return value, the
state afterwards and the calls made. -/
def parasite_fini_threads_seized {σ : Type} (exec : σ → Int → Int × σ) (item : pstree_item)
    (s : σ) : Int × σ × List (Int × Int) :=
  parasite_fini_threads_loop exec item.pid.real item.threads 0 s []

/-! ## Argument buffer size (`parasite-syscall.c`, lines 488-497 and 868-876) -/

/-- Conversion of an `int` to `unsigned long`. -/
def to_ulong (i : Int) : Nat := (i % 2 ^ 64).toNat

/-- The size of a `struct iovec` (x86-64). -/
def sizeof_iovec : Nat := 16

/-- Declarations of the parasite header that the size computation uses and the
two files do not define: `PARASITE_ARG_SIZE_MIN` and the size of
`struct parasite_dump_pages_args`. -/
structure ArgSizes where
  PARASITE_ARG_SIZE_MIN : Nat
  sizeof_parasite_dump_pages_args : Nat
  deriving DecidableEq, Repr

/-- The function `vmas_pagemap_size(vmas)`: the sum is computed in `unsigned long`
and returned as `unsigned int`. -/
def vmas_pagemap_size (Z : ArgSizes) (vmas : vm_area_list) : Nat :=
  (Z.sizeof_parasite_dump_pages_args + vmas.priv_size * sizeof_iovec % 2 ^ 64 / 2) % 2 ^ 64
    % 2 ^ 32

/-- The function `parasite_args_size(vmas, dfds)`; `drain_fds_size` is the value
of `drain_fds_size(dfds)`, an `int` computed by a helper that is not among the
sources. -/
def parasite_args_size (Z : ArgSizes) (vmas : vm_area_list) (drain_fds_size : Int) : Nat :=
  let size := Z.PARASITE_ARG_SIZE_MIN
  let size := max size (to_ulong drain_fds_size)
  let size := max size (vmas_pagemap_size Z vmas)
  size

/-! ## Interval timers (`parasite-syscall.c`, lines 407-417) -/

/-- A `struct timeval`. -/
structure timeval where
  tv_sec : Int
  tv_usec : Int
  deriving DecidableEq, Repr

/-- A `struct itimerval`. -/
structure itimerval where
  it_interval : timeval
  it_value : timeval
  deriving DecidableEq, Repr

/-- An `ItimerEntry`, the record of the `ITIMERS` image. -/
structure ItimerEntry where
  isec : Int
  iusec : Int
  vsec : Int
  vusec : Int
  deriving DecidableEq, Repr

/-- The function `dump_one_timer(v, fd)`: the value `pb_write_one` returns, which is
returned, and the record handed to `pb_write_one`. -/
def dump_one_timer (pb_write_one : Int) (v : itimerval) : Int × ItimerEntry :=
  let ie : ItimerEntry := { isec := 0, iusec := 0, vsec := 0, vusec := 0 }
  let ie := { ie with isec := v.it_interval.tv_sec }
  let ie := { ie with iusec := v.it_interval.tv_usec }
  let ie := { ie with vsec := v.it_value.tv_sec }
  let ie := { ie with vusec := v.it_value.tv_sec }
  (pb_write_one, ie)

/-! ## Pagemap scan (`parasite-syscall.c`, lines 519-546) -/

/-- What `generate_iovs` takes from outside the file: the constant `PAGE_SIZE`
and the helper `vma_area_len` of the headers, which are not among the sources,
the values `lseek(pagemap, off, SEEK_SET)` and `read(pagemap, map, count)` (at
the file position `off`) return, and the pagemap file itself, `pagemap i`
being its 8-byte entry number `i`. -/
structure PagemapEnv where
  PAGE_SIZE : Nat
  vma_area_len : vma_area → Nat
  lseek : Nat → Int
  read : Nat → Nat → Int
  pagemap : Nat → Nat

/-- A call `generate_iovs` makes. -/
inductive pagemap_call where
  | lseek (off : Nat)
  | read (count : Nat)
  | page_pipe_add_page (addr : Nat)
  deriving DecidableEq, Repr

/-- The `for` loop of `generate_iovs` (lines 537-543) with `left` pages still to
scan from `pfn` on. `add pp addr` stands for `page_pipe_add_page(pp, addr)`:
its return value and the page-pipe it leaves. `map pfn` is `map[pfn]`. The
address is computed in `unsigned long`. -/
def generate_iovs_scan {σ : Type} (K : VmaKinds) (E : PagemapEnv) (add : σ → Nat → Int × σ)
    (vma : vma_area) (map : Nat → Nat) :
    Nat → Nat → σ → List pagemap_call → Int × σ × List pagemap_call
  | 0, _, pp, log => (0, pp, log)
  | left + 1, pfn, pp, log =>
    if !should_dump_page K vma.vma (map pfn) then
      generate_iovs_scan K E add vma map left (pfn + 1) pp log
    else
      let r := add pp ((vma.vma.start + pfn * E.PAGE_SIZE) % 2 ^ 64)
      if r.1 ≠ 0 then
        (-1, r.2, log ++ [pagemap_call.page_pipe_add_page
          ((vma.vma.start + pfn * E.PAGE_SIZE) % 2 ^ 64)])
      else
        generate_iovs_scan K E add vma map left (pfn + 1) r.2
          (log ++ [pagemap_call.page_pipe_add_page
            ((vma.vma.start + pfn * E.PAGE_SIZE) % 2 ^ 64)])

/-- The function `generate_iovs(vma, pagemap, pp, map)`: the return value, the
page-pipe and the calls made. `sizeof(*map)` is 8; the results of `lseek` and
`read` are compared with the `u64` value `aux`, hence as unsigned. After a
`read` that returns the whole count, `map[pfn]` is the entry of the file at
the position sought plus `pfn`. -/
def generate_iovs {σ : Type} (K : VmaKinds) (E : PagemapEnv) (add : σ → Nat → Int × σ)
    (vma : vma_area) (pp : σ) : Int × σ × List pagemap_call :=
  let aux := vma.vma.start / E.PAGE_SIZE * 8 % 2 ^ 64
  if to_ulong (E.lseek aux) ≠ aux then (-1, pp, [pagemap_call.lseek aux])
  else
    let nr_to_scan := E.vma_area_len vma % 2 ^ 64 / E.PAGE_SIZE
    let count := nr_to_scan * 8 % 2 ^ 64
    if to_ulong (E.read aux count) ≠ count then
      (-1, pp, [pagemap_call.lseek aux, pagemap_call.read count])
    else
      generate_iovs_scan K E add vma (fun pfn => E.pagemap (aux / 8 + pfn)) nr_to_scan 0 pp
        [pagemap_call.lseek aux, pagemap_call.read count]

/-- The pages the claim on `generate_iovs` names, following its words: the
addresses `start + i * PAGE_SIZE` for the `i` in `[0, length / PAGE_SIZE)`
whose pagemap entry satisfies `should_dump_page`, in increasing order. -/
def pages_to_dump (K : VmaKinds) (E : PagemapEnv) (vma : vma_area) : List Nat :=
  ((List.range (E.vma_area_len vma / E.PAGE_SIZE)).filter
    (fun i => should_dump_page K vma.vma (E.pagemap (vma.vma.start / E.PAGE_SIZE + i)))).map
    (fun i => vma.vma.start + i * E.PAGE_SIZE)

/-- The page-pipe after the pages `addrs` were added to `pp` in order. -/
def page_pipe_after {σ : Type} (add : σ → Nat → Int × σ) : σ → List Nat → σ
  | pp, [] => pp
  | pp, a :: rest => page_pipe_after add (add pp a).2 rest

/-- Whether the page-pipe `pp` takes every page of `addrs`, added in order. -/
def page_pipe_accepts {σ : Type} (add : σ → Nat → Int × σ) : σ → List Nat → Bool
  | _, [] => true
  | pp, a :: rest => decide ((add pp a).1 = 0) && page_pipe_accepts add (add pp a).2 rest

/-- The addresses the loop of `generate_iovs` hands to the page-pipe when it
scans `left` pages from `pfn` on and no page is refused. -/
def scan_pages (K : VmaKinds) (E : PagemapEnv) (vma : vma_area) (map : Nat → Nat)
    (pfn left : Nat) : List Nat :=
  ((List.range' pfn left).filter (fun i => should_dump_page K vma.vma (map i))).map
    (fun i => (vma.vma.start + i * E.PAGE_SIZE) % 2 ^ 64)

/-! ## Concrete inputs -/

/-- The x86-64 values of `TASK_SIZE` and `code_syscall_size`. -/
def x86_64_arch : Arch := { TASK_SIZE := 2 ^ 47 - 4096, code_syscall_size := 8 }

/-- The x86-64 opcode `syscall; int3 ...` and the size of `code_orig`. -/
def x86_64_blob : SyscallBlob :=
  { code_syscall := [0x0f, 0x05, 0xcc, 0xcc, 0xcc, 0xcc, 0xcc, 0xcc], BUILTIN_SYSCALL_SIZE := 8 }

/-- A victim stopped at 0x400060 whose memory holds `a % 251` at address `a`. -/
def sample_victim : Victim :=
  { mem := fun a => a % 251, regs := { ip := 4194400, ax := 7, others := [1, 2, 3] } }

/-- A data mapping followed by the executable mapping `[0x400000, 0x401000)`. -/
def sample_vmas : vm_area_list :=
  { h := [{ vma := { start := 4096, «end» := 8192, prot := 3, status := 0 } },
          { vma := { start := 4194304, «end» := 4198400, prot := 5, status := 0 } }],
    priv_size := 2, longest := 1 }

/-- A single-threaded task. -/
def sample_item : pstree_item :=
  { pid := { real := 1000, virt := 1 }, threads := [{ real := 1000, virt := 1 }] }

/-- Every call of `parasite_prep_ctl` succeeds. -/
def prep_all_ok : PrepOutcomes :=
  { task_in_compat_mode := false, xzalloc_ok := true, getregs_ok := true, swap_ok := true }

/-- Every call of `parasite_cure_seized` succeeds and the parasite leaves the
victim as it is. -/
def cure_all_ok : CureEnv :=
  { fini := fun ctl _ v => (ctl, v), munmap_seized := fun ctl v => (0, ctl, v),
    munmap := 0, poke_ok := true, setregs_ok := true }

/-- The control block `parasite_prep_ctl` builds for `sample_victim`. -/
def sample_ctl : parasite_ctl :=
  { pid := 1000, remote_map := 0, local_map := 0, map_length := 0, parasite_ip := 0,
    regs_orig := { ip := 4194400, ax := 7, others := [1, 2, 3] }, syscall_ip := 4194304,
    code_orig := [94, 95, 96, 97, 98, 99, 100, 101], signals_blocked := 0,
    addr_cmd := 0, addr_args := 0, args_size := 0, tsock := -1 }

/-- Every call of `unix_collect_one` succeeds; `stat` reports inode 77 on
device 8. -/
def collect_all_ok : CollectOutcomes :=
  { xzalloc_d_ok := true, xmalloc_name_ok := true, stat := some { st_ino := 77, st_dev := 8 },
    kdev_to_odev := fun dev => dev, xmalloc_icons_ok := true, xzalloc_icon_ok := fun _ => true }

/-- Every call of `dump_one_unix` succeeds. -/
def dump_all_ok : DumpOutcomes :=
  { write_img_ok := true, write_img_buf_ok := true, xmalloc_ok := true }

/-- The diag messages of scenario 3: the stream listener with inode 20, bound to
the abstract name `"\0s"`, reporting the incoming connection 21, then the
in-flight stream socket with inode 21, which reports no peer. -/
def inflight_calls : List (CollectOutcomes × unix_diag_msg × unix_rtattrs) :=
  [(collect_all_ok, { udiag_type := 1, udiag_state := 10, udiag_ino := 20 },
     { UNIX_DIAG_NAME := some [0, 115], UNIX_DIAG_VFS := none, UNIX_DIAG_PEER := none,
       UNIX_DIAG_ICONS := some [21],
       UNIX_DIAG_RQLEN := some { udiag_rqueue := 1, udiag_wqueue := 128 } }),
   (collect_all_ok, { udiag_type := 1, udiag_state := 1, udiag_ino := 21 },
     { UNIX_DIAG_NAME := none, UNIX_DIAG_VFS := none, UNIX_DIAG_PEER := none,
       UNIX_DIAG_ICONS := none,
       UNIX_DIAG_RQLEN := some { udiag_rqueue := 0, udiag_wqueue := 0 } })]

/-- The tables the collector builds from `inflight_calls`. -/
def inflight_tables : sk_tables :=
  ((unix_collect_all inflight_calls sk_tables_empty).getD sk_tables_empty)

/-- The collected descriptor of the listener with inode 20. -/
def inflight_listener : unix_sk_desc :=
  { sd := { family := 1, ino := 20 }, type := 1, state := 10, peer_ino := 0, rqlen := 1,
    wqlen := 128, namelen := 2, name := some [0, 115, 0], icons := [21] }

/-- The collected descriptor of the in-flight socket with inode 21. -/
def inflight_child : unix_sk_desc :=
  { sd := { family := 1, ino := 21 }, type := 1, state := 1, peer_ino := 0, rqlen := 0,
    wqlen := 0, namelen := 0, name := none, icons := [] }

/-- The diag messages of scenario 3 with a listener whose inode is 2^31 + 1:
the stream listener 2147483649, reporting the incoming connection 21, then the
in-flight stream socket with inode 21, which reports no peer. -/
def inflight_calls_high : List (CollectOutcomes × unix_diag_msg × unix_rtattrs) :=
  [(collect_all_ok, { udiag_type := 1, udiag_state := 10, udiag_ino := 2147483649 },
     { UNIX_DIAG_NAME := some [0, 115], UNIX_DIAG_VFS := none, UNIX_DIAG_PEER := none,
       UNIX_DIAG_ICONS := some [21],
       UNIX_DIAG_RQLEN := some { udiag_rqueue := 1, udiag_wqueue := 128 } }),
   (collect_all_ok, { udiag_type := 1, udiag_state := 1, udiag_ino := 21 },
     { UNIX_DIAG_NAME := none, UNIX_DIAG_VFS := none, UNIX_DIAG_PEER := none,
       UNIX_DIAG_ICONS := none,
       UNIX_DIAG_RQLEN := some { udiag_rqueue := 0, udiag_wqueue := 0 } })]

/-- The tables the collector builds from `inflight_calls_high`. -/
def inflight_tables_high : sk_tables :=
  ((unix_collect_all inflight_calls_high sk_tables_empty).getD sk_tables_empty)

/-- The collected descriptor of the listener with inode 2147483649. -/
def inflight_listener_high : unix_sk_desc :=
  { sd := { family := 1, ino := 2147483649 }, type := 1, state := 10, peer_ino := 0,
    rqlen := 1, wqlen := 128, namelen := 2, name := some [0, 115, 0], icons := [21] }

/-- The record the dumper writes for the in-flight socket at descriptor 5. -/
def inflight_entry : unix_sk_entry :=
  { id := 21, fd := 5, type := 1, state := 1, namelen := 0, backlog := 0, flags := 1,
    peer := 20 }

/-- An environment in which every call succeeds: `xmalloc` returns a pointer,
`sendfile` sends all it is asked to, every other call returns 0; uninitialised
stack memory reads as 0xff. -/
def sys_all_ok : Sys :=
  { ret := fun _ c =>
      match c with
      | sys_call.xmalloc => 1
      | sys_call.sendfile _ _ count => (count : Int)
      | _ => 0,
    uninit_addr := fun _ => { sun_family := 65535, sun_path := List.replicate 108 255 } }

/-- The restorer before any entry is read. -/
def restorer_empty : restorer :=
  { conn_jobs := [], accept_jobs := [], unix_listen := sk_hash_empty, log := [] }

/-- A packet pool: two packets for socket 11 around one for socket 10. -/
def sample_pool : List sk_packet :=
  [{ entry := { id_for := 11, length := 3 }, img_off := 12 },
   { entry := { id_for := 10, length := 5 }, img_off := 23 },
   { entry := { id_for := 11, length := 2 }, img_off := 36 }]

/-- The image record of the connected stream socket 10, whose peer is 11. -/
def stream_entry_10 : unix_sk_entry :=
  { id := 10, fd := 3, type := 1, state := 1, namelen := 0, backlog := 0, flags := 0,
    peer := 11 }

/-- The image record of the connected stream socket 11, whose peer is 10. -/
def stream_entry_11 : unix_sk_entry :=
  { id := 11, fd := 4, type := 1, state := 1, namelen := 0, backlog := 0, flags := 0,
    peer := 10 }

/-- The image record of the datagram socket 10 of a socketpair, whose peer is 11. -/
def dgram_entry_10 : unix_sk_entry :=
  { id := 10, fd := 3, type := 2, state := 7, namelen := 0, backlog := 0, flags := 0,
    peer := 11 }

/-- The image record of the datagram socket 11 of a socketpair, whose peer is 10. -/
def dgram_entry_11 : unix_sk_entry :=
  { id := 11, fd := 4, type := 2, state := 7, namelen := 0, backlog := 0, flags := 0,
    peer := 10 }

/-- The INET record of scenario 4: a TCP listener on 127.0.0.1:5000, backlog 128,
to be installed at descriptor 7. -/
def tcp_listener_entry : inet_sk_entry :=
  { id := 30, fd := 7, family := 2, type := 1, proto := 6, state := 10, src_port := 5000,
    dst_port := 0, backlog := 128, src_addr := [16777343, 0, 0, 0], dst_addr := [0, 0, 0, 0] }

/-- An INET record in state LISTEN whose protocol is UDP. -/
def udp_listen_entry : inet_sk_entry :=
  { id := 31, fd := 8, family := 2, type := 2, proto := 17, state := 10, src_port := 5000,
    dst_port := 0, backlog := 0, src_addr := [16777343, 0, 0, 0], dst_addr := [0, 0, 0, 0] }

/-- The x86-64 values of the ptrace declarations: `ARCH_SI_TRAP` is `SI_KERNEL`,
`SI_EVENT` takes the second byte of `si_code`, `PTRACE_EVENT_STOP` is 128. -/
def x86_64_ptrace : PtraceDefs :=
  { ARCH_SI_TRAP := 128, SI_EVENT := fun code => (code % 65536) / 256,
    PTRACE_EVENT_STOP := 128 }

/-- A tracee whose every call succeeds and which stops on `SIGUSR1` (status
0x0a7f, `si_code` 0). -/
def tracee_sigusr1 : Tracee :=
  { ret := fun _ c =>
      match c with
      | ptrace_call.wait4 pid => pid
      | _ => 0,
    status := fun _ => 2687,
    siginfo := fun _ => { si_signo := 10, si_code := 0 },
    regs := fun _ => { ip := 4194306, ax := 0, others := [] } }

/-- The control block of `sample_victim` once the parasite runs with signals blocked. -/
def sample_ctl_blocked : parasite_ctl :=
  { sample_ctl with signals_blocked := 1, parasite_ip := 140000000000000 }

/-- A task with five threads, the leader 1000 first. -/
def five_threads : pstree_item :=
  { pid := { real := 1000, virt := 1 },
    threads := [{ real := 1000, virt := 1 }, { real := 1001, virt := 2 },
      { real := 1002, virt := 3 }, { real := 1003, virt := 4 }, { real := 1004, virt := 5 }] }

/-- A parasite in which only the threads below 1003 were initialised: it answers
`-ENOENT` for the others. The state counts the calls. -/
def fini_reply_partial (s : Nat) (tid : Int) : Int × Nat :=
  (if tid < 1003 then 0 else -2, s + 1)

/-- The x86-64 values: `PARASITE_ARG_SIZE_MIN` is one page, `struct
parasite_dump_pages_args` is three `unsigned int` padded to 16 bytes. -/
def x86_64_arg_sizes : ArgSizes :=
  { PARASITE_ARG_SIZE_MIN := 4096, sizeof_parasite_dump_pages_args := 16 }

/-- A VMA list with 1001 private pages. -/
def odd_vmas : vm_area_list := { h := [], priv_size := 1001, longest := 1001 }

/-- A timer with interval 1.000002 s that fires in 5.000007 s. -/
def sample_timer : itimerval :=
  { it_interval := { tv_sec := 1, tv_usec := 2 }, it_value := { tv_sec := 5, tv_usec := 7 } }

/-- An environment in which the first three `connect` calls fail (the calls
numbered 0, 2 and 4, a sleep following each) and everything else succeeds. -/
def sys_connect_third_retry : Sys :=
  { ret := fun n c =>
      match c with
      | sys_call.connect _ _ _ => if n < 5 then -1 else 0
      | sys_call.xmalloc => 1
      | sys_call.sendfile _ _ count => (count : Int)
      | _ => 0,
    uninit_addr := fun _ => { sun_family := 65535, sun_path := List.replicate 108 255 } }

/-- An environment in which every `connect` fails. -/
def sys_connect_never : Sys :=
  { ret := fun _ c =>
      match c with
      | sys_call.connect _ _ _ => -1
      | sys_call.xmalloc => 1
      | _ => 0,
    uninit_addr := fun _ => { sun_family := 65535, sun_path := List.replicate 108 255 } }

/-- The connect job of the stream socket 10 towards its peer 11. -/
def stream_job_10 : unix_conn_job := { fd := 3, peer := 11, type := CJ_STREAM }

/-- The diag message of a stream listener with inode 30. -/
def listener_msg : unix_diag_msg := { udiag_type := 1, udiag_state := 10, udiag_ino := 30 }

/-- The attributes of a listener bound to `/tmp/s`, for which the kernel
reports the file with inode 99 on device 8. -/
def listener_attrs : unix_rtattrs :=
  { UNIX_DIAG_NAME := some [47, 116, 109, 112, 47, 115],
    UNIX_DIAG_VFS := some { udiag_vfs_ino := 99, udiag_vfs_dev := 8 },
    UNIX_DIAG_PEER := none, UNIX_DIAG_ICONS := none,
    UNIX_DIAG_RQLEN := some { udiag_rqueue := 0, udiag_wqueue := 16 } }

/-- The descriptor collected for `listener_msg` once its name is dropped. -/
def listener_nameless : unix_sk_desc :=
  { sd := { family := 1, ino := 30 }, type := 1, state := 10, peer_ino := 0, rqlen := 0,
    wqlen := 16, namelen := 0, name := none, icons := [] }

/-- The diag message of a stream listener with inode 2147483649 (2^31 + 1). -/
def listener_msg_high : unix_diag_msg :=
  { udiag_type := 1, udiag_state := 10, udiag_ino := 2147483649 }

/-- The descriptor collected for `listener_msg_high` once its name is dropped. -/
def listener_nameless_high : unix_sk_desc :=
  { sd := { family := 1, ino := 2147483649 }, type := 1, state := 10, peer_ino := 0,
    rqlen := 0, wqlen := 16, namelen := 0, name := none, icons := [] }

/-- Every allocation succeeds and `stat` on the bound name fails. -/
def collect_stat_fails : CollectOutcomes :=
  { xzalloc_d_ok := true, xmalloc_name_ok := true, stat := none,
    kdev_to_odev := fun dev => dev, xmalloc_icons_ok := true, xzalloc_icon_ok := fun _ => true }

/-- The record the dumper writes for the listener 30 once its name is dropped. -/
def listener_nameless_entry : unix_sk_entry :=
  { id := 30, fd := 4, type := 1, state := 10, namelen := 0, backlog := 16, flags := 0,
    peer := 0 }

/-- Image declarations for the scan: the status word holds the flags, the
vDSO flag being bit 3 and the file-private flag bit 5. -/
def sample_kinds : VmaKinds :=
  { vma_entry_is := fun vmae s => decide (vmae.status &&& s = s),
    VMA_AREA_VDSO := 8, VMA_FILE_PRIVATE := 32 }

/-- A victim with 4096-byte pages whose pagemap has page 0x400 present, page
0x401 absent, page 0x402 swapped and page 0x403 present; `lseek` and `read`
succeed. -/
def sample_pagemap : PagemapEnv :=
  { PAGE_SIZE := 4096,
    vma_area_len := fun v => v.vma.«end» - v.vma.start,
    lseek := fun off => off,
    read := fun _ count => count,
    pagemap := fun i =>
      if i = 1024 then PME_PRESENT else if i = 1026 then PME_SWAP
      else if i = 1027 then PME_PRESENT else 0 }

/-- The anonymous mapping `[0x400000, 0x404000)`. -/
def sample_scan_vma : vma_area :=
  { vma := { start := 4194304, «end» := 4210688, prot := 3, status := 0 } }

/-- A page-pipe that holds the addresses added, newest first, and has room
for `cap` of them. -/
def page_pipe_bounded (cap : Nat) (pp : List Nat) (addr : Nat) : Int × List Nat :=
  if pp.length < cap then (0, addr :: pp) else (-1, pp)

/-! # Theorems -/

/-! ## Machine words -/

theorem ulong_sub_of_le {a b : Nat} (hb : b ≤ a) (ha : a < 2 ^ 64) : ulong_sub a b = a - b := by
  unfold ulong_sub ULONG_RANGE
  have h1 : b % 2 ^ 64 = b := Nat.mod_eq_of_lt (by omega)
  rw [h1]
  omega

theorem and_two_pow_ne_zero (n i : Nat) : n &&& 2 ^ i ≠ 0 ↔ n.testBit i = true := by
  constructor
  · intro h
    obtain ⟨j, hj⟩ := Nat.ne_zero_implies_bit_true h
    rw [Nat.testBit_and, Nat.testBit_two_pow] at hj
    simp only [Bool.and_eq_true, decide_eq_true_eq] at hj
    obtain ⟨h1, h2⟩ := hj
    rw [h2]
    exact h1
  · intro h h0
    have h1 : (n &&& 2 ^ i).testBit i = true := by
      rw [Nat.testBit_and, Nat.testBit_two_pow_self, h]
      rfl
    rw [h0] at h1
    simp at h1

theorem lor_eq_zero (a b : Nat) : a ||| b = 0 ↔ a = 0 ∧ b = 0 := by
  constructor
  · intro h
    constructor
    · apply Nat.eq_of_testBit_eq
      intro i
      have := congrArg (fun x => x.testBit i) h
      simp only [Nat.testBit_or, Nat.zero_testBit, Bool.or_eq_false_iff] at this
      simp [this.1]
    · apply Nat.eq_of_testBit_eq
      intro i
      have := congrArg (fun x => x.testBit i) h
      simp only [Nat.testBit_or, Nat.zero_testBit, Bool.or_eq_false_iff] at this
      simp [this.2]
  · rintro ⟨rfl, rfl⟩
    rfl

/-! ## Victim inspector -/

theorem get_vma_by_ip_eq_find (A : Arch) (l : List vma_area) (ip : Nat) :
    get_vma_by_ip A l ip = l.find? (fun v => decide (v.vma.start < A.TASK_SIZE) &&
      decide (v.vma.prot &&& PROT_EXEC ≠ 0) &&
      decide (v.vma.start < ulong_sub v.vma.«end» A.code_syscall_size)) := by
  induction l with
  | nil => rfl
  | cons v rest ih =>
    simp only [get_vma_by_ip, List.find?_cons, syscall_fits_vma_area, can_run_syscall, ih]
    by_cases h1 : v.vma.start ≥ A.TASK_SIZE
    · have : ¬ v.vma.start < A.TASK_SIZE := by omega
      simp [h1, this]
    · have h1' : v.vma.start < A.TASK_SIZE := by omega
      by_cases h2 : v.vma.prot &&& PROT_EXEC = 0
      · simp [h1, h2]
      · by_cases h3 : v.vma.start < ulong_sub v.vma.«end» A.code_syscall_size
        · simp [h1, h1', h2, h3]
        · simp [h1, h1', h2, h3]

/-- C2: `get_vma_by_ip` returns the first VMA of the list, in list order, that
has `start < TASK_SIZE`, has `PROT_EXEC` set and has
`start < end - code_syscall_size` (the subtraction being the one of
`unsigned long`); it returns `NULL` if and only if no VMA of the list
satisfies the three conditions. -/
theorem get_vma_by_ip_first (A : Arch) (l : List vma_area) (ip : Nat) :
    (∀ v, get_vma_by_ip A l ip = some v ↔
      ∃ before after, l = before ++ v :: after ∧
        (v.vma.start < A.TASK_SIZE ∧ v.vma.prot &&& PROT_EXEC ≠ 0 ∧
          v.vma.start < ulong_sub v.vma.«end» A.code_syscall_size) ∧
        ∀ u ∈ before, ¬ (u.vma.start < A.TASK_SIZE ∧ u.vma.prot &&& PROT_EXEC ≠ 0 ∧
          u.vma.start < ulong_sub u.vma.«end» A.code_syscall_size)) ∧
    (get_vma_by_ip A l ip = none ↔
      ∀ v ∈ l, ¬ (v.vma.start < A.TASK_SIZE ∧ v.vma.prot &&& PROT_EXEC ≠ 0 ∧
          v.vma.start < ulong_sub v.vma.«end» A.code_syscall_size)) := by
  rw [get_vma_by_ip_eq_find]
  constructor
  · intro v
    rw [List.find?_eq_some]
    simp only [Bool.and_eq_true, decide_eq_true_eq, Bool.not_eq_true', Bool.and_eq_false_iff,
      decide_eq_false_iff_not]
    constructor
    · rintro ⟨⟨⟨h1, h2⟩, h3⟩, before, after, hl, hb⟩
      refine ⟨before, after, hl, ⟨h1, h2, h3⟩, ?_⟩
      intro u hu hc
      rcases hb u hu with (h | h) | h
      · exact h hc.1
      · exact h hc.2.1
      · exact h hc.2.2
    · rintro ⟨before, after, hl, ⟨h1, h2, h3⟩, hb⟩
      refine ⟨⟨⟨h1, h2⟩, h3⟩, before, after, hl, ?_⟩
      intro u hu
      have := hb u hu
      by_cases c1 : u.vma.start < A.TASK_SIZE
      · by_cases c2 : u.vma.prot &&& PROT_EXEC ≠ 0
        · right
          intro c3
          exact this ⟨c1, c2, c3⟩
        · left; right; exact c2
      · left; left; exact c1
  · rw [List.find?_eq_none]
    simp only [Bool.and_eq_true, decide_eq_true_eq]
    constructor
    · intro h v hv hc
      exact h v hv ⟨⟨hc.1, hc.2.1⟩, hc.2.2⟩
    · intro h v hv hc
      exact h v hv ⟨hc.1.1, hc.1.2, hc.2⟩

/-- C3, as stated, fails: with `code_syscall_size = 8` the list holding the one
executable VMA `[0, 4)` makes `get_vma_by_ip` return that VMA, although
`start + code_syscall_size = 8` exceeds `end = 4` (the subtraction
`end - code_syscall_size` wraps around). -/
theorem get_vma_by_ip_room_counterexample :
    get_vma_by_ip { TASK_SIZE := 2 ^ 47 - 4096, code_syscall_size := 8 }
      [{ vma := { start := 0, «end» := 4, prot := 4, status := 0 } }] 0
      = some { vma := { start := 0, «end» := 4, prot := 4, status := 0 } } ∧
    ¬ ((0 : Nat) + 8 ≤ 4) := by
  decide

/-- C3, amended: a VMA returned by `get_vma_by_ip` whose `end` is an
`unsigned long` not below `code_syscall_size` has room for the syscall opcode
at its start: `start + code_syscall_size < end`, with no wrap-around. -/
theorem get_vma_by_ip_room (A : Arch) (l : List vma_area) (ip : Nat) (v : vma_area)
    (hret : get_vma_by_ip A l ip = some v)
    (hword : v.vma.«end» < 2 ^ 64)
    (hend : A.code_syscall_size ≤ v.vma.«end») :
    v.vma.start + A.code_syscall_size < v.vma.«end» := by
  rw [get_vma_by_ip_eq_find] at hret
  have h := List.find?_some hret
  simp only [Bool.and_eq_true, decide_eq_true_eq] at h
  have h3 := h.2
  rw [ulong_sub_of_le hend hword] at h3
  omega

/-- The amended C3 at a data mapping followed by the executable mapping
`[0x400000, 0x401000)`. -/
theorem get_vma_by_ip_room_witness :
    get_vma_by_ip { TASK_SIZE := 2 ^ 47 - 4096, code_syscall_size := 8 }
      [{ vma := { start := 4096, «end» := 8192, prot := 3, status := 0 } },
       { vma := { start := 4194304, «end» := 4198400, prot := 5, status := 0 } }] 4194400
      = some { vma := { start := 4194304, «end» := 4198400, prot := 5, status := 0 } } ∧
    4194304 + 8 < 4198400 :=
  ⟨by decide,
   get_vma_by_ip_room { TASK_SIZE := 2 ^ 47 - 4096, code_syscall_size := 8 }
      [{ vma := { start := 4096, «end» := 8192, prot := 3, status := 0 } },
       { vma := { start := 4194304, «end» := 4198400, prot := 5, status := 0 } }] 4194400
      { vma := { start := 4194304, «end» := 4198400, prot := 5, status := 0 } }
      (by decide) (by decide) (by decide)⟩

/-! ## Page dumper -/

/-- C4: `should_dump_page` is true for a VDSO area whatever `pme` is; otherwise
it is false for a private file mapping when bit 61 (`PME_FILE`) of `pme` is
set, whatever the other bits are; otherwise it is true exactly when bit 63
(`PME_PRESENT`) or bit 62 (`PME_SWAP`) of `pme` is set. -/
theorem should_dump_page_table (K : VmaKinds) (vmae : VmaEntry) (pme : Nat) :
    (K.vma_entry_is vmae K.VMA_AREA_VDSO = true → should_dump_page K vmae pme = true) ∧
    (K.vma_entry_is vmae K.VMA_AREA_VDSO = false →
      K.vma_entry_is vmae K.VMA_FILE_PRIVATE = true → pme.testBit 61 = true →
      should_dump_page K vmae pme = false) ∧
    (K.vma_entry_is vmae K.VMA_AREA_VDSO = false →
      ¬ (K.vma_entry_is vmae K.VMA_FILE_PRIVATE = true ∧ pme.testBit 61 = true) →
      (should_dump_page K vmae pme = true ↔ (pme.testBit 63 = true ∨ pme.testBit 62 = true))) := by
  have hfile : pme &&& PME_FILE ≠ 0 ↔ pme.testBit 61 = true := by
    have : PME_FILE = 2 ^ 61 := by decide
    rw [this]
    exact and_two_pow_ne_zero pme 61
  have hps : pme &&& (PME_PRESENT ||| PME_SWAP) ≠ 0 ↔
      (pme.testBit 63 = true ∨ pme.testBit 62 = true) := by
    have h1 : PME_PRESENT = 2 ^ 63 := by decide
    have h2 : PME_SWAP = 2 ^ 62 := by decide
    rw [h1, h2, Nat.and_or_distrib_left, Ne, lor_eq_zero, ← and_two_pow_ne_zero,
      ← and_two_pow_ne_zero]
    tauto
  refine ⟨?_, ?_, ?_⟩
  · intro h
    simp [should_dump_page, h]
  · intro h1 h2 h3
    simp [should_dump_page, h1, h2, hfile.mpr h3]
  · intro h1 h2
    have hcond : (K.vma_entry_is vmae K.VMA_FILE_PRIVATE &&
        decide (pme &&& PME_FILE ≠ 0)) = false := by
      by_cases hp : K.vma_entry_is vmae K.VMA_FILE_PRIVATE = true
      · have hf : ¬ (pme &&& PME_FILE ≠ 0) := fun h => h2 ⟨hp, hfile.mp h⟩
        simp [hf]
      · simp [hp]
    unfold should_dump_page
    rw [h1, hcond, ← hps]
    by_cases hq : pme &&& (PME_PRESENT ||| PME_SWAP) ≠ 0
    · simp [hq]
    · simp [hq]

/-! ## Infection set-up and cure -/

theorem ptrace_poke_peek_restores (v : Victim) (src : List Nat) (addr a : Nat) :
    (ptrace_poke_area true (ptrace_poke_area true v src addr).2
      (ptrace_peek_area v addr src.length) addr).2.mem a = v.mem a := by
  simp only [ptrace_poke_area, ptrace_peek_area, if_true, List.length_map, List.length_range]
  by_cases h : addr ≤ a ∧ a < addr + src.length
  · rw [if_pos h]
    have hlt : a - addr < ((List.range src.length).map (fun i => v.mem (addr + i))).length := by
      simp only [List.length_map, List.length_range]
      omega
    rw [List.getD_eq_getElem _ _ hlt]
    simp only [List.getElem_map, List.getElem_range]
    congr 1
    omega
  · rw [if_neg h, if_neg h]

theorem parasite_prep_ctl_some (A : Arch) (B : SyscallBlob) (o : PrepOutcomes) (pid : Int)
    (vmas : vm_area_list) (v v1 : Victim) (ctl : parasite_ctl)
    (hprep : parasite_prep_ctl A B o pid vmas v = (some ctl, v1)) :
    ∃ code : List Nat,
      v1 = (ptrace_poke_area true v code ctl.syscall_ip).2 ∧
      ctl.code_orig = ptrace_peek_area v ctl.syscall_ip code.length ∧
      ctl.regs_orig = v.regs ∧ ctl.parasite_ip = 0 ∧ ctl.remote_map = 0 ∧
      ctl.local_map = 0 := by
  unfold parasite_prep_ctl at hprep
  by_cases h1 : o.task_in_compat_mode = true
  · simp [h1] at hprep
  by_cases h2 : o.xzalloc_ok = true
  swap
  · simp [h1, h2] at hprep
  by_cases h3 : o.getregs_ok = true
  swap
  · simp [h1, h2, h3, ptrace_getregs] at hprep
  simp only [h1, h2, h3, ptrace_getregs, Bool.false_eq_true, if_false, Bool.not_true,
    if_true] at hprep
  cases hv : get_vma_by_ip A vmas.h v.regs.ip with
  | none => simp [hv] at hprep
  | some vma_area =>
    simp only [hv] at hprep
    by_cases h4 : o.swap_ok = true
    swap
    · simp [h4, ptrace_swap_area] at hprep
    simp only [h4, ptrace_swap_area, ptrace_poke_area, if_true, ne_eq, not_true_eq_false,
      if_false, Prod.mk.injEq, Option.some.injEq] at hprep
    obtain ⟨hc, hv1⟩ := hprep
    subst hc
    refine ⟨_, ?_, rfl, rfl, rfl, rfl, rfl⟩
    rw [← hv1]
    simp [ptrace_poke_area]

/-- C1: cure round-trip. When `parasite_prep_ctl` succeeds on a victim and
`parasite_cure_seized` runs on the control block it returned, with the poke
and the register store succeeding, the `code_syscall_size` bytes at
`syscall_ip` (indeed every byte of the victim's memory) and the victim's
general registers are equal to their values before `parasite_prep_ctl`; the
bytes kept in `code_orig`, which the cure pokes back, are the bytes the swap
took from `syscall_ip`. -/
theorem parasite_cure_round_trip (A : Arch) (B : SyscallBlob) (o : PrepOutcomes)
    (E : CureEnv) (pid : Int) (vmas : vm_area_list) (item : pstree_item)
    (v v1 : Victim) (ctl : parasite_ctl)
    (hprep : parasite_prep_ctl A B o pid vmas v = (some ctl, v1))
    (hpoke : E.poke_ok = true) (hregs : E.setregs_ok = true) :
    ptrace_peek_area (parasite_cure_seized E ctl item v1).victim ctl.syscall_ip
        A.code_syscall_size
      = ptrace_peek_area v ctl.syscall_ip A.code_syscall_size ∧
    (parasite_cure_seized E ctl item v1).victim.regs = v.regs ∧
    (∀ a, (parasite_cure_seized E ctl item v1).victim.mem a = v.mem a) ∧
    ctl.code_orig = ptrace_peek_area v ctl.syscall_ip ctl.code_orig.length := by
  obtain ⟨code, hv1, hco, hro, hpi, hrm, hlm⟩ :=
    parasite_prep_ctl_some A B o pid vmas v v1 ctl hprep
  have hmem : ∀ a, (parasite_cure_seized E ctl item v1).victim.mem a = v.mem a := by
    intro a
    have := ptrace_poke_peek_restores v code ctl.syscall_ip a
    simp only [parasite_cure_seized, hpi, hrm, hlm, hpoke, hregs, ptrace_setregs, ne_eq,
      not_true_eq_false, if_false, if_true, hco, hv1]
    exact this
  refine ⟨?_, ?_, hmem, ?_⟩
  · simp only [ptrace_peek_area, hmem]
  · simp only [parasite_cure_seized, hpi, hrm, hlm, hpoke, hregs, ptrace_setregs, ne_eq,
      not_true_eq_false, if_false, if_true, hro]
  · rw [hco]
    simp [ptrace_peek_area]

/-- C1 at `sample_victim`: after set-up and cure the eight bytes at 0x400000 and
the registers are the original ones. -/
theorem parasite_cure_round_trip_witness :
    (parasite_prep_ctl x86_64_arch x86_64_blob prep_all_ok 1000 sample_vmas sample_victim).1
      = some sample_ctl ∧
    ptrace_peek_area (parasite_cure_seized cure_all_ok sample_ctl sample_item
        (parasite_prep_ctl x86_64_arch x86_64_blob prep_all_ok 1000 sample_vmas
          sample_victim).2).victim 4194304 8
      = [94, 95, 96, 97, 98, 99, 100, 101] ∧
    (parasite_cure_seized cure_all_ok sample_ctl sample_item
        (parasite_prep_ctl x86_64_arch x86_64_blob prep_all_ok 1000 sample_vmas
          sample_victim).2).victim.regs = { ip := 4194400, ax := 7, others := [1, 2, 3] } :=
  have h := parasite_cure_round_trip x86_64_arch x86_64_blob prep_all_ok cure_all_ok 1000
    sample_vmas sample_item sample_victim
    (parasite_prep_ctl x86_64_arch x86_64_blob prep_all_ok 1000 sample_vmas sample_victim).2
    sample_ctl (by rfl) (by rfl) (by rfl)
  ⟨by rfl, h.1.trans (by rfl), h.2.1.trans (by rfl)⟩

/-! ## Socket dumper -/

theorem dump_one_unix_written (icons : sk_hash unix_sk_listen_icon) (o : DumpOutcomes)
    (sk : unix_sk_desc) (fd : Int) (queue : sk_queue) :
    (∀ ue, unixsk_item.entry ue ∈ (dump_one_unix icons o sk fd queue).written →
      can_dump_unix_sk sk ≠ 0 ∧ dump_one_unix_entry icons sk fd = some ue) ∧
    (∀ ue, can_dump_unix_sk sk ≠ 0 → dump_one_unix_entry icons sk fd = some ue →
      o.write_img_ok = true →
      unixsk_item.entry ue ∈ (dump_one_unix icons o sk fd queue).written) := by
  unfold dump_one_unix
  by_cases hd : can_dump_unix_sk sk = 0
  · simp [hd]
  cases he : dump_one_unix_entry icons sk fd with
  | none => simp [hd]
  | some ue0 =>
    by_cases h1 : o.write_img_ok = true
    swap
    · simp [hd, h1]
    by_cases h2 : o.write_img_buf_ok = true
    swap
    · simp only [hd, h1, h2, if_false, Bool.not_true, Bool.false_eq_true, Bool.not_eq_true,
        Bool.not_false, if_true, ne_eq, not_false_eq_true, true_and]
      simp
    by_cases h3 : sk.rqlen ≠ 0 ∧ ¬ (sk.type = SOCK_STREAM ∧ sk.state = TCP_LISTEN)
    · by_cases h4 : (unix_sk_queue_add o.xmalloc_ok fd sk queue).1 ≠ 0
      · simp only [hd, h1, h2, h3, h4, if_false, Bool.not_true, Bool.false_eq_true, if_true,
          ne_eq, not_false_eq_true, true_and, and_self]
        simp
      · simp only [hd, h1, h2, h3, h4, if_false, Bool.not_true, Bool.false_eq_true, if_true,
          ne_eq, not_false_eq_true, true_and, and_self]
        simp
    · simp only [hd, h1, h2, h3, if_false, Bool.not_true, Bool.false_eq_true, if_true,
        ne_eq, not_false_eq_true, true_and]
      simp

/-- C5: for a dumpable UNIX descriptor with state ESTABLISHED and
`peer_ino = 0`, `dump_one_unix` returns -1, writes nothing and leaves the
queue list as it is when `lookup_unix_listen_icons` finds no entry for the
socket's inode or the entry found belongs to a descriptor that is not in
LISTEN state; otherwise every record it writes has `flags = USK_INFLIGHT` and
`peer` equal to the inode of that listening descriptor (and it does write the
record when `write_img` succeeds). For every other dumpable descriptor the
record has `flags = 0` and `peer = peer_ino`. -/
theorem dump_one_unix_peer (icons : sk_hash unix_sk_listen_icon) (o : DumpOutcomes)
    (sk : unix_sk_desc) (fd : Int) (queue : sk_queue) (hdump : can_dump_unix_sk sk ≠ 0) :
    (sk.state = TCP_ESTABLISHED ∧ sk.peer_ino = 0 →
      ((lookup_unix_listen_icons icons sk.sd.ino = none ∨
          ∃ e, lookup_unix_listen_icons icons sk.sd.ino = some e ∧
            e.sk_desc.state ≠ TCP_LISTEN) →
        dump_one_unix icons o sk fd queue = { ret := -1, written := [], queue := queue }) ∧
      (∀ e, lookup_unix_listen_icons icons sk.sd.ino = some e →
        e.sk_desc.state = TCP_LISTEN →
        (∀ ue, unixsk_item.entry ue ∈ (dump_one_unix icons o sk fd queue).written →
          ue.flags = USK_INFLIGHT ∧ ue.peer = e.sk_desc.sd.ino) ∧
        (o.write_img_ok = true →
          ∃ ue, unixsk_item.entry ue ∈ (dump_one_unix icons o sk fd queue).written))) ∧
    (¬ (sk.state = TCP_ESTABLISHED ∧ sk.peer_ino = 0) →
      (∀ ue, unixsk_item.entry ue ∈ (dump_one_unix icons o sk fd queue).written →
        ue.flags = 0 ∧ ue.peer = sk.peer_ino) ∧
      (o.write_img_ok = true →
        ∃ ue, unixsk_item.entry ue ∈ (dump_one_unix icons o sk fd queue).written)) := by
  obtain ⟨hw1, hw2⟩ := dump_one_unix_written icons o sk fd queue
  refine ⟨?_, ?_⟩
  · rintro ⟨hst, hpeer⟩
    refine ⟨?_, ?_⟩
    · rintro (hnone | ⟨e, he, hne⟩)
      · simp [dump_one_unix, dump_one_unix_entry, hdump, hst, hpeer, hnone]
      · simp [dump_one_unix, dump_one_unix_entry, hdump, hst, hpeer, he, hne]
    · intro e he hl
      have hentry : dump_one_unix_entry icons sk fd = some
          { fd := fd, id := sk.sd.ino, type := sk.type, state := sk.state,
            namelen := sk.namelen, backlog := sk.wqlen, flags := USK_INFLIGHT,
            peer := e.sk_desc.sd.ino } := by
        have hflags : (0 ||| USK_INFLIGHT) = USK_INFLIGHT := by decide
        simp [dump_one_unix_entry, hst, hpeer, he, hl, hflags]
      refine ⟨?_, ?_⟩
      · intro ue hue
        have h := (hw1 ue hue).2
        rw [hentry] at h
        simp only [Option.some.injEq] at h
        subst h
        exact ⟨rfl, rfl⟩
      · intro hw
        exact ⟨_, hw2 _ hdump hentry hw⟩
  · intro hn
    have hn' : ¬ (sk.peer_ino = 0 ∧ sk.state = TCP_ESTABLISHED) := fun h => hn ⟨h.2, h.1⟩
    have hentry : dump_one_unix_entry icons sk fd = some
        { fd := fd, id := sk.sd.ino, type := sk.type, state := sk.state,
          namelen := sk.namelen, backlog := sk.wqlen, flags := 0, peer := sk.peer_ino } := by
      simp [dump_one_unix_entry, hn']
    refine ⟨?_, ?_⟩
    · intro ue hue
      have h := (hw1 ue hue).2
      rw [hentry] at h
      simp only [Option.some.injEq] at h
      subst h
      exact ⟨rfl, rfl⟩
    · intro hw
      exact ⟨_, hw2 _ hdump hentry hw⟩

/-! ## Socket collector -/

theorem mem_SK_HASH_LINK {α : Type} (head : sk_hash α) (key : Int) (elem x : α) (i : Int) :
    x ∈ SK_HASH_LINK head key elem i ↔
      x ∈ head i ∨ (i = Int.tmod key SK_HASH_SIZE ∧ x = elem) := by
  unfold SK_HASH_LINK
  by_cases h : i = Int.tmod key SK_HASH_SIZE
  · simp only [h, if_true, List.mem_cons, true_and]
    tauto
  · simp [h]

theorem unix_collect_icons_mem (o : CollectOutcomes) (d : unix_sk_desc) (l : List Nat) :
    ∀ (n : Nat) (tab : sk_hash unix_sk_listen_icon) (i : Int) (e : unix_sk_listen_icon),
      e ∈ (unix_collect_icons o d l n tab).2 i →
      e ∈ tab i ∨ (e.sk_desc = d ∧ e.peer_ino ∈ l) := by
  induction l with
  | nil =>
    intro n tab i e h
    left
    simpa [unix_collect_icons] using h
  | cons icon rest ih =>
    intro n tab i e h
    unfold unix_collect_icons at h
    by_cases hok : o.xzalloc_icon_ok n = true
    · simp only [hok, Bool.not_true, Bool.false_eq_true, if_false] at h
      rcases ih _ _ i e h with h1 | ⟨h1, h2⟩
      · rw [mem_SK_HASH_LINK] at h1
        rcases h1 with h1 | ⟨_, h1⟩
        · left; exact h1
        · right
          subst h1
          exact ⟨rfl, by simp⟩
      · right
        exact ⟨h1, List.mem_cons_of_mem _ h2⟩
    · simp only [hok, Bool.not_false, if_true] at h
      left
      simpa using h

theorem unix_desc_ret_icons (tb : unix_rtattrs) (d : unix_sk_desc) (sd : socket_desc) :
    (unix_desc_with_sd (unix_desc_rqlen tb d) sd).icons = d.icons := by
  unfold unix_desc_with_sd unix_desc_rqlen
  cases tb.UNIX_DIAG_RQLEN <;> rfl

theorem unix_collect_one_ok (o : CollectOutcomes) (m : unix_diag_msg) (tb : unix_rtattrs)
    (T : sk_tables) (hret : (unix_collect_one o m tb T).1 = 0)
    (hidx : 0 ≤ Int.tmod (to_int m.udiag_ino) SK_HASH_SIZE) :
    (∀ i x, x ∈ T.sockets i → x ∈ (unix_collect_one o m tb T).2.sockets i) ∧
    (∀ i e, e ∈ (unix_collect_one o m tb T).2.unix_listen_icons i →
      e ∈ T.unix_listen_icons i ∨
      (e.peer_ino ∈ e.sk_desc.icons ∧
        ∃ j : Int, 0 ≤ j ∧ j < SK_HASH_SIZE ∧
          sk_desc.unix e.sk_desc ∈ (unix_collect_one o m tb T).2.sockets j)) := by
  unfold unix_collect_one at hret ⊢
  by_cases h1 : o.xzalloc_d_ok = true
  swap
  · simp [h1] at hret
  simp only [h1, Bool.not_true, Bool.false_eq_true, if_false] at hret ⊢
  cases hn : unix_collect_name o tb (unix_desc_init m tb) with
  | none => simp [hn] at hret
  | some od =>
    cases od with
    | none => exact ⟨fun _ _ hx => hx, fun _ _ he => Or.inl he⟩
    | some d =>
      simp only [hn] at hret ⊢
      by_cases h2 : tb.UNIX_DIAG_ICONS.isSome = true ∧ (!o.xmalloc_icons_ok) = true
      · simp [h2] at hret
      simp only [h2, if_false] at hret ⊢
      split at hret
      · simp at hret
      rename_i hl
      simp only [hl, if_false, Bool.false_eq_true]
      refine ⟨?_, ?_⟩
      · intro i x hx
        simp only [sk_collect_one]
        rw [mem_SK_HASH_LINK]
        left; exact hx
      · intro i e he
        rcases unix_collect_icons_mem _ _ _ _ _ i e he with h | ⟨h3, h4⟩
        · left; exact h
        · right
          refine ⟨?_, ?_⟩
          · rw [h3, unix_desc_ret_icons]
            exact h4
          · refine ⟨Int.tmod (to_int m.udiag_ino) SK_HASH_SIZE, hidx,
              Int.tmod_lt_of_pos _ (by decide), ?_⟩
            simp only [sk_collect_one]
            rw [mem_SK_HASH_LINK]
            right
            refine ⟨rfl, ?_⟩
            rw [h3]

theorem unix_collect_all_closed :
    ∀ (calls : List (CollectOutcomes × unix_diag_msg × unix_rtattrs)) (T0 T : sk_tables),
      unix_collect_all calls T0 = some T →
      (∀ c ∈ calls, 0 ≤ Int.tmod (to_int c.2.1.udiag_ino) SK_HASH_SIZE) →
      (∀ i e, e ∈ T0.unix_listen_icons i →
        e.peer_ino ∈ e.sk_desc.icons ∧
          ∃ j : Int, 0 ≤ j ∧ j < SK_HASH_SIZE ∧ sk_desc.unix e.sk_desc ∈ T0.sockets j) →
      (∀ i e, e ∈ T.unix_listen_icons i →
        e.peer_ino ∈ e.sk_desc.icons ∧
          ∃ j : Int, 0 ≤ j ∧ j < SK_HASH_SIZE ∧ sk_desc.unix e.sk_desc ∈ T.sockets j) := by
  intro calls
  induction calls with
  | nil =>
    intro T0 T h _ hinv
    simp only [unix_collect_all, Option.some.injEq] at h
    subst h
    exact hinv
  | cons c rest ih =>
    obtain ⟨o, m, tb⟩ := c
    intro T0 T h hidx hinv
    unfold unix_collect_all at h
    by_cases hr : (unix_collect_one o m tb T0).1 = 0
    · simp only [hr, ne_eq, not_true_eq_false, if_false] at h
      obtain ⟨hs, hi⟩ := unix_collect_one_ok o m tb T0 hr
        (hidx (o, m, tb) (List.mem_cons_self _ _))
      apply ih _ _ h (fun c hc => hidx c (List.mem_cons_of_mem _ hc))
      intro i e he
      rcases hi i e he with h1 | h1
      · obtain ⟨h2, j, hj0, hj1, h3⟩ := hinv i e h1
        exact ⟨h2, j, hj0, hj1, hs j _ h3⟩
      · exact h1
    · simp [hr] at h

/-- C5 at the in-flight socket 21 of scenario 3. -/
theorem dump_one_unix_peer_witness :
    can_dump_unix_sk inflight_child ≠ 0 ∧
    lookup_unix_listen_icons inflight_tables.unix_listen_icons 21
      = some { peer_ino := 21, sk_desc := inflight_listener } ∧
    ∃ ue, unixsk_item.entry ue ∈
      (dump_one_unix inflight_tables.unix_listen_icons dump_all_ok inflight_child 5
        { list := [], entries := 0 }).written :=
  ⟨by decide, by decide,
   (((dump_one_unix_peer inflight_tables.unix_listen_icons dump_all_ok inflight_child 5
      { list := [], entries := 0 } (by decide)).1 ⟨by decide, by decide⟩).2
      { peer_ino := 21, sk_desc := inflight_listener } (by decide) (by decide)).2 (by decide)⟩

theorem icons_closure_in_table
    (calls : List (CollectOutcomes × unix_diag_msg × unix_rtattrs))
    (T : sk_tables) (hT : unix_collect_all calls sk_tables_empty = some T)
    (hidx : ∀ c ∈ calls, 0 ≤ Int.tmod (to_int c.2.1.udiag_ino) SK_HASH_SIZE)
    (o : DumpOutcomes) (sk : unix_sk_desc) (fd : Int) (queue : sk_queue) (ue : unix_sk_entry)
    (hw : unixsk_item.entry ue ∈ (dump_one_unix T.unix_listen_icons o sk fd queue).written)
    (hfl : ue.flags &&& USK_INFLIGHT ≠ 0) :
    ue.state = TCP_ESTABLISHED ∧
    ∃ L : unix_sk_desc,
      (∃ j : Int, 0 ≤ j ∧ j < SK_HASH_SIZE ∧ sk_desc.unix L ∈ T.sockets j) ∧
      L.state = TCP_LISTEN ∧ ue.id ∈ L.icons ∧ ue.peer = L.sd.ino := by
  have hinv := unix_collect_all_closed calls sk_tables_empty T hT hidx
    (by intro i e he; simp [sk_tables_empty, sk_hash_empty] at he)
  have hentry := ((dump_one_unix_written T.unix_listen_icons o sk fd queue).1 ue hw).2
  unfold dump_one_unix_entry at hentry
  by_cases hc : sk.peer_ino = 0 ∧ sk.state = TCP_ESTABLISHED
  · simp only [hc, and_self, if_true] at hentry
    cases hl : lookup_unix_listen_icons T.unix_listen_icons sk.sd.ino with
    | none => simp [hl] at hentry
    | some e =>
      simp only [hl] at hentry
      by_cases hs : e.sk_desc.state = TCP_LISTEN
      · simp only [hs, ne_eq, not_true_eq_false, if_false, Option.some.injEq] at hentry
        subst hentry
        unfold lookup_unix_listen_icons at hl
        have hmem := List.mem_of_find?_eq_some hl
        have hp := List.find?_some hl
        simp only [decide_eq_true_eq] at hp
        obtain ⟨h1, h2⟩ := hinv _ e hmem
        refine ⟨rfl, e.sk_desc, h2, hs, ?_, rfl⟩
        show sk.sd.ino ∈ e.sk_desc.icons
        rw [← hp]
        exact h1
      · simp [hs] at hentry
  · simp only [hc, if_false, Option.some.injEq] at hentry
    subst hentry
    exact absurd (by decide : (0 : Nat) &&& USK_INFLIGHT = 0) hfl

theorem inflight_tables_high_sockets :
    inflight_tables_high.sockets =
      SK_HASH_LINK (SK_HASH_LINK sk_hash_empty (to_int 2147483649)
        (sk_desc.unix inflight_listener_high)) (to_int 21) (sk_desc.unix inflight_child) := by
  rfl

/-- C6, the code at the failing input: when the listener has the inode
2147483649 (2^31 + 1), both `unix_collect_one` calls succeed and `dump_one_unix`
writes for its in-flight child 21 a record with `USK_INFLIGHT`, state
ESTABLISHED and `peer = 2147483649`, but no chain of the 32-entry `sockets`
table holds a descriptor with that inode: the listener was linked at index
-31, outside the table. When every collected inode is hashed to an index that
is not negative (as every inode below 2^31 is), the closure holds: every
record written with `USK_INFLIGHT` has state ESTABLISHED, and one of the 32
chains holds a UNIX descriptor `L` in LISTEN state such that the record's id is
an element of `L.icons` and the record's peer is the inode of `L`. -/
theorem icons_closure :
    (unix_collect_all inflight_calls_high sk_tables_empty = some inflight_tables_high ∧
      (dump_one_unix inflight_tables_high.unix_listen_icons dump_all_ok inflight_child 5
        { list := [], entries := 0 }).written =
        [unixsk_item.entry
          { id := 21, fd := 5, type := 1, state := 1, namelen := 0, backlog := 0,
            flags := USK_INFLIGHT, peer := 2147483649 },
         unixsk_item.payload []] ∧
      Int.tmod (to_int 2147483649) SK_HASH_SIZE = -31 ∧
      sk_desc.unix inflight_listener_high ∈ inflight_tables_high.sockets (-31) ∧
      (∀ j : Int, 0 ≤ j → j < SK_HASH_SIZE →
        ∀ x ∈ inflight_tables_high.sockets j, x.sd.ino ≠ 2147483649)) ∧
    (∀ (calls : List (CollectOutcomes × unix_diag_msg × unix_rtattrs)) (T : sk_tables),
      unix_collect_all calls sk_tables_empty = some T →
      (∀ c ∈ calls, 0 ≤ Int.tmod (to_int c.2.1.udiag_ino) SK_HASH_SIZE) →
      ∀ (o : DumpOutcomes) (sk : unix_sk_desc) (fd : Int) (queue : sk_queue)
        (ue : unix_sk_entry),
        unixsk_item.entry ue ∈ (dump_one_unix T.unix_listen_icons o sk fd queue).written →
        ue.flags &&& USK_INFLIGHT ≠ 0 →
        ue.state = TCP_ESTABLISHED ∧
        ∃ L : unix_sk_desc,
          (∃ j : Int, 0 ≤ j ∧ j < SK_HASH_SIZE ∧ sk_desc.unix L ∈ T.sockets j) ∧
          L.state = TCP_LISTEN ∧ ue.id ∈ L.icons ∧ ue.peer = L.sd.ino) := by
  refine ⟨⟨by rfl, by decide, by decide, by decide, ?_⟩, ?_⟩
  · intro j h0 _ x hx
    rw [inflight_tables_high_sockets, mem_SK_HASH_LINK, mem_SK_HASH_LINK] at hx
    have h31 : Int.tmod (to_int 2147483649) SK_HASH_SIZE = -31 := by decide
    rcases hx with (hx | ⟨hj, _⟩) | ⟨_, hx⟩
    · simp [sk_hash_empty] at hx
    · rw [h31] at hj
      omega
    · rw [hx]
      decide
  · intro calls T hT hidx o sk fd queue ue hw hfl
    exact icons_closure_in_table calls T hT hidx o sk fd queue ue hw hfl

/-- C6 at scenario 3, where the inodes are 20 and 21: the record of socket 21
carries `USK_INFLIGHT`, and the listener 20 is in chain 20 of the table,
listens and has 21 among its icons. -/
theorem icons_closure_witness :
    unix_collect_all inflight_calls sk_tables_empty = some inflight_tables ∧
    unixsk_item.entry inflight_entry ∈
      (dump_one_unix inflight_tables.unix_listen_icons dump_all_ok inflight_child 5
        { list := [], entries := 0 }).written ∧
    sk_desc.unix inflight_listener ∈ inflight_tables.sockets 20 ∧
    inflight_entry.state = TCP_ESTABLISHED ∧
    ∃ L : unix_sk_desc,
      (∃ j : Int, 0 ≤ j ∧ j < SK_HASH_SIZE ∧ sk_desc.unix L ∈ inflight_tables.sockets j) ∧
      L.state = TCP_LISTEN ∧ inflight_entry.id ∈ L.icons ∧ inflight_entry.peer = L.sd.ino :=
  ⟨by rfl, by decide, by decide,
   icons_closure.2 inflight_calls inflight_tables (by rfl) (by decide) dump_all_ok
     inflight_child 5 { list := [], entries := 0 } inflight_entry (by decide) (by decide)⟩

/-! ## Queue replay -/

theorem restore_socket_queue_none (S : Sys) (fd : Int) (P : Nat) :
    ∀ (pool : List sk_packet) (log : List sys_call),
      (∀ pkt ∈ pool, pkt.entry.id_for ≠ P) →
      restore_socket_queue S pool fd P log = (0, pool, log) := by
  intro pool
  induction pool with
  | nil => intro log _; rfl
  | cons pkt rest ih =>
    intro log h
    have h1 : pkt.entry.id_for ≠ P := h pkt (List.mem_cons_self _ _)
    have h2 := ih log (fun q hq => h q (List.mem_cons_of_mem _ hq))
    simp only [restore_socket_queue, h1, ne_eq, not_false_eq_true, if_true, h2]

theorem restore_socket_queue_full (S : Sys) (fd : Int) (P : Nat) :
    ∀ (pool : List sk_packet) (log : List sys_call),
      (∀ n pkt, pkt ∈ pool → pkt.entry.id_for = P →
        S.ret n (sys_call.sendfile fd pkt.img_off pkt.entry.length) = (pkt.entry.length : Int)) →
      restore_socket_queue S pool fd P log =
        (0, pool.filter (fun pkt => decide (pkt.entry.id_for ≠ P)),
          log ++ (pool.filter (fun pkt => decide (pkt.entry.id_for = P))).map
            (fun pkt => sys_call.sendfile fd pkt.img_off pkt.entry.length)) := by
  intro pool
  induction pool with
  | nil => intro log _; simp [restore_socket_queue]
  | cons pkt rest ih =>
    intro log h
    have hrest : ∀ n q, q ∈ rest → q.entry.id_for = P →
        S.ret n (sys_call.sendfile fd q.img_off q.entry.length) = (q.entry.length : Int) :=
      fun n q hq => h n q (List.mem_cons_of_mem _ hq)
    by_cases h1 : pkt.entry.id_for = P
    · have h2 := h log.length pkt (List.mem_cons_self _ _) h1
      have h3 : ¬ ((pkt.entry.length : Int) < 0) := by omega
      simp only [restore_socket_queue, h1, ne_eq, not_true_eq_false, if_false, h2, h3,
        ih _ hrest, List.filter_cons, decide_True, decide_False, if_true, List.map_cons,
        List.append_assoc, List.singleton_append, Bool.false_eq_true]
    · simp only [restore_socket_queue, h1, ne_eq, not_false_eq_true, if_true,
        ih _ hrest, List.filter_cons, decide_True, decide_False, if_false,
        Bool.false_eq_true]

/-- C7: queue ordering. When every `sendfile` sends in full,
`restore_socket_queue(pool, fd, P)` returns 0 and its calls are exactly one
`sendfile` per pool packet whose `id_for` is `P`, in pool order, each from the
packet's image offset for the packet's length; afterwards the pool is the
original list without those packets, the others in their original order; a
second call with the same `P` sends nothing. -/
theorem restore_socket_queue_order (S : Sys) (pool : List sk_packet) (fd : Int) (P : Nat)
    (log : List sys_call)
    (hfull : ∀ n pkt, pkt ∈ pool → pkt.entry.id_for = P →
      S.ret n (sys_call.sendfile fd pkt.img_off pkt.entry.length) = (pkt.entry.length : Int)) :
    (restore_socket_queue S pool fd P log).1 = 0 ∧
    (restore_socket_queue S pool fd P log).2.2 =
      log ++ (pool.filter (fun pkt => decide (pkt.entry.id_for = P))).map
        (fun pkt => sys_call.sendfile fd pkt.img_off pkt.entry.length) ∧
    (restore_socket_queue S pool fd P log).2.1 =
      pool.filter (fun pkt => decide (pkt.entry.id_for ≠ P)) ∧
    (∀ (S2 : Sys) (log2 : List sys_call),
      restore_socket_queue S2 (restore_socket_queue S pool fd P log).2.1 fd P log2 =
        (0, (restore_socket_queue S pool fd P log).2.1, log2)) := by
  rw [restore_socket_queue_full S fd P pool log hfull]
  refine ⟨rfl, rfl, rfl, ?_⟩
  intro S2 log2
  apply restore_socket_queue_none
  intro pkt hpkt
  simpa using (List.mem_filter.mp hpkt).2

/-- C7 at `sample_pool` and peer 11: the two packets for 11 are sent in pool
order and the packet for 10 stays. -/
theorem restore_socket_queue_order_witness :
    (restore_socket_queue sys_all_ok sample_pool 7 11 []).1 = 0 ∧
    (restore_socket_queue sys_all_ok sample_pool 7 11 []).2.2 =
      [sys_call.sendfile 7 12 3, sys_call.sendfile 7 36 2] ∧
    (restore_socket_queue sys_all_ok sample_pool 7 11 []).2.1 =
      [{ entry := { id_for := 10, length := 5 }, img_off := 23 }] :=
  have h := restore_socket_queue_order sys_all_ok sample_pool 7 11 []
    (by intro n pkt _ _; rfl)
  ⟨h.1, h.2.1.trans (by decide), h.2.2.1.trans (by decide)⟩

/-! ## Rendezvous address -/

theorem conn_name_length (id : Int) : 21 ≤ (conn_name id).length := by
  have h : ("crtools-sk-".toList).length = 11 := by decide
  simp only [conn_name, fmt_width, List.length_append, List.length_replicate, h]
  omega

theorem snprintf_conn_name_length (id : Int) :
    22 ≤ (snprintf (UNIX_PATH_MAX - 1) (conn_name id)).length := by
  have h := conn_name_length id
  have h107 : UNIX_PATH_MAX - 1 = 107 := by decide
  simp only [snprintf, h107, List.length_append, List.length_map, List.length_take,
    List.length_singleton]
  simp only [show (107 : Nat) ≠ 0 by decide, if_false]
  simp only [List.length_append, List.length_map, List.length_take, List.length_singleton]
  omega

theorem prep_conn_addr_len (id : Int) (g : sockaddr_un) : (prep_conn_addr id g).2 = 24 := by
  have h : ((2 + ("crtools-sk-".length + 1) + 10 : Nat) : Int) = 24 := by decide
  simp only [prep_conn_addr, h]

theorem prep_conn_addr_bytes (id : Int) (g : sockaddr_un) :
    sockaddr_bytes (prep_conn_addr id g).1 24 =
      ([1, 0, 0] ++ snprintf (UNIX_PATH_MAX - 1) (conn_name id)).take 24 := by
  have hn := snprintf_conn_name_length id
  simp only [prep_conn_addr, sockaddr_bytes, buf_store, List.take_zero, List.nil_append,
    List.length_singleton, Nat.zero_add]
  have hfam : AF_UNIX % 256 = 1 ∧ AF_UNIX / 256 % 256 = 0 := by decide
  rw [hfam.1, hfam.2]
  have h24 : (24 : Int).toNat = 24 := by decide
  rw [h24]
  have htake : List.take 1 ([0] ++ List.drop 1 g.sun_path) = [0] := by simp
  rw [htake]
  have hassoc : ∀ (n x : List Nat), [1, 0] ++ ([0] ++ n ++ x) = ([1, 0, 0] ++ n) ++ x := by
    intro n x; simp
  rw [hassoc]
  apply List.take_append_of_le_length
  simp only [List.length_append, List.length_cons, List.length_nil]
  omega

/-- C9, the code at a failing input: for the inode 3000000000, which reaches the
`int` parameter as -1294967296, the formatted name has 22 characters
(`"crtools-sk--1294967296"`) while the returned length 24 leaves room for 21
after the family field and the leading NUL: the address of that length ends
with `"...-129496729"`, the last digit cut off. -/
theorem prep_conn_addr_cuts_name :
    to_int 3000000000 = -1294967296 ∧
    conn_name (to_int 3000000000) = "crtools-sk--1294967296".toList ∧
    (prep_conn_addr (to_int 3000000000)
      { sun_family := 0, sun_path := List.replicate 108 0 }).2 = 24 ∧
    (2 : Int) + 1 + (conn_name (to_int 3000000000)).length = 25 ∧
    sockaddr_bytes (prep_conn_addr (to_int 3000000000)
        { sun_family := 0, sun_path := List.replicate 108 0 }).1
      (prep_conn_addr (to_int 3000000000)
        { sun_family := 0, sun_path := List.replicate 108 0 }).2 =
      [1, 0, 0] ++ "crtools-sk--129496729".toList.map Char.toNat := by
  decide

/-! ## Deferred jobs -/

theorem schedule_conn_job_ok (S : Sys) (type : Int) (ue : unix_sk_entry) (R : restorer)
    (h : (schedule_conn_job S type ue R).1 = 0) :
    (schedule_conn_job S type ue R).2.conn_jobs =
      { fd := ue.fd, peer := ue.peer, type := type } :: R.conn_jobs ∧
    (schedule_conn_job S type ue R).2.accept_jobs = R.accept_jobs ∧
    (schedule_conn_job S type ue R).2.unix_listen = R.unix_listen ∧
    (schedule_conn_job S type ue R).2.log = R.log ++ [sys_call.xmalloc] := by
  unfold schedule_conn_job at h ⊢
  by_cases ha : (sys S R sys_call.xmalloc).1 = 0
  · simp [ha] at h
  · simp only [ha, if_false]
    exact ⟨rfl, rfl, rfl, rfl⟩

theorem schedule_acc_job_ok (S : Sys) (sk : Int) (ue : unix_sk_entry) (R : restorer)
    (h : (schedule_acc_job S sk ue R).1 = 0) :
    (schedule_acc_job S sk ue R).2.accept_jobs =
      { fd := ue.fd, peer := to_int ue.peer } :: R.accept_jobs ∧
    (schedule_acc_job S sk ue R).2.conn_jobs = R.conn_jobs ∧
    (schedule_acc_job S sk ue R).2.unix_listen = R.unix_listen ∧
    (schedule_acc_job S sk ue R).2.log = R.log ++
      [sys_call.bind sk
          (([1, 0, 0] ++ snprintf (UNIX_PATH_MAX - 1) (conn_name (to_int ue.id))).take 24) 24,
        sys_call.listen sk 1, sys_call.xmalloc] := by
  unfold schedule_acc_job at h ⊢
  simp only [prep_conn_addr_len, prep_conn_addr_bytes] at h ⊢
  split at h
  · simp at h
  rename_i hb
  split at h
  · simp at h
  rename_i hl
  split at h
  · simp at h
  rename_i ha
  simp only [hb, hl, ha, if_false]
  refine ⟨rfl, rfl, rfl, ?_⟩
  simp [sys]

theorem connect_try_again_log (S : Sys) (fd : Int) (addr : List Nat) (addrlen : Int) :
    ∀ (attempts : Nat) (log : List sys_call),
      ∃ rest, (connect_try_again S fd addr addrlen attempts log).2 =
        log ++ sys_call.connect fd addr addrlen :: rest := by
  intro attempts
  induction attempts with
  | zero =>
    intro log
    unfold connect_try_again
    split <;> exact ⟨[], rfl⟩
  | succ n ih =>
    intro log
    unfold connect_try_again
    split
    · obtain ⟨rest, hrest⟩ := ih (log ++ [sys_call.connect fd addr addrlen] ++
        [sys_call.usleep 1000])
      exact ⟨sys_call.usleep 1000 :: sys_call.connect fd addr addrlen :: rest,
        by rw [hrest]; simp⟩
    · exact ⟨[], rfl⟩

theorem restore_socket_queue_log (S : Sys) (fd : Int) (P : Nat) :
    ∀ (pool : List sk_packet) (log : List sys_call),
      ∃ rest, (restore_socket_queue S pool fd P log).2.2 = log ++ rest := by
  intro pool
  induction pool with
  | nil => intro log; exact ⟨[], by simp [restore_socket_queue]⟩
  | cons pkt tail ih =>
    intro log
    unfold restore_socket_queue
    split
    · exact ih log
    · dsimp only
      split
      · exact ⟨_, rfl⟩
      · split
        · exact ⟨_, rfl⟩
        · obtain ⟨rest, hrest⟩ := ih (log ++ [sys_call.sendfile fd pkt.img_off pkt.entry.length])
          exact ⟨sys_call.sendfile fd pkt.img_off pkt.entry.length :: rest,
            by rw [hrest]; simp⟩

theorem run_connect_jobs_loop_log (S : Sys) (unix_listen : sk_hash unix_sk_listen) :
    ∀ (jobs : List unix_conn_job) (pool : List sk_packet) (log : List sys_call),
      ∃ rest, (run_connect_jobs_loop S unix_listen jobs pool log).2.2 = log ++ rest := by
  intro jobs
  induction jobs with
  | nil => intro pool log; exact ⟨[], by simp [run_connect_jobs_loop]⟩
  | cons cj next ih =>
    intro pool log
    unfold run_connect_jobs_loop
    cases hc : conn_job_addr unix_listen (S.uninit_addr log.length) cj with
    | none => exact ⟨[], by simp⟩
    | some p =>
      obtain ⟨addr, addrlen⟩ := p
      dsimp only
      obtain ⟨r1, h1⟩ := connect_try_again_log S cj.fd (sockaddr_bytes addr addrlen) addrlen 8 log
      obtain ⟨r2, h2⟩ := restore_socket_queue_log S cj.fd cj.peer pool
        (connect_try_again S cj.fd (sockaddr_bytes addr addrlen) addrlen 8 log).2
      split
      · exact ⟨_, h1⟩
      · split
        · refine ⟨(sys_call.connect cj.fd (sockaddr_bytes addr addrlen) addrlen :: r1) ++ r2, ?_⟩
          rw [h2, h1]
          simp
        · obtain ⟨r3, h3⟩ := ih
            (restore_socket_queue S pool cj.fd cj.peer
              (connect_try_again S cj.fd (sockaddr_bytes addr addrlen) addrlen 8 log).2).2.1
            (restore_socket_queue S pool cj.fd cj.peer
              (connect_try_again S cj.fd (sockaddr_bytes addr addrlen) addrlen 8 log).2).2.2
          refine ⟨((sys_call.connect cj.fd (sockaddr_bytes addr addrlen) addrlen :: r1) ++ r2)
            ++ r3, ?_⟩
          rw [h3, h2, h1]
          simp

theorem run_connect_jobs_first_stream (S : Sys) (pool : List sk_packet) (R : restorer)
    (fd : Int) (peer : Nat) (next : List unix_conn_job)
    (hjobs : R.conn_jobs = { fd := fd, peer := peer, type := CJ_STREAM } :: next) :
    ∃ rest, (run_connect_jobs S pool R).2.2.log = R.log ++
      sys_call.connect fd
        (([1, 0, 0] ++ snprintf (UNIX_PATH_MAX - 1) (conn_name (to_int peer))).take 24) 24
        :: rest := by
  unfold run_connect_jobs
  rw [hjobs]
  unfold run_connect_jobs_loop
  simp only [conn_job_addr, if_true, prep_conn_addr_len, prep_conn_addr_bytes]
  obtain ⟨r1, h1⟩ := connect_try_again_log S fd
    (([1, 0, 0] ++ snprintf (UNIX_PATH_MAX - 1) (conn_name (to_int peer))).take 24) 24 8 R.log
  obtain ⟨r2, h2⟩ := restore_socket_queue_log S fd peer pool
    (connect_try_again S fd
      (([1, 0, 0] ++ snprintf (UNIX_PATH_MAX - 1) (conn_name (to_int peer))).take 24) 24 8
      R.log).2
  split
  · exact ⟨_, h1⟩
  · split
    · refine ⟨r1 ++ r2, ?_⟩
      rw [h2, h1]
      simp
    · obtain ⟨r3, h3⟩ := run_connect_jobs_loop_log S R.unix_listen next
        (restore_socket_queue S pool fd peer
          (connect_try_again S fd
            (([1, 0, 0] ++ snprintf (UNIX_PATH_MAX - 1) (conn_name (to_int peer))).take 24)
            24 8 R.log).2).2.1
        (restore_socket_queue S pool fd peer
          (connect_try_again S fd
            (([1, 0, 0] ++ snprintf (UNIX_PATH_MAX - 1) (conn_name (to_int peer))).take 24)
            24 8 R.log).2).2.2
      refine ⟨(r1 ++ r2) ++ r3, ?_⟩
      rw [h3, h2, h1]
      simp

theorem open_unix_sk_stream_server (S : Sys) (sk : Int) (ue : unix_sk_entry)
    (img_name : List Nat) (R : restorer) (hst : ue.state = TCP_ESTABLISHED)
    (hlt : ue.peer < ue.id) (hfl : ue.flags &&& USK_INFLIGHT = 0) :
    open_unix_sk_stream S sk ue img_name R = schedule_acc_job S sk ue R := by
  have hne : TCP_ESTABLISHED ≠ TCP_LISTEN := by decide
  simp [open_unix_sk_stream, hst, hne, hlt, hfl]

theorem open_unix_sk_stream_client (S : Sys) (sk : Int) (ue : unix_sk_entry)
    (img_name : List Nat) (R : restorer) (hst : ue.state = TCP_ESTABLISHED)
    (hge : ¬ ue.peer < ue.id) (hfl : ue.flags &&& USK_INFLIGHT = 0) :
    open_unix_sk_stream S sk ue img_name R = schedule_conn_job S CJ_STREAM ue R := by
  have hne : TCP_ESTABLISHED ≠ TCP_LISTEN := by decide
  simp [open_unix_sk_stream, hst, hne, hge, hfl]

/-- C8: rendezvous agreement for a stream pair. Two UNIX stream entries `a` and
`b` in state ESTABLISHED, without `USK_INFLIGHT`, each the peer of the other
and with different ids, are restored one after the other (`a` first; the
statement is symmetric in the two) and both calls succeed. Then one of them,
`srv`, has added exactly one accept job and the other, `cli`, exactly one
connect job of type `CJ_STREAM`; the socket of `srv` has been bound to an
address of 24 bytes, and the connect phase, whatever the environment then is,
first connects the descriptor of `cli` to the same 24 bytes with the same
length. -/
theorem stream_pair_rendezvous (S : Sys) (R0 : restorer) (a b : unix_sk_entry)
    (sk_a sk_b : Int) (name_a name_b : List Nat)
    (ha : a.state = TCP_ESTABLISHED) (hb : b.state = TCP_ESTABLISHED)
    (hfa : a.flags &&& USK_INFLIGHT = 0) (hfb : b.flags &&& USK_INFLIGHT = 0)
    (hab : a.peer = b.id) (hba : b.peer = a.id) (hne : a.id ≠ b.id)
    (hra : (open_unix_sk_stream S sk_a a name_a R0).1 = 0)
    (hrb : (open_unix_sk_stream S sk_b b name_b
      (open_unix_sk_stream S sk_a a name_a R0).2).1 = 0) :
    ∃ (srv cli : unix_sk_entry) (sk_srv : Int) (addr : List Nat),
      ((srv = a ∧ cli = b ∧ sk_srv = sk_a) ∨ (srv = b ∧ cli = a ∧ sk_srv = sk_b)) ∧
      (open_unix_sk_stream S sk_b b name_b
          (open_unix_sk_stream S sk_a a name_a R0).2).2.accept_jobs =
        { fd := srv.fd, peer := to_int srv.peer } :: R0.accept_jobs ∧
      (open_unix_sk_stream S sk_b b name_b
          (open_unix_sk_stream S sk_a a name_a R0).2).2.conn_jobs =
        { fd := cli.fd, peer := cli.peer, type := CJ_STREAM } :: R0.conn_jobs ∧
      sys_call.bind sk_srv addr 24 ∈
        ((open_unix_sk_stream S sk_b b name_b
          (open_unix_sk_stream S sk_a a name_a R0).2).2.log).drop R0.log.length ∧
      ∀ (S2 : Sys) (pool : List sk_packet), ∃ rest,
        (run_connect_jobs S2 pool (open_unix_sk_stream S sk_b b name_b
          (open_unix_sk_stream S sk_a a name_a R0).2).2).2.2.log =
        (open_unix_sk_stream S sk_b b name_b
          (open_unix_sk_stream S sk_a a name_a R0).2).2.log ++
          sys_call.connect cli.fd addr 24 :: rest := by
  by_cases hlt : a.id < b.id
  · -- `a` is the client, `b` the server
    have hca : ¬ a.peer < a.id := by omega
    have hsb : b.peer < b.id := by omega
    rw [open_unix_sk_stream_client S sk_a a name_a R0 ha hca hfa] at hra hrb ⊢
    obtain ⟨c1, c2, _, c4⟩ := schedule_conn_job_ok S CJ_STREAM a R0 hra
    rw [open_unix_sk_stream_server S sk_b b name_b _ hb hsb hfb] at hrb ⊢
    obtain ⟨s1, s2, _, s4⟩ := schedule_acc_job_ok S sk_b b _ hrb
    refine ⟨b, a, sk_b,
      ([1, 0, 0] ++ snprintf (UNIX_PATH_MAX - 1) (conn_name (to_int b.id))).take 24,
      Or.inr ⟨rfl, rfl, rfl⟩, ?_, ?_, ?_, ?_⟩
    · rw [s1, c2]
    · rw [s2, c1]
    · rw [s4, c4]
      simp
    · intro S2 pool
      have hjobs := s2.trans c1
      obtain ⟨rest, hrest⟩ := run_connect_jobs_first_stream S2 pool _ a.fd a.peer
        R0.conn_jobs hjobs
      rw [hab] at hrest
      exact ⟨rest, hrest⟩
  · -- `a` is the server, `b` the client
    have hsa : a.peer < a.id := by omega
    have hcb : ¬ b.peer < b.id := by omega
    rw [open_unix_sk_stream_server S sk_a a name_a R0 ha hsa hfa] at hra hrb ⊢
    obtain ⟨s1, s2, _, s4⟩ := schedule_acc_job_ok S sk_a a R0 hra
    rw [open_unix_sk_stream_client S sk_b b name_b _ hb hcb hfb] at hrb ⊢
    obtain ⟨c1, c2, _, c4⟩ := schedule_conn_job_ok S CJ_STREAM b _ hrb
    refine ⟨a, b, sk_a,
      ([1, 0, 0] ++ snprintf (UNIX_PATH_MAX - 1) (conn_name (to_int a.id))).take 24,
      Or.inl ⟨rfl, rfl, rfl⟩, ?_, ?_, ?_, ?_⟩
    · rw [c2, s1]
    · rw [c1, s2]
    · rw [c4, s4]
      simp
    · intro S2 pool
      have hjobs := c1.trans (congrArg _ s2)
      obtain ⟨rest, hrest⟩ := run_connect_jobs_first_stream S2 pool _ b.fd b.peer
        R0.conn_jobs hjobs
      rw [hba] at hrest
      exact ⟨rest, hrest⟩

/-- C8 at the pair 10, 11 restored in that order. -/
theorem stream_pair_rendezvous_witness :
    (open_unix_sk_stream sys_all_ok 6 stream_entry_11 []
      (open_unix_sk_stream sys_all_ok 5 stream_entry_10 [] restorer_empty).2).2.log =
      [sys_call.xmalloc,
       sys_call.bind 6 ([1, 0, 0] ++ "crtools-sk-        11".toList.map Char.toNat) 24,
       sys_call.listen 6 1, sys_call.xmalloc] ∧
    ∃ (srv cli : unix_sk_entry) (sk_srv : Int) (addr : List Nat),
      ((srv = stream_entry_10 ∧ cli = stream_entry_11 ∧ sk_srv = 5) ∨
        (srv = stream_entry_11 ∧ cli = stream_entry_10 ∧ sk_srv = 6)) ∧
      (open_unix_sk_stream sys_all_ok 6 stream_entry_11 []
          (open_unix_sk_stream sys_all_ok 5 stream_entry_10 [] restorer_empty).2).2.accept_jobs =
        { fd := srv.fd, peer := to_int srv.peer } :: restorer_empty.accept_jobs ∧
      (open_unix_sk_stream sys_all_ok 6 stream_entry_11 []
          (open_unix_sk_stream sys_all_ok 5 stream_entry_10 [] restorer_empty).2).2.conn_jobs =
        { fd := cli.fd, peer := cli.peer, type := CJ_STREAM } :: restorer_empty.conn_jobs ∧
      sys_call.bind sk_srv addr 24 ∈
        ((open_unix_sk_stream sys_all_ok 6 stream_entry_11 []
          (open_unix_sk_stream sys_all_ok 5 stream_entry_10 [] restorer_empty).2).2.log).drop
            restorer_empty.log.length ∧
      ∀ (S2 : Sys) (pool : List sk_packet), ∃ rest,
        (run_connect_jobs S2 pool (open_unix_sk_stream sys_all_ok 6 stream_entry_11 []
          (open_unix_sk_stream sys_all_ok 5 stream_entry_10 [] restorer_empty).2).2).2.2.log =
        (open_unix_sk_stream sys_all_ok 6 stream_entry_11 []
          (open_unix_sk_stream sys_all_ok 5 stream_entry_10 [] restorer_empty).2).2.log ++
          sys_call.connect cli.fd addr 24 :: rest :=
  ⟨by decide,
   stream_pair_rendezvous sys_all_ok restorer_empty stream_entry_10 stream_entry_11 5 6 [] []
     (by decide) (by decide) (by decide) (by decide) (by decide) (by decide) (by decide)
     (by decide) (by decide)⟩

/-- C10, as stated, fails: of the mutual peers 10 and 11 (ESTABLISHED, not in
flight), restoring the entry with the lower id, 10, binds nothing, listens on
nothing and adds a connect job, while restoring the entry with the higher
id, 11, adds the accept job. -/
theorem stream_pair_lower_id_counterexample :
    stream_entry_10.id < stream_entry_11.id ∧
    stream_entry_10.peer = stream_entry_11.id ∧ stream_entry_11.peer = stream_entry_10.id ∧
    (open_unix_sk_stream sys_all_ok 5 stream_entry_10 [] restorer_empty).1 = 0 ∧
    (open_unix_sk_stream sys_all_ok 5 stream_entry_10 [] restorer_empty).2.accept_jobs = [] ∧
    (open_unix_sk_stream sys_all_ok 5 stream_entry_10 [] restorer_empty).2.conn_jobs =
      [{ fd := 3, peer := 11, type := CJ_STREAM }] ∧
    (open_unix_sk_stream sys_all_ok 5 stream_entry_10 [] restorer_empty).2.log =
      [sys_call.xmalloc] ∧
    (open_unix_sk_stream sys_all_ok 6 stream_entry_11 [] restorer_empty).1 = 0 ∧
    (open_unix_sk_stream sys_all_ok 6 stream_entry_11 [] restorer_empty).2.accept_jobs =
      [{ fd := 4, peer := 10 }] ∧
    (open_unix_sk_stream sys_all_ok 6 stream_entry_11 [] restorer_empty).2.conn_jobs = [] := by
  decide

/-- C10, amended: of two mutual peers restored from ESTABLISHED entries that
are not in flight, `a.id < b.id`, the side with the higher id, `b`, becomes
the server: when its restore succeeds, its socket has been bound to the
rendezvous address of its own id (family `AF_UNIX`, a NUL, then the name
formatted from `b.id`, 24 bytes in all), put in `listen(1)`, and an accept job
`{fd, peer}` has been added and no connect job; the side with the lower id,
`a`, when its restore succeeds, has been given a connect job of type
`CJ_STREAM`, no accept job, and has made no `bind` or `listen`. -/
theorem stream_pair_higher_id_server (S : Sys) (R : restorer) (a b : unix_sk_entry)
    (sk : Int) (img_name : List Nat)
    (ha : a.state = TCP_ESTABLISHED) (hb : b.state = TCP_ESTABLISHED)
    (hfa : a.flags &&& USK_INFLIGHT = 0) (hfb : b.flags &&& USK_INFLIGHT = 0)
    (hab : a.peer = b.id) (hba : b.peer = a.id) (hlt : a.id < b.id) :
    ((open_unix_sk_stream S sk b img_name R).1 = 0 →
      (open_unix_sk_stream S sk b img_name R).2.log = R.log ++
        [sys_call.bind sk
            (([AF_UNIX, 0] ++ [0] ++
              snprintf (UNIX_PATH_MAX - 1) (conn_name (to_int b.id))).take 24) 24,
          sys_call.listen sk 1, sys_call.xmalloc] ∧
      (open_unix_sk_stream S sk b img_name R).2.accept_jobs =
        { fd := b.fd, peer := to_int b.peer } :: R.accept_jobs ∧
      (open_unix_sk_stream S sk b img_name R).2.conn_jobs = R.conn_jobs) ∧
    ((open_unix_sk_stream S sk a img_name R).1 = 0 →
      (open_unix_sk_stream S sk a img_name R).2.conn_jobs =
        { fd := a.fd, peer := a.peer, type := CJ_STREAM } :: R.conn_jobs ∧
      (open_unix_sk_stream S sk a img_name R).2.accept_jobs = R.accept_jobs ∧
      (open_unix_sk_stream S sk a img_name R).2.log = R.log ++ [sys_call.xmalloc]) := by
  have hca : ¬ a.peer < a.id := by omega
  have hsb : b.peer < b.id := by omega
  rw [open_unix_sk_stream_client S sk a img_name R ha hca hfa,
    open_unix_sk_stream_server S sk b img_name R hb hsb hfb]
  refine ⟨?_, ?_⟩
  · intro h
    obtain ⟨s1, s2, _, s4⟩ := schedule_acc_job_ok S sk b R h
    exact ⟨s4, s1, s2⟩
  · intro h
    obtain ⟨c1, c2, _, c4⟩ := schedule_conn_job_ok S CJ_STREAM a R h
    exact ⟨c1, c2, c4⟩

/-- The amended C10 at the pair 10, 11: the entry 11 binds, listens and gets the
accept job, the entry 10 gets the connect job. -/
theorem stream_pair_higher_id_server_witness :
    (open_unix_sk_stream sys_all_ok 6 stream_entry_11 [] restorer_empty).1 = 0 ∧
    (open_unix_sk_stream sys_all_ok 6 stream_entry_11 [] restorer_empty).2.log =
      [sys_call.bind 6 ([1, 0, 0] ++ "crtools-sk-        11".toList.map Char.toNat) 24,
       sys_call.listen 6 1, sys_call.xmalloc] ∧
    (open_unix_sk_stream sys_all_ok 6 stream_entry_11 [] restorer_empty).2.accept_jobs =
      [{ fd := 4, peer := 10 }] ∧
    (open_unix_sk_stream sys_all_ok 5 stream_entry_10 [] restorer_empty).2.conn_jobs =
      [{ fd := 3, peer := 11, type := CJ_STREAM }] :=
  have h := stream_pair_higher_id_server sys_all_ok restorer_empty stream_entry_10
    stream_entry_11 6 [] (by decide) (by decide) (by decide) (by decide) (by decide)
    (by decide) (by decide)
  have h5 := stream_pair_higher_id_server sys_all_ok restorer_empty stream_entry_10
    stream_entry_11 5 [] (by decide) (by decide) (by decide) (by decide) (by decide)
    (by decide) (by decide)
  ⟨by decide, (h.1 (by decide)).1.trans (by decide), (h.1 (by decide)).2.1,
   (h5.2 (by decide)).1⟩

/-! ## Datagram sockets -/

theorem to_uint_to_int (u : Nat) (h : u < 2 ^ 32) : to_uint (to_int u) = u := by
  unfold to_uint to_int
  split <;> omega

theorem lookup_unix_listen_link_hit (T : sk_hash unix_sk_listen) (e : unix_sk_listen) :
    lookup_unix_listen (SK_HASH_LINK T (e.ino : Int) e) e.ino e.type = some e := by
  unfold lookup_unix_listen SK_HASH_LINK
  have h : ((e.ino % SK_HASH_SIZE : Nat) : Int) = Int.tmod (e.ino : Int) SK_HASH_SIZE := rfl
  simp [h]

theorem lookup_unix_listen_link_miss (T : sk_hash unix_sk_listen) (e : unix_sk_listen)
    (ino : Nat) (type : Int) (hne : e.ino ≠ ino) :
    lookup_unix_listen (SK_HASH_LINK T (e.ino : Int) e) ino type =
      lookup_unix_listen T ino type := by
  unfold lookup_unix_listen SK_HASH_LINK
  by_cases h : ((ino % SK_HASH_SIZE : Nat) : Int) = Int.tmod (e.ino : Int) SK_HASH_SIZE
  · simp only [h, if_true, List.find?_cons]
    simp [hne]
  · simp only [h, if_false]

theorem bind_unix_sk_to_addr_ok (S : Sys) (sk : Int) (addr : sockaddr_un) (addrlen id type : Int)
    (R : restorer) (h : (bind_unix_sk_to_addr S sk addr addrlen id type R).1 = 0) :
    (bind_unix_sk_to_addr S sk addr addrlen id type R).2.log =
      R.log ++ [sys_call.bind sk (sockaddr_bytes addr addrlen) addrlen, sys_call.xmalloc] ∧
    (bind_unix_sk_to_addr S sk addr addrlen id type R).2.conn_jobs = R.conn_jobs ∧
    (bind_unix_sk_to_addr S sk addr addrlen id type R).2.accept_jobs = R.accept_jobs ∧
    (bind_unix_sk_to_addr S sk addr addrlen id type R).2.unix_listen =
      SK_HASH_LINK R.unix_listen ((to_uint id : Nat) : Int)
        { addr := addr, addrlen := to_uint addrlen, ino := to_uint id, type := type } := by
  unfold bind_unix_sk_to_addr at h ⊢
  dsimp only at h ⊢
  split at h
  · simp at h
  rename_i hb
  split at h
  · simp at h
  rename_i ha
  simp only [hb, ha, if_false]
  refine ⟨?_, rfl, rfl, rfl⟩
  simp [sys]

theorem open_unix_sk_dgram_pair_ok (S : Sys) (sk : Int) (ue : unix_sk_entry)
    (img_name : List Nat) (R : restorer) (hn : ue.namelen = 0) (hp : ue.peer ≠ 0)
    (hid : ue.id < 2 ^ 32) (h : (open_unix_sk_dgram S sk ue img_name R).1 = 0) :
    (open_unix_sk_dgram S sk ue img_name R).2.log = R.log ++
      [sys_call.bind sk
          (([1, 0, 0] ++ snprintf (UNIX_PATH_MAX - 1) (conn_name (to_int ue.id))).take 24) 24,
        sys_call.xmalloc, sys_call.xmalloc] ∧
    (open_unix_sk_dgram S sk ue img_name R).2.conn_jobs =
      { fd := ue.fd, peer := ue.peer, type := CJ_DGRAM } :: R.conn_jobs ∧
    (open_unix_sk_dgram S sk ue img_name R).2.accept_jobs = R.accept_jobs ∧
    (open_unix_sk_dgram S sk ue img_name R).2.unix_listen =
      SK_HASH_LINK R.unix_listen (ue.id : Int)
        { addr := (prep_conn_addr (to_int ue.id) (S.uninit_addr R.log.length)).1,
          addrlen := 24, ino := ue.id, type := (SOCK_DGRAM : Int) } := by
  unfold open_unix_sk_dgram at h ⊢
  simp only [hn, ne_eq, not_true_eq_false, if_false, hp, not_false_eq_true, if_true,
    and_true, prep_conn_addr_len] at h ⊢
  by_cases hb : (bind_unix_sk_to_addr S sk
      (prep_conn_addr (to_int ue.id) (S.uninit_addr R.log.length)).1 24 (to_int ue.id)
      (SOCK_DGRAM : Int) R).1 = 0
  · simp only [hb, if_true] at h ⊢
    obtain ⟨b1, b2, b3, b4⟩ := bind_unix_sk_to_addr_ok S sk _ 24 (to_int ue.id) _ R hb
    obtain ⟨c1, c2, c3, c4⟩ := schedule_conn_job_ok S CJ_DGRAM ue _ h
    have h24 : to_uint 24 = 24 := by decide
    rw [to_uint_to_int ue.id hid, h24] at b4
    refine ⟨?_, ?_, ?_, ?_⟩
    · rw [c4, b1, prep_conn_addr_bytes]
      simp
    · rw [c1, b2]
    · rw [c2, b3]
    · rw [c3, b4]
  · simp only [hb, if_false] at h

/-- C11: DGRAM socketpair restore. Two UNIX DGRAM entries `a` and `b` with
`namelen = 0`, each the peer of the other, with non-zero and different ids
(32-bit values), are restored one after the other and both calls succeed. Then
each socket has been bound to the rendezvous address of its own id (24
bytes), the `unix_listen` table answers the lookup `(id, SOCK_DGRAM)` of either
id with that address and length, exactly one `CJ_DGRAM` job per entry has been
added, and in the connect phase the lookup made for each job succeeds and
yields, as destination, the bytes and length its peer was bound to. -/
theorem dgram_pair_restore (S : Sys) (R0 : restorer) (a b : unix_sk_entry)
    (sk_a sk_b : Int) (name_a name_b : List Nat)
    (hna : a.namelen = 0) (hnb : b.namelen = 0)
    (hab : a.peer = b.id) (hba : b.peer = a.id)
    (ha0 : a.id ≠ 0) (hb0 : b.id ≠ 0) (hne : a.id ≠ b.id)
    (ha32 : a.id < 2 ^ 32) (hb32 : b.id < 2 ^ 32)
    (hra : (open_unix_sk_dgram S sk_a a name_a R0).1 = 0)
    (hrb : (open_unix_sk_dgram S sk_b b name_b
      (open_unix_sk_dgram S sk_a a name_a R0).2).1 = 0) :
    (open_unix_sk_dgram S sk_b b name_b (open_unix_sk_dgram S sk_a a name_a R0).2).2.log =
      R0.log ++
        [sys_call.bind sk_a
            (([1, 0, 0] ++ snprintf (UNIX_PATH_MAX - 1) (conn_name (to_int a.id))).take 24) 24,
          sys_call.xmalloc, sys_call.xmalloc,
          sys_call.bind sk_b
            (([1, 0, 0] ++ snprintf (UNIX_PATH_MAX - 1) (conn_name (to_int b.id))).take 24) 24,
          sys_call.xmalloc, sys_call.xmalloc] ∧
    (open_unix_sk_dgram S sk_b b name_b
        (open_unix_sk_dgram S sk_a a name_a R0).2).2.conn_jobs =
      { fd := b.fd, peer := b.peer, type := CJ_DGRAM } ::
        { fd := a.fd, peer := a.peer, type := CJ_DGRAM } :: R0.conn_jobs ∧
    (∃ ea eb : unix_sk_listen,
      lookup_unix_listen (open_unix_sk_dgram S sk_b b name_b
        (open_unix_sk_dgram S sk_a a name_a R0).2).2.unix_listen a.id SOCK_DGRAM = some ea ∧
      lookup_unix_listen (open_unix_sk_dgram S sk_b b name_b
        (open_unix_sk_dgram S sk_a a name_a R0).2).2.unix_listen b.id SOCK_DGRAM = some eb ∧
      ea.addrlen = 24 ∧ eb.addrlen = 24 ∧
      sockaddr_bytes ea.addr 24 =
        ([1, 0, 0] ++ snprintf (UNIX_PATH_MAX - 1) (conn_name (to_int a.id))).take 24 ∧
      sockaddr_bytes eb.addr 24 =
        ([1, 0, 0] ++ snprintf (UNIX_PATH_MAX - 1) (conn_name (to_int b.id))).take 24) ∧
    (∀ g : sockaddr_un, ∃ da db : sockaddr_un,
      conn_job_addr (open_unix_sk_dgram S sk_b b name_b
          (open_unix_sk_dgram S sk_a a name_a R0).2).2.unix_listen g
        { fd := a.fd, peer := a.peer, type := CJ_DGRAM } = some (da, 24) ∧
      conn_job_addr (open_unix_sk_dgram S sk_b b name_b
          (open_unix_sk_dgram S sk_a a name_a R0).2).2.unix_listen g
        { fd := b.fd, peer := b.peer, type := CJ_DGRAM } = some (db, 24) ∧
      sockaddr_bytes da 24 =
        ([1, 0, 0] ++ snprintf (UNIX_PATH_MAX - 1) (conn_name (to_int b.id))).take 24 ∧
      sockaddr_bytes db 24 =
        ([1, 0, 0] ++ snprintf (UNIX_PATH_MAX - 1) (conn_name (to_int a.id))).take 24) := by
  have hpa : a.peer ≠ 0 := by rw [hab]; exact hb0
  have hpb : b.peer ≠ 0 := by rw [hba]; exact ha0
  obtain ⟨a1, a2, _, a4⟩ := open_unix_sk_dgram_pair_ok S sk_a a name_a R0 hna hpa ha32 hra
  obtain ⟨b1, b2, _, b4⟩ := open_unix_sk_dgram_pair_ok S sk_b b name_b _ hnb hpb hb32 hrb
  have hla : lookup_unix_listen (open_unix_sk_dgram S sk_b b name_b
      (open_unix_sk_dgram S sk_a a name_a R0).2).2.unix_listen a.id SOCK_DGRAM =
      some { addr := (prep_conn_addr (to_int a.id) (S.uninit_addr R0.log.length)).1,
             addrlen := 24, ino := a.id, type := (SOCK_DGRAM : Int) } := by
    rw [b4, a4]
    have h1 := lookup_unix_listen_link_miss
      (SK_HASH_LINK R0.unix_listen (a.id : Int)
        { addr := (prep_conn_addr (to_int a.id) (S.uninit_addr R0.log.length)).1,
          addrlen := 24, ino := a.id, type := (SOCK_DGRAM : Int) })
      { addr := (prep_conn_addr (to_int b.id) (S.uninit_addr
          (open_unix_sk_dgram S sk_a a name_a R0).2.log.length)).1,
        addrlen := 24, ino := b.id, type := (SOCK_DGRAM : Int) } a.id (SOCK_DGRAM : Int)
      (fun h => hne h.symm)
    rw [h1]
    exact lookup_unix_listen_link_hit R0.unix_listen
      { addr := (prep_conn_addr (to_int a.id) (S.uninit_addr R0.log.length)).1,
        addrlen := 24, ino := a.id, type := (SOCK_DGRAM : Int) }
  have hlb : lookup_unix_listen (open_unix_sk_dgram S sk_b b name_b
      (open_unix_sk_dgram S sk_a a name_a R0).2).2.unix_listen b.id SOCK_DGRAM =
      some { addr := (prep_conn_addr (to_int b.id) (S.uninit_addr
               (open_unix_sk_dgram S sk_a a name_a R0).2.log.length)).1,
             addrlen := 24, ino := b.id, type := (SOCK_DGRAM : Int) } := by
    rw [b4]
    exact lookup_unix_listen_link_hit _
      { addr := (prep_conn_addr (to_int b.id) (S.uninit_addr
          (open_unix_sk_dgram S sk_a a name_a R0).2.log.length)).1,
        addrlen := 24, ino := b.id, type := (SOCK_DGRAM : Int) }
  have hdg : CJ_DGRAM ≠ CJ_STREAM ∧ CJ_DGRAM ≠ CJ_STREAM_INFLIGHT := by decide
  refine ⟨?_, ?_, ⟨_, _, hla, hlb, rfl, rfl, prep_conn_addr_bytes _ _,
    prep_conn_addr_bytes _ _⟩, ?_⟩
  · rw [b1, a1]
    simp
  · rw [b2, a2]
  · intro g
    refine ⟨(prep_conn_addr (to_int b.id) (S.uninit_addr
        (open_unix_sk_dgram S sk_a a name_a R0).2.log.length)).1,
      (prep_conn_addr (to_int a.id) (S.uninit_addr R0.log.length)).1, ?_, ?_,
      prep_conn_addr_bytes (to_int b.id) _, prep_conn_addr_bytes (to_int a.id) _⟩
    · simp only [conn_job_addr, hdg.1, hdg.2, if_false, hab, hlb]
      rfl
    · simp only [conn_job_addr, hdg.1, hdg.2, if_false, hba, hla]
      rfl

/-- C11 at the socketpair 10, 11 of scenario 2, restored in that order. -/
theorem dgram_pair_restore_witness :
    (open_unix_sk_dgram sys_all_ok 6 dgram_entry_11 []
        (open_unix_sk_dgram sys_all_ok 5 dgram_entry_10 [] restorer_empty).2).1 = 0 ∧
    (open_unix_sk_dgram sys_all_ok 6 dgram_entry_11 []
        (open_unix_sk_dgram sys_all_ok 5 dgram_entry_10 [] restorer_empty).2).2.log =
      [sys_call.bind 5 ([1, 0, 0] ++ "crtools-sk-        10".toList.map Char.toNat) 24,
       sys_call.xmalloc, sys_call.xmalloc,
       sys_call.bind 6 ([1, 0, 0] ++ "crtools-sk-        11".toList.map Char.toNat) 24,
       sys_call.xmalloc, sys_call.xmalloc] ∧
    (open_unix_sk_dgram sys_all_ok 6 dgram_entry_11 []
        (open_unix_sk_dgram sys_all_ok 5 dgram_entry_10 [] restorer_empty).2).2.conn_jobs =
      [{ fd := 4, peer := 10, type := CJ_DGRAM }, { fd := 3, peer := 11, type := CJ_DGRAM }] :=
  have h := dgram_pair_restore sys_all_ok restorer_empty dgram_entry_10 dgram_entry_11 5 6 [] []
    (by decide) (by decide) (by decide) (by decide) (by decide) (by decide) (by decide)
    (by decide) (by decide) (by decide) (by decide)
  ⟨by decide, h.1.trans (by decide), h.2.1⟩

/-! ## Dump policy -/

/-- C12: `can_dump_unix_sk` accepts a descriptor if and only if its type is
`SOCK_STREAM` or `SOCK_DGRAM` and its state is LISTEN, or ESTABLISHED, or CLOSE
with type `SOCK_DGRAM`; for a descriptor that is not accepted `dump_one_unix`
returns -1, writes no record and leaves the queue list as it is. -/
theorem can_dump_unix_sk_iff (sk : unix_sk_desc) :
    (can_dump_unix_sk sk ≠ 0 ↔
      (sk.type = SOCK_STREAM ∨ sk.type = SOCK_DGRAM) ∧
      (sk.state = TCP_LISTEN ∨ sk.state = TCP_ESTABLISHED ∨
        (sk.state = TCP_CLOSE ∧ sk.type = SOCK_DGRAM))) ∧
    (∀ (icons : sk_hash unix_sk_listen_icon) (o : DumpOutcomes) (fd : Int) (queue : sk_queue),
      can_dump_unix_sk sk = 0 →
      dump_one_unix icons o sk fd queue = { ret := -1, written := [], queue := queue }) := by
  refine ⟨?_, ?_⟩
  · unfold can_dump_unix_sk
    have h1 : TCP_CLOSE ≠ TCP_LISTEN := by decide
    have h2 : TCP_CLOSE ≠ TCP_ESTABLISHED := by decide
    by_cases ht : sk.type ≠ SOCK_STREAM ∧ sk.type ≠ SOCK_DGRAM
    · rw [if_pos ht]
      constructor
      · intro h
        exact absurd rfl h
      · rintro ⟨h | h, _⟩
        · exact absurd h ht.1
        · exact absurd h ht.2
    · have ht' : sk.type = SOCK_STREAM ∨ sk.type = SOCK_DGRAM := by
        by_cases hs : sk.type = SOCK_STREAM
        · exact Or.inl hs
        · by_cases hd : sk.type = SOCK_DGRAM
          · exact Or.inr hd
          · exact absurd ⟨hs, hd⟩ ht
      by_cases hl : sk.state = TCP_LISTEN
      · simp [ht, hl, ht']
      · by_cases he : sk.state = TCP_ESTABLISHED
        · simp [ht, hl, he, ht']
        · by_cases hc : sk.state = TCP_CLOSE
          · by_cases hd : sk.type = SOCK_DGRAM
            · simp [ht, hl, he, hc, hd, h1, h2]
            · simp [ht, hl, he, hc, hd, h1, h2]
          · simp [ht, hl, he, hc]
  · intro icons o fd queue h
    simp [dump_one_unix, h]

/-- C13: `can_dump_inet_sk` accepts a descriptor if and only if its family is
`AF_INET` and either its type is `SOCK_DGRAM`, whatever the state, or its type
is `SOCK_STREAM` with state LISTEN and `rqlen = 0`; for a descriptor that is not
accepted (in particular a stream listener with `rqlen != 0`) `dump_one_inet`
returns -1 and writes no record. -/
theorem can_dump_inet_sk_iff (sk : inet_sk_desc) :
    (can_dump_inet_sk sk ≠ 0 ↔
      sk.sd.family = AF_INET ∧
      (sk.type = SOCK_DGRAM ∨
        (sk.type = SOCK_STREAM ∧ sk.state = TCP_LISTEN ∧ sk.rqlen = 0))) ∧
    (∀ (write_img_ok : Bool) (fd : Int),
      can_dump_inet_sk sk = 0 → dump_one_inet write_img_ok sk fd = (-1, [])) ∧
    (sk.sd.family = AF_INET → sk.type = SOCK_STREAM → sk.state = TCP_LISTEN → sk.rqlen ≠ 0 →
      ∀ (write_img_ok : Bool) (fd : Int), dump_one_inet write_img_ok sk fd = (-1, [])) := by
  have hsd : SOCK_STREAM ≠ SOCK_DGRAM := by decide
  have hiff : can_dump_inet_sk sk ≠ 0 ↔
      sk.sd.family = AF_INET ∧
      (sk.type = SOCK_DGRAM ∨
        (sk.type = SOCK_STREAM ∧ sk.state = TCP_LISTEN ∧ sk.rqlen = 0)) := by
    unfold can_dump_inet_sk
    by_cases hf : sk.sd.family = AF_INET
    swap
    · simp [hf]
    by_cases hd : sk.type = SOCK_DGRAM
    · simp [hf, hd]
    by_cases hs : sk.type = SOCK_STREAM
    swap
    · simp [hf, hd, hs]
    by_cases hl : sk.state = TCP_LISTEN
    swap
    · simp [hf, hd, hs, hl]
    by_cases hr : sk.rqlen = 0
    · simp [hf, hs, hl, hr, hsd]
    · simp [hf, hs, hl, hr, hsd]
  refine ⟨hiff, ?_, ?_⟩
  · intro w fd h
    simp [dump_one_inet, h]
  · intro hf hs hl hr w fd
    have h0 : can_dump_inet_sk sk = 0 := by
      by_contra hne
      have := hiff.mp hne
      rcases this.2 with h | ⟨_, _, h⟩
      · rw [hs] at h
        exact hsd h
      · exact hr h
    simp [dump_one_inet, h0]

/-! ## INET restore -/

theorem open_inet_sk_install_calls (S : Sys) (ie : inet_sk_entry) (sk : Int)
    (log : List sys_call) :
    ∃ X, (open_inet_sk_install S ie sk log).2 = log ++ X ∧
      ∀ c ∈ X, c = sys_call.move_img_fd ie.fd ∨ c = sys_call.reopen_fd_as ie.fd sk := by
  unfold open_inet_sk_install
  split
  · exact ⟨[sys_call.move_img_fd ie.fd], rfl, by simp⟩
  · refine ⟨[sys_call.move_img_fd ie.fd, sys_call.reopen_fd_as ie.fd sk], by simp, ?_⟩
    intro c hc
    simpa using hc

theorem open_inet_sk_established_calls (S : Sys) (ie : inet_sk_entry) (sk : Int)
    (log : List sys_call) :
    ∃ X, (open_inet_sk_established S ie sk log).2 = log ++ X ∧
      (∀ s b, sys_call.listen s b ∉ X) ∧
      (∀ s a l, sys_call.connect s a l ∈ X ↔
        (ie.state = TCP_ESTABLISHED ∧ ie.proto = IPPROTO_UDP ∧ s = sk ∧
          a = sockaddr_in_bytes ie.family (htons ie.dst_port) ie.dst_addr ∧ l = 16)) ∧
      (ie.state = TCP_ESTABLISHED → ie.proto ≠ IPPROTO_UDP →
        (open_inet_sk_established S ie sk log).1 = -1 ∧
        ∀ fd s, sys_call.reopen_fd_as fd s ∉ X) := by
  obtain ⟨X1, h1, h1c⟩ := open_inet_sk_install_calls S ie sk log
  obtain ⟨X2, h2, h2c⟩ := open_inet_sk_install_calls S ie sk
    (log ++ [sys_call.connect sk
      (sockaddr_in_bytes ie.family (htons ie.dst_port) ie.dst_addr) 16])
  unfold open_inet_sk_established
  by_cases he : ie.state = TCP_ESTABLISHED
  · by_cases hu : ie.proto = IPPROTO_UDP
    · simp only [he, hu, if_true, ne_eq, not_true_eq_false, if_false]
      split
      · refine ⟨[sys_call.connect sk
          (sockaddr_in_bytes ie.family (htons ie.dst_port) ie.dst_addr) 16,
          sys_call.close sk], by simp [open_inet_sk_err], by simp, ?_, by simp⟩
        intro s a l
        simp
      · refine ⟨sys_call.connect sk
          (sockaddr_in_bytes ie.family (htons ie.dst_port) ie.dst_addr) 16 :: X2,
          by rw [h2]; simp, ?_, ?_, by simp⟩
        · intro s b hm
          rcases List.mem_cons.mp hm with h | h
          · cases h
          · rcases h2c _ h with h | h <;> cases h
        · intro s a l
          constructor
          · intro hm
            rcases List.mem_cons.mp hm with h | h
            · cases h
              exact ⟨trivial, trivial, rfl, rfl, rfl⟩
            · rcases h2c _ h with h | h <;> cases h
          · rintro ⟨_, _, rfl, rfl, rfl⟩
            exact List.mem_cons_self _ _
    · simp only [he, hu, if_true, ne_eq, not_false_eq_true]
      refine ⟨[sys_call.close sk], by simp [open_inet_sk_err], by simp, ?_, ?_⟩
      · intro s a l
        simp [hu]
      · intro _ _
        exact ⟨by simp [open_inet_sk_err], by simp⟩
  · simp only [he, if_false]
    refine ⟨X1, h1, ?_, ?_, ?_⟩
    · intro s b hm
      rcases h1c _ hm with h | h <;> cases h
    · intro s a l
      constructor
      · intro hm
        rcases h1c _ hm with h | h <;> cases h
      · rintro ⟨h, _⟩
        exact h.elim
    · intro h
      exact h.elim

theorem open_inet_sk_listen_calls (S : Sys) (ie : inet_sk_entry) (sk : Int)
    (log : List sys_call) :
    ∃ X, (open_inet_sk_listen S ie sk log).2 = log ++ X ∧
      (∀ s b, sys_call.listen s b ∈ X ↔
        (ie.state = TCP_LISTEN ∧ ie.proto = IPPROTO_TCP ∧ s = sk ∧ b = to_int ie.backlog)) ∧
      (∀ s a l, sys_call.connect s a l ∈ X ↔
        (ie.state = TCP_ESTABLISHED ∧ ie.proto = IPPROTO_UDP ∧ s = sk ∧
          a = sockaddr_in_bytes ie.family (htons ie.dst_port) ie.dst_addr ∧ l = 16)) ∧
      ((ie.state = TCP_LISTEN ∧ ie.proto ≠ IPPROTO_TCP) ∨
          (ie.state = TCP_ESTABLISHED ∧ ie.proto ≠ IPPROTO_UDP) →
        (open_inet_sk_listen S ie sk log).1 = -1 ∧
        ∀ fd s, sys_call.reopen_fd_as fd s ∉ X) := by
  have hle : TCP_LISTEN ≠ TCP_ESTABLISHED := by decide
  obtain ⟨X1, h1, h1l, h1c, h1e⟩ := open_inet_sk_established_calls S ie sk log
  obtain ⟨X2, h2, h2l, h2c, h2e⟩ := open_inet_sk_established_calls S ie sk
    (log ++ [sys_call.listen sk (to_int ie.backlog)])
  unfold open_inet_sk_listen
  by_cases hl : ie.state = TCP_LISTEN
  · have hne : ie.state ≠ TCP_ESTABLISHED := by rw [hl]; exact hle
    by_cases ht : ie.proto = IPPROTO_TCP
    · simp only [hl, ht, if_true, ne_eq, not_true_eq_false, if_false]
      split
      · refine ⟨[sys_call.listen sk (to_int ie.backlog), sys_call.close sk],
          by simp [open_inet_sk_err], ?_, ?_, ?_⟩
        · intro s b
          simp
        · intro s a l
          simp [hle]
        · rintro (⟨_, h⟩ | ⟨h, _⟩)
          · exact h.elim
          · exact absurd h hle
      · refine ⟨sys_call.listen sk (to_int ie.backlog) :: X2, by rw [h2]; simp, ?_, ?_, ?_⟩
        · intro s b
          constructor
          · intro hm
            rcases List.mem_cons.mp hm with h | h
            · cases h
              exact ⟨trivial, trivial, rfl, rfl⟩
            · exact absurd h (h2l s b)
          · rintro ⟨_, _, rfl, rfl⟩
            exact List.mem_cons_self _ _
        · intro s a l
          constructor
          · intro hm
            rcases List.mem_cons.mp hm with h | h
            · cases h
            · have := (h2c s a l).mp h
              rw [hl] at this
              exact absurd this.1 hle
          · rintro ⟨h, _⟩
            exact absurd h hle
        · rintro (⟨_, h⟩ | ⟨h, _⟩)
          · exact h.elim
          · exact absurd h hle
    · simp only [hl, ht, if_true, ne_eq, not_false_eq_true]
      refine ⟨[sys_call.close sk], by simp [open_inet_sk_err], ?_, ?_, ?_⟩
      · intro s b
        simp [ht]
      · intro s a l
        simp [hle]
      · intro _
        exact ⟨by simp [open_inet_sk_err], by simp⟩
  · simp only [hl, if_false]
    refine ⟨X1, h1, ?_, ?_, ?_⟩
    · intro s b
      constructor
      · intro hm
        exact absurd hm (h1l s b)
      · rintro ⟨h, _⟩
        exact h.elim
    · exact h1c
    · rintro (⟨h, _⟩ | ⟨h, hu⟩)
      · exact h.elim
      · exact h1e h hu

/-- C14: when the family and type of an INET entry are supported and `socket`
and `bind` succeed, the calls `open_inet_sk` makes contain a `listen` exactly
when the state is LISTEN and the protocol TCP (and it is `listen(sk, backlog)`),
and a `connect` exactly when the state is ESTABLISHED and the protocol UDP (and
it is a `connect` of `sk` to `dst_addr:dst_port`). An entry in state LISTEN
with another protocol than TCP, or in state ESTABLISHED with another protocol
than UDP, or with another family than `AF_INET`, or with a type other than
STREAM and DGRAM makes it return -1 without any `reopen_fd_as`, that is, without
installing a descriptor at the entry's fd. -/
theorem open_inet_sk_policy (S : Sys) (ie : inet_sk_entry) (log : List sys_call) :
    (ie.family = AF_INET → (ie.type = SOCK_STREAM ∨ ie.type = SOCK_DGRAM) →
      0 ≤ S.ret log.length (sys_call.socket ie.family ie.type ie.proto) →
      S.ret (log.length + 1)
        (sys_call.bind (S.ret log.length (sys_call.socket ie.family ie.type ie.proto))
          (sockaddr_in_bytes ie.family (htons ie.src_port) ie.src_addr) 16) ≠ -1 →
      (∀ s b, sys_call.listen s b ∈ (open_inet_sk S ie log).2.drop log.length ↔
        (ie.state = TCP_LISTEN ∧ ie.proto = IPPROTO_TCP ∧
          s = S.ret log.length (sys_call.socket ie.family ie.type ie.proto) ∧
          b = to_int ie.backlog)) ∧
      (∀ s a l, sys_call.connect s a l ∈ (open_inet_sk S ie log).2.drop log.length ↔
        (ie.state = TCP_ESTABLISHED ∧ ie.proto = IPPROTO_UDP ∧
          s = S.ret log.length (sys_call.socket ie.family ie.type ie.proto) ∧
          a = sockaddr_in_bytes ie.family (htons ie.dst_port) ie.dst_addr ∧ l = 16))) ∧
    ((ie.state = TCP_LISTEN ∧ ie.proto ≠ IPPROTO_TCP) ∨
        (ie.state = TCP_ESTABLISHED ∧ ie.proto ≠ IPPROTO_UDP) ∨
        ie.family ≠ AF_INET ∨ (ie.type ≠ SOCK_STREAM ∧ ie.type ≠ SOCK_DGRAM) →
      (open_inet_sk S ie log).1 = -1 ∧
      ∀ fd s, sys_call.reopen_fd_as fd s ∉ (open_inet_sk S ie log).2.drop log.length) := by
  obtain ⟨X, hX, hXl, hXc, hXe⟩ := open_inet_sk_listen_calls S ie
    (S.ret log.length (sys_call.socket ie.family ie.type ie.proto))
    (log ++ [sys_call.socket ie.family ie.type ie.proto] ++
      [sys_call.bind (S.ret log.length (sys_call.socket ie.family ie.type ie.proto))
        (sockaddr_in_bytes ie.family (htons ie.src_port) ie.src_addr) 16])
  refine ⟨?_, ?_⟩
  · intro hf ht hs hb
    have ht' : ¬ (ie.type ≠ SOCK_STREAM ∧ ie.type ≠ SOCK_DGRAM) := by
      rintro ⟨h1, h2⟩
      rcases ht with h | h
      · exact h1 h
      · exact h2 h
    have hs' : ¬ S.ret log.length (sys_call.socket ie.family ie.type ie.proto) < 0 := by omega
    have hopen : (open_inet_sk S ie log).2.drop log.length =
        sys_call.socket ie.family ie.type ie.proto ::
        sys_call.bind (S.ret log.length (sys_call.socket ie.family ie.type ie.proto))
          (sockaddr_in_bytes ie.family (htons ie.src_port) ie.src_addr) 16 :: X := by
      unfold open_inet_sk
      rw [if_neg (fun h => h hf), if_neg ht']
      dsimp only
      rw [if_neg hs', if_neg hb, hX]
      simp
    rw [hopen]
    refine ⟨?_, ?_⟩
    · intro s b
      rw [← hXl s b]
      simp
    · intro s a l
      rw [← hXc s a l]
      simp
  · intro h
    unfold open_inet_sk
    by_cases hf : ie.family ≠ AF_INET
    · simp [hf]
    by_cases ht : ie.type ≠ SOCK_STREAM ∧ ie.type ≠ SOCK_DGRAM
    · simp [hf, ht]
    have h' : (ie.state = TCP_LISTEN ∧ ie.proto ≠ IPPROTO_TCP) ∨
        (ie.state = TCP_ESTABLISHED ∧ ie.proto ≠ IPPROTO_UDP) := by
      rcases h with h | h | h | h
      · exact Or.inl h
      · exact Or.inr h
      · exact absurd h hf
      · exact absurd h ht
    simp only [hf, ht, if_false]
    by_cases hs : S.ret log.length (sys_call.socket ie.family ie.type ie.proto) < 0
    · simp [hs]
    simp only [hs, if_false]
    by_cases hb : S.ret (log.length + 1)
        (sys_call.bind (S.ret log.length (sys_call.socket ie.family ie.type ie.proto))
          (sockaddr_in_bytes ie.family (htons ie.src_port) ie.src_addr) 16) = -1
    · simp [hb, open_inet_sk_err]
    simp only [hb, if_false]
    obtain ⟨hret, hno⟩ := hXe h'
    refine ⟨hret, ?_⟩
    intro fd s
    rw [hX]
    simp only [List.append_assoc, List.drop_left, List.singleton_append, List.mem_cons,
      List.cons_append, List.nil_append, reduceCtorEq, false_or]
    exact hno fd s

/-- C14 at the TCP listener of scenario 4, and at an entry in state LISTEN whose
protocol is UDP. -/
theorem open_inet_sk_policy_witness :
    (open_inet_sk sys_all_ok tcp_listener_entry []).1 = 0 ∧
    (open_inet_sk sys_all_ok tcp_listener_entry []).2 =
      [sys_call.socket 2 1 6,
       sys_call.bind 0 [2, 0, 19, 136, 127, 0, 0, 1, 0, 0, 0, 0, 0, 0, 0, 0] 16,
       sys_call.listen 0 128, sys_call.move_img_fd 7, sys_call.reopen_fd_as 7 0] ∧
    sys_call.listen 0 128 ∈ (open_inet_sk sys_all_ok tcp_listener_entry []).2.drop 0 ∧
    (open_inet_sk sys_all_ok udp_listen_entry []).1 = -1 ∧
    (open_inet_sk sys_all_ok udp_listen_entry []).2 =
      [sys_call.socket 2 2 17,
       sys_call.bind 0 [2, 0, 19, 136, 127, 0, 0, 1, 0, 0, 0, 0, 0, 0, 0, 0] 16,
       sys_call.close 0] :=
  have h := open_inet_sk_policy sys_all_ok tcp_listener_entry []
  have hu := open_inet_sk_policy sys_all_ok udp_listen_entry []
  ⟨by decide, by decide,
   ((h.1 (by decide) (by decide) (by decide) (by decide)).1 0 128).mpr
     ⟨by decide, by decide, by decide, by decide⟩,
   (hu.2 (Or.inl ⟨by decide, by decide⟩)).1, by decide⟩

/-! ## Remote execution -/

/-- C15: with `ctl->signals_blocked` set, `__parasite_execute` returns after one
pass, whatever the tracee does: it makes at most the five calls `SETREGS`
(the registers it was given), `CONT` (no signal), `wait4`, `GETSIGINFO`,
`GETREGS`, in this order, hence never restores the original registers, never
interrupts, never delivers a signal; it leaves the control block, `regs_orig`
included, as it was; it returns 0 exactly when all five calls succeed and the
stop is `SIGTRAP` with `si_code == ARCH_SI_TRAP`, and -1 otherwise, in
particular at the first stop that is not such a trap. -/
theorem parasite_execute_signals_blocked (D : PtraceDefs) (T : Tracee) (fuel : Nat)
    (ctl : parasite_ctl) (pid : Int) (regs : user_regs_struct_t) (log : List ptrace_call)
    (hb : ctl.signals_blocked ≠ 0) :
    ∃ r, __parasite_execute D T (fuel + 2) ctl pid regs log = some r ∧
      r.ctl = ctl ∧
      (∃ k, r.log = log ++ [ptrace_call.SETREGS pid regs, ptrace_call.CONT pid 0,
        ptrace_call.wait4 pid, ptrace_call.GETSIGINFO pid, ptrace_call.GETREGS pid].take k) ∧
      (r.ret = 0 ↔
        (T.ret log.length (ptrace_call.SETREGS pid regs) = 0 ∧
          T.ret (log.length + 1) (ptrace_call.CONT pid 0) = 0 ∧
          T.ret (log.length + 2) (ptrace_call.wait4 pid) = pid ∧
          WIFSTOPPED (T.status (log.length + 2)) = true ∧
          T.ret (log.length + 3) (ptrace_call.GETSIGINFO pid) = 0 ∧
          T.ret (log.length + 4) (ptrace_call.GETREGS pid) = 0 ∧
          WSTOPSIG (T.status (log.length + 2)) = SIGTRAP ∧
          (T.siginfo (log.length + 3)).si_code = D.ARCH_SI_TRAP)) ∧
      (r.ret ≠ 0 → r.ret = -1) := by
  unfold __parasite_execute
  rw [parasite_execute_from]
  by_cases h1 : T.ret log.length (ptrace_call.SETREGS pid regs) = 0
  swap
  · exact ⟨_, by rw [if_pos h1], rfl, ⟨1, by simp⟩, by simp [h1], by simp⟩
  rw [if_neg (not_not.mpr h1)]
  by_cases h2 : T.ret (log.length + 1) (ptrace_call.CONT pid 0) = 0
  swap
  · exact ⟨_, by rw [if_pos h2], rfl, ⟨2, by simp⟩, by simp [h1, h2], by simp⟩
  rw [if_neg (not_not.mpr h2)]
  have hlen : (log ++ [ptrace_call.SETREGS pid regs] ++ [ptrace_call.CONT pid 0]).length =
      log.length + 2 := by simp
  simp only [wait_for_stop, hlen]
  by_cases h3 : T.ret (log.length + 2) (ptrace_call.wait4 pid) = pid
  swap
  · simp only [h3, ne_eq, not_false_eq_true, if_true]
    exact ⟨_, rfl, rfl, ⟨3, by simp⟩, by simp [h1, h2, h3], by simp⟩
  by_cases h4 : WIFSTOPPED (T.status (log.length + 2)) = true
  swap
  · simp only [Bool.not_eq_true] at h4
    simp only [h3, h4, ne_eq, not_true_eq_false, if_false, Bool.not_false, if_true]
    exact ⟨_, rfl, rfl, ⟨3, by simp⟩, by simp [h1, h2, h3, h4], by simp⟩
  by_cases h5 : T.ret (log.length + 3) (ptrace_call.GETSIGINFO pid) = 0
  swap
  · simp only [h3, h4, h5, ne_eq, not_true_eq_false, if_false, Bool.not_true,
      Bool.false_eq_true, not_false_eq_true, if_true]
    exact ⟨_, rfl, rfl, ⟨4, by simp⟩, by simp [h1, h2, h3, h4, h5], by simp⟩
  simp only [h3, h4, h5, ne_eq, not_true_eq_false, if_false, Bool.not_true,
    Bool.false_eq_true, List.length_append, List.length_singleton, List.length_cons,
    List.length_nil]
  by_cases h6 : T.ret (log.length + 1 + 1 + 1 + 1) (ptrace_call.GETREGS pid) = 0
  swap
  · simp only [h6, not_false_eq_true, if_true]
    have h6' : ¬ T.ret (log.length + 4) (ptrace_call.GETREGS pid) = 0 := h6
    exact ⟨_, rfl, rfl, ⟨5, by simp⟩, by simp [h6'], by simp⟩
  have h6' : T.ret (log.length + 4) (ptrace_call.GETREGS pid) = 0 := h6
  simp only [h6, not_true_eq_false, if_false]
  by_cases h7 : WSTOPSIG (T.status (log.length + 2)) ≠ SIGTRAP ∨
      (T.siginfo (log.length + 2 + 1)).si_code ≠ D.ARCH_SI_TRAP
  · rw [if_pos h7, parasite_execute_from]
    simp only [hb, ne_eq, not_false_eq_true, if_true]
    refine ⟨_, rfl, rfl, ⟨5, by simp⟩, ?_, by simp⟩
    simp only [h1, h2, h3, h4, h5, h6', true_and]
    constructor
    · intro h
      exact absurd h (by decide)
    · rintro ⟨ha, hb'⟩
      rcases h7 with h | h
      · exact absurd ha h
      · exact absurd hb' h
  · rw [if_neg h7]
    refine ⟨_, rfl, rfl, ⟨5, by simp⟩, ?_, by simp⟩
    simp only [h1, h2, h3, h4, h5, h6', true_and, true_iff]
    constructor
    · by_contra hc
      exact h7 (Or.inl hc)
    · by_contra hc
      exact h7 (Or.inr hc)

/-- C15 at a tracee that stops on `SIGUSR1` while signals are blocked: the five
calls are made and the result is -1, with `regs_orig` as before. -/
theorem parasite_execute_signals_blocked_witness :
    sample_ctl_blocked.signals_blocked ≠ 0 ∧
    __parasite_execute x86_64_ptrace tracee_sigusr1 2 sample_ctl_blocked 1000
      { ip := 140000000000000, ax := 0, others := [] } [] =
      some { ret := -1, ctl := sample_ctl_blocked,
             regs := { ip := 4194306, ax := 0, others := [] },
             log := [ptrace_call.SETREGS 1000 { ip := 140000000000000, ax := 0, others := [] },
               ptrace_call.CONT 1000 0, ptrace_call.wait4 1000, ptrace_call.GETSIGINFO 1000,
               ptrace_call.GETREGS 1000] } ∧
    ∃ r, __parasite_execute x86_64_ptrace tracee_sigusr1 (0 + 2) sample_ctl_blocked 1000
        { ip := 140000000000000, ax := 0, others := [] } [] = some r ∧ r.ctl = sample_ctl_blocked :=
  have h := parasite_execute_signals_blocked x86_64_ptrace tracee_sigusr1 0 sample_ctl_blocked
    1000 { ip := 140000000000000, ax := 0, others := [] } [] (by decide)
  ⟨by decide, by decide, h.elim (fun r hr => ⟨r, hr.1, hr.2.1⟩)⟩

/-! ## Teardown -/

theorem parasite_fini_threads_loop_spec {σ : Type} (exec : σ → Int → Int × σ) (leader : Int) :
    ∀ (threads : List pid) (ret : Int) (s : σ) (calls : List (Int × Int)),
      ∃ good tail,
        (parasite_fini_threads_loop exec leader threads ret s calls).2.2 =
          calls ++ (good ++ tail) ∧
        (good ++ tail).map Prod.fst =
          ((threads.filter (fun t => decide (t.real ≠ leader))).map (fun t => t.real)).take
            (good ++ tail).length ∧
        (∀ c ∈ good, c.2 = 0 ∨ c.2 = -ENOENT) ∧
        ((tail = [] ∧ (good ++ tail).map Prod.fst =
            (threads.filter (fun t => decide (t.real ≠ leader))).map (fun t => t.real)) ∨
          (∃ c, tail = [c] ∧ c.2 ≠ 0 ∧ c.2 ≠ -ENOENT ∧
            (parasite_fini_threads_loop exec leader threads ret s calls).1 = c.2)) := by
  intro threads
  induction threads with
  | nil =>
    intro ret s calls
    exact ⟨[], [], by simp [parasite_fini_threads_loop], by simp, by simp, Or.inl ⟨rfl, by simp⟩⟩
  | cons t rest ih =>
    intro ret s calls
    unfold parasite_fini_threads_loop
    by_cases hl : leader = t.real
    · have hf : (fun (u : pid) => decide (u.real ≠ leader)) t = false := by
        simp [hl]
      simp only [hl, if_true, List.filter_cons]
      rw [hl] at hf
      simp only [hf, Bool.false_eq_true, if_false]
      have := ih ret s calls
      rw [hl] at this
      exact this
    · have hf : (fun (u : pid) => decide (u.real ≠ leader)) t = true := by
        simp only [ne_eq, decide_eq_true_eq]
        exact fun h => hl h.symm
      simp only [hl, if_false, List.filter_cons, hf, if_true, List.map_cons]
      by_cases hbad : (exec s t.real).1 ≠ 0 ∧ (exec s t.real).1 ≠ -ENOENT
      · rw [if_pos hbad]
        exact ⟨[], [(t.real, (exec s t.real).1)], by simp, by simp, by simp,
          Or.inr ⟨_, rfl, hbad.1, hbad.2, rfl⟩⟩
      · rw [if_neg hbad]
        have hok : (exec s t.real).1 = 0 ∨ (exec s t.real).1 = -ENOENT := by
          by_cases h0 : (exec s t.real).1 = 0
          · exact Or.inl h0
          · by_cases h1 : (exec s t.real).1 = -ENOENT
            · exact Or.inr h1
            · exact absurd ⟨h0, h1⟩ hbad
        obtain ⟨good, tail, h1, h2, h3, h4⟩ :=
          ih (exec s t.real).1 (exec s t.real).2 (calls ++ [(t.real, (exec s t.real).1)])
        refine ⟨(t.real, (exec s t.real).1) :: good, tail, ?_, ?_, ?_, ?_⟩
        · rw [h1]
          simp
        · simp only [List.cons_append, List.map_cons, List.length_cons, List.take_succ_cons]
          rw [h2]
        · intro c hc
          rcases List.mem_cons.mp hc with h | h
          · rw [h]
            exact hok
          · exact h3 c h
        · rcases h4 with ⟨ht, hall⟩ | ⟨c, ht, hc⟩
          · left
            refine ⟨ht, ?_⟩
            simp only [List.cons_append, List.map_cons]
            rw [hall]
          · right
            exact ⟨c, ht, hc⟩

/-- C17: `parasite_fini_threads_seized` issues `FINI_THREAD` to the threads of
the array that are not the leader, in array order and at most once each. When
every reply is 0 or `-ENOENT` it reaches every one of them. In general the
calls made are a beginning of that sequence, every reply but possibly the last
is 0 or `-ENOENT`, and the loop has stopped before the end only on a last
reply that is non-zero and different from `-ENOENT`, which it returns. -/
theorem parasite_fini_threads_order {σ : Type} (exec : σ → Int → Int × σ)
    (item : pstree_item) (s : σ) :
    ((∀ s tid, (exec s tid).1 = 0 ∨ (exec s tid).1 = -ENOENT) →
      (parasite_fini_threads_seized exec item s).2.2.map Prod.fst =
        (item.threads.filter (fun t => decide (t.real ≠ item.pid.real))).map
          (fun t => t.real)) ∧
    (∃ good tail,
      (parasite_fini_threads_seized exec item s).2.2 = good ++ tail ∧
      (good ++ tail).map Prod.fst =
        ((item.threads.filter (fun t => decide (t.real ≠ item.pid.real))).map
          (fun t => t.real)).take (good ++ tail).length ∧
      (∀ c ∈ good, c.2 = 0 ∨ c.2 = -ENOENT) ∧
      ((tail = [] ∧ (good ++ tail).map Prod.fst =
          (item.threads.filter (fun t => decide (t.real ≠ item.pid.real))).map
            (fun t => t.real)) ∨
        (∃ c, tail = [c] ∧ c.2 ≠ 0 ∧ c.2 ≠ -ENOENT ∧
          (parasite_fini_threads_seized exec item s).1 = c.2))) := by
  obtain ⟨good, tail, h1, h2, h3, h4⟩ :=
    parasite_fini_threads_loop_spec exec item.pid.real item.threads 0 s []
  simp only [List.nil_append] at h1
  refine ⟨?_, good, tail, h1, h2, h3, h4⟩
  intro hrep
  unfold parasite_fini_threads_seized
  rw [h1]
  rcases h4 with ⟨_, hall⟩ | ⟨c, ht, hc0, hc1, _⟩
  · exact hall
  · -- a reply outside {0, -ENOENT} contradicts the assumption on the replies
    exfalso
    have hmem : c ∈ (parasite_fini_threads_loop exec item.pid.real item.threads 0 s []).2.2 := by
      rw [h1, ht]
      simp
    have : ∀ (threads : List pid) (ret : Int) (s : σ) (calls : List (Int × Int)),
        (∀ x ∈ calls, x.2 = 0 ∨ x.2 = -ENOENT) →
        ∀ x ∈ (parasite_fini_threads_loop exec item.pid.real threads ret s calls).2.2,
          x.2 = 0 ∨ x.2 = -ENOENT := by
      intro threads
      induction threads with
      | nil =>
        intro ret s calls hcalls x hx
        exact hcalls x (by simpa [parasite_fini_threads_loop] using hx)
      | cons t rest ih =>
        intro ret s calls hcalls x hx
        unfold parasite_fini_threads_loop at hx
        have hcalls2 : ∀ y ∈ calls ++ [(t.real, (exec s t.real).1)],
            y.2 = 0 ∨ y.2 = -ENOENT := by
          intro y hy
          rcases List.mem_append.mp hy with h | h
          · exact hcalls y h
          · simp only [List.mem_singleton] at h
            rw [h]
            exact hrep s t.real
        split at hx
        · exact ih ret s calls hcalls x hx
        · dsimp only at hx
          split at hx
          · exact hcalls2 x hx
          · exact ih _ _ _ hcalls2 x hx
    rcases this item.threads 0 s [] (by simp) c hmem with h | h
    · exact hc0 h
    · exact hc1 h

/-- C17 at five threads of which the last two were never initialised: the four
threads that are not the leader get `FINI_THREAD` in order, the replies
`-ENOENT` do not stop the loop. -/
theorem parasite_fini_threads_order_witness :
    (parasite_fini_threads_seized fini_reply_partial five_threads 0).2.2 =
      [(1001, 0), (1002, 0), (1003, -2), (1004, -2)] ∧
    (parasite_fini_threads_seized fini_reply_partial five_threads 0).2.2.map Prod.fst =
      [1001, 1002, 1003, 1004] :=
  ⟨by decide,
   ((parasite_fini_threads_order fini_reply_partial five_threads 0).1
      (by
        intro s tid
        unfold fini_reply_partial ENOENT
        by_cases h : tid < 1003
        · left; simp [h]
        · right; simp [h])).trans (by decide)⟩

/-! ## Argument buffer size -/

/-- C18, as stated, fails: with 1001 private pages (and the x86-64 sizes)
`parasite_args_size` returns 16 + 1001 * 16 / 2 = 8024, while
`max(PARASITE_ARG_SIZE_MIN, drain_fds_size, sizeof(args) + (priv_size / 2) *
sizeof(struct iovec))` is 16 + 500 * 16 = 8016. -/
theorem parasite_args_size_counterexample :
    parasite_args_size x86_64_arg_sizes odd_vmas 404 = 8024 ∧
    max x86_64_arg_sizes.PARASITE_ARG_SIZE_MIN
      (max 404 (x86_64_arg_sizes.sizeof_parasite_dump_pages_args +
        odd_vmas.priv_size / 2 * sizeof_iovec)) = 8016 := by
  decide

/-- C18, amended: when `drain_fds_size(dfds)` is not negative and the page-dump
size fits an `unsigned int`, `parasite_args_size` returns
`max(PARASITE_ARG_SIZE_MIN, drain_fds_size(dfds), sizeof(struct
parasite_dump_pages_args) + priv_size * sizeof(struct iovec) / 2)`; the last
term is the one of the claim for an even `priv_size` and half an iovec (8
bytes) more for an odd one. -/
theorem parasite_args_size_eq (Z : ArgSizes) (vmas : vm_area_list) (drain_fds_size : Int)
    (hd : 0 ≤ drain_fds_size) (hd64 : drain_fds_size < 2 ^ 64)
    (hfit : Z.sizeof_parasite_dump_pages_args + vmas.priv_size * sizeof_iovec / 2 < 2 ^ 32) :
    parasite_args_size Z vmas drain_fds_size =
      max Z.PARASITE_ARG_SIZE_MIN
        (max drain_fds_size.toNat
          (Z.sizeof_parasite_dump_pages_args + vmas.priv_size * sizeof_iovec / 2)) ∧
    vmas.priv_size * sizeof_iovec / 2 =
      vmas.priv_size / 2 * sizeof_iovec + 8 * (vmas.priv_size % 2) := by
  have h16 : sizeof_iovec = 16 := rfl
  rw [h16] at hfit ⊢
  refine ⟨?_, by omega⟩
  have hv : vmas_pagemap_size Z vmas =
      Z.sizeof_parasite_dump_pages_args + vmas.priv_size * 16 / 2 := by
    unfold vmas_pagemap_size
    rw [h16]
    omega
  have hdr : to_ulong drain_fds_size = drain_fds_size.toNat := by
    unfold to_ulong
    congr 1
    omega
  unfold parasite_args_size
  simp only [hv, hdr, max_assoc]

/-- The amended C18 at 1001 private pages. -/
theorem parasite_args_size_eq_witness :
    parasite_args_size x86_64_arg_sizes odd_vmas 404 = 8024 ∧
    (1001 : Nat) * 16 / 2 = 1001 / 2 * 16 + 8 :=
  have h := parasite_args_size_eq x86_64_arg_sizes odd_vmas 404 (by decide) (by decide)
    (by decide)
  ⟨h.1.trans (by decide), by decide⟩

/-! ## Interval timers -/

/-- C19, the code at a failing input: for a timer whose value is 5 s and 7 us the
record written has `vusec = 5`, the seconds, and not 7; the other three fields
are the ones the claim states. -/
theorem dump_one_timer_vusec :
    (dump_one_timer 0 sample_timer).2 = { isec := 1, iusec := 2, vsec := 5, vusec := 5 } ∧
    (dump_one_timer 0 sample_timer).2.vusec ≠ sample_timer.it_value.tv_usec ∧
    ∀ (w : Int) (v : itimerval), (dump_one_timer w v).2.vusec = v.it_value.tv_sec := by
  refine ⟨by decide, by decide, ?_⟩
  intro w v
  rfl

/-! ## Connect retries -/

theorem connect_try_again_fail (S : Sys) (fd : Int) (addr : List Nat) (addrlen : Int) :
    ∀ (n : Nat) (log : List sys_call),
      (∀ i, i ≤ n → S.ret (log.length + 2 * i) (sys_call.connect fd addr addrlen) < 0) →
      connect_try_again S fd addr addrlen n log =
        (false, log ++ (List.replicate n
          [sys_call.connect fd addr addrlen, sys_call.usleep 1000]).flatten ++
          [sys_call.connect fd addr addrlen]) := by
  intro n
  induction n with
  | zero =>
    intro log h
    have h0 := h 0 (Nat.le_refl 0)
    simp only [Nat.mul_zero, Nat.add_zero] at h0
    simp [connect_try_again, h0]
  | succ n ih =>
    intro log h
    have h0 := h 0 (Nat.zero_le _)
    simp only [Nat.mul_zero, Nat.add_zero] at h0
    unfold connect_try_again
    rw [if_pos h0, ih]
    · simp [List.replicate_succ]
    · intro i hi
      have := h (i + 1) (by omega)
      have hlen : (log ++ [sys_call.connect fd addr addrlen] ++
          [sys_call.usleep 1000]).length + 2 * i = log.length + 2 * (i + 1) := by
        simp only [List.length_append, List.length_singleton]
        omega
      rw [hlen]
      exact this

theorem connect_try_again_success (S : Sys) (fd : Int) (addr : List Nat) (addrlen : Int) :
    ∀ (n j : Nat) (log : List sys_call), j ≤ n →
      (∀ i, i < j → S.ret (log.length + 2 * i) (sys_call.connect fd addr addrlen) < 0) →
      ¬ S.ret (log.length + 2 * j) (sys_call.connect fd addr addrlen) < 0 →
      connect_try_again S fd addr addrlen n log =
        (true, log ++ (List.replicate j
          [sys_call.connect fd addr addrlen, sys_call.usleep 1000]).flatten ++
          [sys_call.connect fd addr addrlen]) := by
  intro n
  induction n with
  | zero =>
    intro j log hj _ hs
    have hj0 : j = 0 := by omega
    subst hj0
    simp only [Nat.mul_zero, Nat.add_zero] at hs
    simp [connect_try_again, hs]
  | succ n ih =>
    intro j log hj hf hs
    unfold connect_try_again
    cases j with
    | zero =>
      simp only [Nat.mul_zero, Nat.add_zero] at hs
      rw [if_neg hs]
      simp
    | succ j =>
      have h0 := hf 0 (Nat.succ_pos _)
      simp only [Nat.mul_zero, Nat.add_zero] at h0
      have hlen : ∀ i, (log ++ [sys_call.connect fd addr addrlen] ++
          [sys_call.usleep 1000]).length + 2 * i = log.length + 2 * (i + 1) := by
        intro i
        simp only [List.length_append, List.length_singleton]
        omega
      rw [if_pos h0, ih j _ (by omega)]
      · simp [List.replicate_succ]
      · intro i hi
        rw [hlen]
        exact hf (i + 1) (by omega)
      · rw [hlen]
        exact hs

/-- C20: for a connect job whose destination is resolved, `run_connect_jobs`
calls `connect` and, after a failure, sleeps 1000 us and calls it again, up to
8 retries. When the first attempt and the 8 retries all fail it returns -1
after these 9 calls and 8 sleeps. When the attempt number `j` (at most 8
retries) is the first to succeed, no further `connect` is made for the job:
the function goes on with the queue replay of the job and the remaining jobs.
Hence, when the queue replay succeeds and the job is the last one, -1 is
returned if and only if the first attempt and all 8 retries fail. -/
theorem run_connect_jobs_retries (S : Sys) (unix_listen : sk_hash unix_sk_listen)
    (cj : unix_conn_job) (next : List unix_conn_job) (pool : List sk_packet)
    (log : List sys_call) (addr : sockaddr_un) (addrlen : Int)
    (haddr : conn_job_addr unix_listen (S.uninit_addr log.length) cj = some (addr, addrlen)) :
    ((∀ i, i ≤ 8 → S.ret (log.length + 2 * i)
          (sys_call.connect cj.fd (sockaddr_bytes addr addrlen) addrlen) < 0) →
      run_connect_jobs_loop S unix_listen (cj :: next) pool log =
        (-1, pool, log ++ (List.replicate 8
          [sys_call.connect cj.fd (sockaddr_bytes addr addrlen) addrlen,
            sys_call.usleep 1000]).flatten ++
          [sys_call.connect cj.fd (sockaddr_bytes addr addrlen) addrlen])) ∧
    (∀ j, j ≤ 8 →
      (∀ i, i < j → S.ret (log.length + 2 * i)
          (sys_call.connect cj.fd (sockaddr_bytes addr addrlen) addrlen) < 0) →
      ¬ S.ret (log.length + 2 * j)
          (sys_call.connect cj.fd (sockaddr_bytes addr addrlen) addrlen) < 0 →
      run_connect_jobs_loop S unix_listen (cj :: next) pool log =
        (if (restore_socket_queue S pool cj.fd cj.peer
              (log ++ (List.replicate j
                [sys_call.connect cj.fd (sockaddr_bytes addr addrlen) addrlen,
                  sys_call.usleep 1000]).flatten ++
                [sys_call.connect cj.fd (sockaddr_bytes addr addrlen) addrlen])).1 < 0 then
          (-1,
            (restore_socket_queue S pool cj.fd cj.peer
              (log ++ (List.replicate j
                [sys_call.connect cj.fd (sockaddr_bytes addr addrlen) addrlen,
                  sys_call.usleep 1000]).flatten ++
                [sys_call.connect cj.fd (sockaddr_bytes addr addrlen) addrlen])).2)
        else
          run_connect_jobs_loop S unix_listen next
            (restore_socket_queue S pool cj.fd cj.peer
              (log ++ (List.replicate j
                [sys_call.connect cj.fd (sockaddr_bytes addr addrlen) addrlen,
                  sys_call.usleep 1000]).flatten ++
                [sys_call.connect cj.fd (sockaddr_bytes addr addrlen) addrlen])).2.1
            (restore_socket_queue S pool cj.fd cj.peer
              (log ++ (List.replicate j
                [sys_call.connect cj.fd (sockaddr_bytes addr addrlen) addrlen,
                  sys_call.usleep 1000]).flatten ++
                [sys_call.connect cj.fd (sockaddr_bytes addr addrlen) addrlen])).2.2)) ∧
    (next = [] →
      (∀ log2, ¬ (restore_socket_queue S pool cj.fd cj.peer log2).1 < 0) →
      ((run_connect_jobs_loop S unix_listen (cj :: next) pool log).1 = -1 ↔
        ∀ i, i ≤ 8 → S.ret (log.length + 2 * i)
          (sys_call.connect cj.fd (sockaddr_bytes addr addrlen) addrlen) < 0)) := by
  have hfail : (∀ i, i ≤ 8 → S.ret (log.length + 2 * i)
        (sys_call.connect cj.fd (sockaddr_bytes addr addrlen) addrlen) < 0) →
      run_connect_jobs_loop S unix_listen (cj :: next) pool log =
        (-1, pool, log ++ (List.replicate 8
          [sys_call.connect cj.fd (sockaddr_bytes addr addrlen) addrlen,
            sys_call.usleep 1000]).flatten ++
          [sys_call.connect cj.fd (sockaddr_bytes addr addrlen) addrlen]) := by
    intro h
    unfold run_connect_jobs_loop
    simp only [haddr]
    rw [connect_try_again_fail S cj.fd _ addrlen 8 log h]
    simp
  have hsucc : ∀ j, j ≤ 8 →
      (∀ i, i < j → S.ret (log.length + 2 * i)
          (sys_call.connect cj.fd (sockaddr_bytes addr addrlen) addrlen) < 0) →
      ¬ S.ret (log.length + 2 * j)
          (sys_call.connect cj.fd (sockaddr_bytes addr addrlen) addrlen) < 0 →
      run_connect_jobs_loop S unix_listen (cj :: next) pool log =
        (if (restore_socket_queue S pool cj.fd cj.peer
              (log ++ (List.replicate j
                [sys_call.connect cj.fd (sockaddr_bytes addr addrlen) addrlen,
                  sys_call.usleep 1000]).flatten ++
                [sys_call.connect cj.fd (sockaddr_bytes addr addrlen) addrlen])).1 < 0 then
          (-1,
            (restore_socket_queue S pool cj.fd cj.peer
              (log ++ (List.replicate j
                [sys_call.connect cj.fd (sockaddr_bytes addr addrlen) addrlen,
                  sys_call.usleep 1000]).flatten ++
                [sys_call.connect cj.fd (sockaddr_bytes addr addrlen) addrlen])).2)
        else
          run_connect_jobs_loop S unix_listen next
            (restore_socket_queue S pool cj.fd cj.peer
              (log ++ (List.replicate j
                [sys_call.connect cj.fd (sockaddr_bytes addr addrlen) addrlen,
                  sys_call.usleep 1000]).flatten ++
                [sys_call.connect cj.fd (sockaddr_bytes addr addrlen) addrlen])).2.1
            (restore_socket_queue S pool cj.fd cj.peer
              (log ++ (List.replicate j
                [sys_call.connect cj.fd (sockaddr_bytes addr addrlen) addrlen,
                  sys_call.usleep 1000]).flatten ++
                [sys_call.connect cj.fd (sockaddr_bytes addr addrlen) addrlen])).2.2) := by
    intro j hj hf hs
    conv_lhs => unfold run_connect_jobs_loop
    simp only [haddr]
    rw [connect_try_again_success S cj.fd _ addrlen 8 j log hj hf hs]
    simp
  refine ⟨hfail, hsucc, ?_⟩
  intro hnext hq
  constructor
  · intro hret
    by_contra hnot
    -- some attempt succeeds: take the first one
    have hex : ∃ j, j ≤ 8 ∧ ¬ S.ret (log.length + 2 * j)
        (sys_call.connect cj.fd (sockaddr_bytes addr addrlen) addrlen) < 0 := by
      by_contra hno
      apply hnot
      intro i hi
      by_contra hi'
      exact hno ⟨i, hi, hi'⟩
    classical
    let j := Nat.find hex
    have hj : j ≤ 8 ∧ ¬ S.ret (log.length + 2 * j)
        (sys_call.connect cj.fd (sockaddr_bytes addr addrlen) addrlen) < 0 := Nat.find_spec hex
    have hmin : ∀ i, i < j → S.ret (log.length + 2 * i)
        (sys_call.connect cj.fd (sockaddr_bytes addr addrlen) addrlen) < 0 := by
      intro i hi
      by_contra hc
      exact Nat.find_min hex hi ⟨by omega, hc⟩
    rw [hsucc j hj.1 hmin hj.2, if_neg (hq _), hnext] at hret
    simp [run_connect_jobs_loop] at hret
  · intro h
    rw [hfail h]

/-- C20 at the job of socket 10 when `connect` fails three times and succeeds
at the third retry, and when it never succeeds. -/
theorem run_connect_jobs_retries_witness :
    run_connect_jobs_loop sys_connect_third_retry sk_hash_empty [stream_job_10] [] [] =
      (0, [],
        [sys_call.connect 3 ([1, 0, 0] ++ "crtools-sk-        11".toList.map Char.toNat) 24,
         sys_call.usleep 1000,
         sys_call.connect 3 ([1, 0, 0] ++ "crtools-sk-        11".toList.map Char.toNat) 24,
         sys_call.usleep 1000,
         sys_call.connect 3 ([1, 0, 0] ++ "crtools-sk-        11".toList.map Char.toNat) 24,
         sys_call.usleep 1000,
         sys_call.connect 3 ([1, 0, 0] ++ "crtools-sk-        11".toList.map Char.toNat) 24]) ∧
    (run_connect_jobs_loop sys_connect_never sk_hash_empty [stream_job_10] [] []).1 = -1 ∧
    (run_connect_jobs_loop sys_connect_never sk_hash_empty [stream_job_10] [] []).2.2.length
      = 17 :=
  have h := run_connect_jobs_retries sys_connect_never sk_hash_empty stream_job_10 [] [] []
    (prep_conn_addr (to_int 11) (sys_connect_never.uninit_addr 0)).1 24 (by rfl)
  ⟨by decide, (congrArg Prod.fst (h.1 (fun _ _ => (by decide : (-1 : Int) < 0)))).trans rfl,
    by decide⟩

/-! ## Listener bound to an unlinked path -/

theorem unix_collect_icons_all_ok (o : CollectOutcomes) (d : unix_sk_desc)
    (hie : ∀ i, o.xzalloc_icon_ok i = true) :
    ∀ (l : List Nat) (n : Nat) (tab : sk_hash unix_sk_listen_icon),
      (unix_collect_icons o d l n tab).1 = true := by
  intro l
  induction l with
  | nil =>
    intro n tab
    rfl
  | cons icon rest ih =>
    intro n tab
    unfold unix_collect_icons
    rw [hie n]
    exact ih _ _

theorem unix_collect_name_mismatch (o : CollectOutcomes) (tb : unix_rtattrs) (d : unix_sk_desc)
    (data : List Nat) (uv : unix_diag_vfs) (st : stat_buf)
    (hlisten : d.state = TCP_LISTEN)
    (hname : tb.UNIX_DIAG_NAME = some data) (habs : data.head? = some 47)
    (hvfs : tb.UNIX_DIAG_VFS = some uv) (hstat : o.stat = some st)
    (hdiff : st.st_ino ≠ uv.udiag_vfs_ino ∨ st.st_dev ≠ o.kdev_to_odev uv.udiag_vfs_dev)
    (hn : o.xmalloc_name_ok = true) :
    unix_collect_name o tb d = some (some { d with namelen := 0, name := none }) := by
  obtain ⟨rest, hdata⟩ : ∃ rest, data = 47 :: rest := by
    cases data with
    | nil => simp at habs
    | cons b rest =>
      simp only [List.head?_cons, Option.some.injEq] at habs
      exact ⟨rest, by rw [habs]⟩
  subst hdata
  unfold unix_collect_name
  simp only [hname, hn, hvfs, hstat]
  have h0 : ((47 :: rest ++ [0]).headD 0 ≠ 0 ∧ d.state = TCP_LISTEN) :=
    ⟨by simp, hlisten⟩
  have h47 : ¬ ((47 :: rest ++ [0]).headD 0 ≠ 47) := by simp
  rw [if_neg (by simp), if_pos h0, if_neg h47, if_pos hdiff]

theorem dump_one_unix_nameless_listener (icons : sk_hash unix_sk_listen_icon)
    (o : DumpOutcomes) (sk : unix_sk_desc) (fd : Int) (queue : sk_queue)
    (hst : sk.state = TCP_LISTEN) (hty : sk.type = SOCK_STREAM ∨ sk.type = SOCK_DGRAM)
    (hname : sk.name = none) (hlen : sk.namelen = 0)
    (hw : o.write_img_ok = true) (hwb : o.write_img_buf_ok = true) :
    (dump_one_unix icons o sk fd queue).written =
      [unixsk_item.entry
        { fd := fd, id := sk.sd.ino, type := sk.type, state := TCP_LISTEN, namelen := 0,
          backlog := sk.wqlen, flags := 0, peer := sk.peer_ino },
       unixsk_item.payload []] := by
  have hcan : ¬ can_dump_unix_sk sk = 0 := by
    unfold can_dump_unix_sk
    rw [if_neg (by
      intro h
      rcases hty with h1 | h1
      · exact h.1 h1
      · exact h.2 h1), if_pos hst]
    decide
  have hne : ¬ (sk.peer_ino = 0 ∧ sk.state = TCP_ESTABLISHED) := by
    intro h
    rw [hst] at h
    exact absurd h.2 (by decide)
  have hentry : dump_one_unix_entry icons sk fd = some
      { fd := fd, id := sk.sd.ino, type := sk.type, state := TCP_LISTEN, namelen := 0,
        backlog := sk.wqlen, flags := 0, peer := sk.peer_ino } := by
    unfold dump_one_unix_entry
    dsimp only
    rw [if_neg hne, hst, hlen]
  unfold dump_one_unix
  rw [if_neg hcan, hentry]
  simp only [hw, hwb, hname, Bool.not_true, Bool.false_eq_true, if_false, Option.getD_none,
    List.take_nil]
  split
  · split <;> rfl
  · rfl

theorem unix_collect_one_mismatch_links (o : CollectOutcomes) (m : unix_diag_msg)
    (tb : unix_rtattrs) (T : sk_tables) (data : List Nat) (uv : unix_diag_vfs) (st : stat_buf)
    (hlisten : m.udiag_state = TCP_LISTEN)
    (hname : tb.UNIX_DIAG_NAME = some data) (habs : data.head? = some 47)
    (hvfs : tb.UNIX_DIAG_VFS = some uv) (hstat : o.stat = some st)
    (hdiff : st.st_ino ≠ uv.udiag_vfs_ino ∨ st.st_dev ≠ o.kdev_to_odev uv.udiag_vfs_dev)
    (hd : o.xzalloc_d_ok = true) (hn : o.xmalloc_name_ok = true)
    (hi : o.xmalloc_icons_ok = true) (hie : ∀ i, o.xzalloc_icon_ok i = true) :
    ∃ d : unix_sk_desc,
      (unix_collect_one o m tb T).1 = 0 ∧
      (unix_collect_one o m tb T).2.sockets =
        SK_HASH_LINK T.sockets (to_int m.udiag_ino) (sk_desc.unix d) ∧
      d.sd.ino = to_uint (to_int m.udiag_ino) ∧ d.state = TCP_LISTEN ∧
      d.type = m.udiag_type ∧ d.name = none ∧ d.namelen = 0 ∧
      ∀ (icons : sk_hash unix_sk_listen_icon) (od : DumpOutcomes) (fd : Int) (queue : sk_queue),
        m.udiag_type = SOCK_STREAM ∨ m.udiag_type = SOCK_DGRAM →
        od.write_img_ok = true → od.write_img_buf_ok = true →
        ∃ ue : unix_sk_entry, ue.namelen = 0 ∧ ue.id = d.sd.ino ∧
          (dump_one_unix icons od d fd queue).written =
            [unixsk_item.entry ue, unixsk_item.payload []] := by
  have hinit_state : (unix_desc_init m tb).state = TCP_LISTEN := by
    unfold unix_desc_init
    cases tb.UNIX_DIAG_PEER <;> exact hlisten
  have hinit_type : (unix_desc_init m tb).type = m.udiag_type := by
    unfold unix_desc_init
    cases tb.UNIX_DIAG_PEER <;> rfl
  have hcn := unix_collect_name_mismatch o tb (unix_desc_init m tb) data uv st hinit_state
    hname habs hvfs hstat hdiff hn
  have hfields : ∀ (d0 : unix_sk_desc) (sd : socket_desc),
      (unix_desc_with_sd (unix_desc_rqlen tb (unix_desc_icons tb d0)) sd).sd = sd ∧
      (unix_desc_with_sd (unix_desc_rqlen tb (unix_desc_icons tb d0)) sd).state = d0.state ∧
      (unix_desc_with_sd (unix_desc_rqlen tb (unix_desc_icons tb d0)) sd).type = d0.type ∧
      (unix_desc_with_sd (unix_desc_rqlen tb (unix_desc_icons tb d0)) sd).name = d0.name ∧
      (unix_desc_with_sd (unix_desc_rqlen tb (unix_desc_icons tb d0)) sd).namelen
        = d0.namelen := by
    intro d0 sd
    unfold unix_desc_with_sd unix_desc_rqlen unix_desc_icons
    cases tb.UNIX_DIAG_RQLEN <;> cases tb.UNIX_DIAG_ICONS <;> exact ⟨rfl, rfl, rfl, rfl, rfl⟩
  obtain ⟨f1, f2, f3, f4, f5⟩ := hfields
    { unix_desc_init m tb with namelen := 0, name := none }
    { ino := to_uint (to_int m.udiag_ino), family := to_uint AF_UNIX }
  have hres : unix_collect_one o m tb T =
      (0, { sockets := SK_HASH_LINK T.sockets (to_int m.udiag_ino)
              (sk_desc.unix (unix_desc_with_sd (unix_desc_rqlen tb (unix_desc_icons tb
                { unix_desc_init m tb with namelen := 0, name := none }))
                { ino := to_uint (to_int m.udiag_ino), family := to_uint AF_UNIX })),
            unix_listen_icons := (unix_collect_icons o
              (unix_desc_with_sd (unix_desc_rqlen tb (unix_desc_icons tb
                { unix_desc_init m tb with namelen := 0, name := none }))
                { ino := to_uint (to_int m.udiag_ino), family := to_uint AF_UNIX })
              (unix_desc_icons tb
                { unix_desc_init m tb with namelen := 0, name := none }).icons 0
              T.unix_listen_icons).2 }) := by
    unfold unix_collect_one
    rw [hcn]
    simp only [hd, hi, Bool.not_true, Bool.false_eq_true, and_false, if_false,
      unix_collect_icons_all_ok o _ hie, sk_collect_one]
  refine ⟨unix_desc_with_sd (unix_desc_rqlen tb (unix_desc_icons tb
      { unix_desc_init m tb with namelen := 0, name := none }))
      { ino := to_uint (to_int m.udiag_ino), family := to_uint AF_UNIX }, ?_, ?_, ?_, ?_, ?_,
      ?_, ?_, ?_⟩
  · rw [hres]
  · rw [hres]
  · rw [f1]
  · rw [f2]
    exact hinit_state
  · rw [f3]
    exact hinit_type
  · rw [f4]
  · rw [f5]
  · intro icons od fd queue hty hw hwb
    refine ⟨_, ?_, ?_, dump_one_unix_nameless_listener icons od _ fd queue
      (by rw [f2]; exact hinit_state) (by rw [f3, hinit_type]; exact hty) (by rw [f4])
      (by rw [f5]) hw hwb⟩
    · rfl
    · rfl

/-- C21, the code at the failing input: for the listener with inode
2147483649 (2^31 + 1) bound to `/tmp/s`, `stat` finding another file under the
name, `unix_collect_one` returns 0 and drops the name, but links the
descriptor at index -31: the 32 chains of the `sockets` table stay empty, the
socket is not inserted into the table. This holds of every such message whose
inode is hashed to a negative index: the chains of the table are left as they
were. When the index is not negative (as for every inode below 2^31), with
the `UNIX_DIAG_VFS` attribute present, `stat` succeeding with a differing
`(dev, ino)` and the allocations succeeding, `unix_collect_one` returns 0 and
puts a descriptor with `name = NULL` and `namelen = 0` at the head of the chain
of the table its inode is hashed to, where `lookup_socket` finds it; for that
descriptor (type STREAM or DGRAM, the two writes succeeding) `dump_one_unix`
writes a record with `namelen = 0` followed by an empty name payload. -/
theorem unix_collect_one_unlinked_name :
    ((unix_collect_one collect_all_ok listener_msg_high listener_attrs sk_tables_empty).1 = 0 ∧
      Int.tmod (to_int listener_msg_high.udiag_ino) SK_HASH_SIZE = -31 ∧
      (unix_collect_one collect_all_ok listener_msg_high listener_attrs
        sk_tables_empty).2.sockets (-31) = [sk_desc.unix listener_nameless_high] ∧
      listener_nameless_high.name = none ∧ listener_nameless_high.namelen = 0 ∧
      (∀ j : Int, 0 ≤ j → j < SK_HASH_SIZE →
        (unix_collect_one collect_all_ok listener_msg_high listener_attrs
          sk_tables_empty).2.sockets j = [])) ∧
    (∀ (o : CollectOutcomes) (m : unix_diag_msg) (tb : unix_rtattrs) (T : sk_tables)
      (data : List Nat) (uv : unix_diag_vfs) (st : stat_buf),
      m.udiag_state = TCP_LISTEN →
      tb.UNIX_DIAG_NAME = some data → data.head? = some 47 →
      tb.UNIX_DIAG_VFS = some uv → o.stat = some st →
      (st.st_ino ≠ uv.udiag_vfs_ino ∨ st.st_dev ≠ o.kdev_to_odev uv.udiag_vfs_dev) →
      o.xzalloc_d_ok = true → o.xmalloc_name_ok = true →
      o.xmalloc_icons_ok = true → (∀ i, o.xzalloc_icon_ok i = true) →
      (Int.tmod (to_int m.udiag_ino) SK_HASH_SIZE < 0 →
        (unix_collect_one o m tb T).1 = 0 ∧
        ∀ j : Int, 0 ≤ j → j < SK_HASH_SIZE →
          (unix_collect_one o m tb T).2.sockets j = T.sockets j) ∧
      (0 ≤ Int.tmod (to_int m.udiag_ino) SK_HASH_SIZE →
        ∃ d : unix_sk_desc,
          (unix_collect_one o m tb T).1 = 0 ∧
          Int.tmod (to_int m.udiag_ino) SK_HASH_SIZE < SK_HASH_SIZE ∧
          (unix_collect_one o m tb T).2.sockets (Int.tmod (to_int m.udiag_ino) SK_HASH_SIZE) =
            sk_desc.unix d :: T.sockets (Int.tmod (to_int m.udiag_ino) SK_HASH_SIZE) ∧
          lookup_socket (unix_collect_one o m tb T).2.sockets (to_int m.udiag_ino) =
            some (sk_desc.unix d) ∧
          d.sd.ino = to_uint (to_int m.udiag_ino) ∧ d.state = TCP_LISTEN ∧
          d.type = m.udiag_type ∧ d.name = none ∧ d.namelen = 0 ∧
          ∀ (icons : sk_hash unix_sk_listen_icon) (od : DumpOutcomes) (fd : Int)
            (queue : sk_queue),
            m.udiag_type = SOCK_STREAM ∨ m.udiag_type = SOCK_DGRAM →
            od.write_img_ok = true → od.write_img_buf_ok = true →
            ∃ ue : unix_sk_entry, ue.namelen = 0 ∧ ue.id = d.sd.ino ∧
              (dump_one_unix icons od d fd queue).written =
                [unixsk_item.entry ue, unixsk_item.payload []])) := by
  have hgen : ∀ (o : CollectOutcomes) (m : unix_diag_msg) (tb : unix_rtattrs) (T : sk_tables)
      (data : List Nat) (uv : unix_diag_vfs) (st : stat_buf),
      m.udiag_state = TCP_LISTEN →
      tb.UNIX_DIAG_NAME = some data → data.head? = some 47 →
      tb.UNIX_DIAG_VFS = some uv → o.stat = some st →
      (st.st_ino ≠ uv.udiag_vfs_ino ∨ st.st_dev ≠ o.kdev_to_odev uv.udiag_vfs_dev) →
      o.xzalloc_d_ok = true → o.xmalloc_name_ok = true →
      o.xmalloc_icons_ok = true → (∀ i, o.xzalloc_icon_ok i = true) →
      Int.tmod (to_int m.udiag_ino) SK_HASH_SIZE < 0 →
        (unix_collect_one o m tb T).1 = 0 ∧
        ∀ j : Int, 0 ≤ j → j < SK_HASH_SIZE →
          (unix_collect_one o m tb T).2.sockets j = T.sockets j := by
    intro o m tb T data uv st hlisten hname habs hvfs hstat hdiff hd hn hi hie hneg
    obtain ⟨d, h1, h2, _⟩ := unix_collect_one_mismatch_links o m tb T data uv st hlisten
      hname habs hvfs hstat hdiff hd hn hi hie
    refine ⟨h1, ?_⟩
    intro j h0 _
    rw [h2]
    unfold SK_HASH_LINK
    rw [if_neg (by omega)]
  refine ⟨⟨by decide, by decide, by decide, by decide, by decide, ?_⟩, ?_⟩
  · exact (hgen collect_all_ok listener_msg_high listener_attrs sk_tables_empty
      [47, 116, 109, 112, 47, 115] { udiag_vfs_ino := 99, udiag_vfs_dev := 8 }
      { st_ino := 77, st_dev := 8 } (by decide) (by rfl) (by rfl) (by rfl) (by rfl)
      (by decide) (by rfl) (by rfl) (by rfl) (fun _ => rfl) (by decide)).2
  · intro o m tb T data uv st hlisten hname habs hvfs hstat hdiff hd hn hi hie
    refine ⟨hgen o m tb T data uv st hlisten hname habs hvfs hstat hdiff hd hn hi hie, ?_⟩
    intro _
    obtain ⟨d, h1, h2, h3, h4, h5, h6, h7, h8⟩ := unix_collect_one_mismatch_links o m tb T
      data uv st hlisten hname habs hvfs hstat hdiff hd hn hi hie
    refine ⟨d, h1, Int.tmod_lt_of_pos _ (by decide), ?_, ?_, h3, h4, h5, h6, h7, h8⟩
    · rw [h2]
      unfold SK_HASH_LINK
      rw [if_pos rfl]
    · rw [h2]
      unfold lookup_socket SK_HASH_LINK
      simp only [if_true, List.find?_cons]
      have : decide ((sk_desc.unix d).sd.ino = to_uint (to_int m.udiag_ino)) = true := by
        simp only [sk_desc.sd, h3, decide_eq_true_eq]
      rw [this]

/-- C21 at the listener 30 bound to `/tmp/s`, where the kernel reports inode
99 for the bound file and `stat` finds inode 77 under the name: the
descriptor is at the head of chain 30 of the table. -/
theorem unix_collect_one_unlinked_name_witness :
    (unix_collect_one collect_all_ok listener_msg listener_attrs sk_tables_empty).1 = 0 ∧
    (unix_collect_one collect_all_ok listener_msg listener_attrs sk_tables_empty).2.sockets 30
      = [sk_desc.unix listener_nameless] ∧
    lookup_socket
      (unix_collect_one collect_all_ok listener_msg listener_attrs sk_tables_empty).2.sockets 30
      = some (sk_desc.unix listener_nameless) ∧
    (dump_one_unix sk_hash_empty dump_all_ok listener_nameless 4
      { list := [], entries := 0 }).written =
      [unixsk_item.entry
        { id := 30, fd := 4, type := 1, state := 10, namelen := 0, backlog := 16, flags := 0,
          peer := 0 },
       unixsk_item.payload []] ∧
    ∃ d : unix_sk_desc, d.name = none ∧ d.namelen = 0 ∧
      lookup_socket
        (unix_collect_one collect_all_ok listener_msg listener_attrs sk_tables_empty).2.sockets
        (to_int listener_msg.udiag_ino) = some (sk_desc.unix d) := by
  obtain ⟨d, _, _, _, h4, _, _, _, h8, h9, _⟩ :=
    (unix_collect_one_unlinked_name.2 collect_all_ok listener_msg listener_attrs
      sk_tables_empty [47, 116, 109, 112, 47, 115] { udiag_vfs_ino := 99, udiag_vfs_dev := 8 }
      { st_ino := 77, st_dev := 8 } (by decide) (by rfl) (by rfl) (by rfl) (by rfl)
      (by decide) (by rfl) (by rfl) (by rfl) (fun _ => rfl)).2 (by decide)
  exact ⟨by decide, by decide, by decide, by decide, d, h8, h9, h4⟩

/-- C22, the code at the failing inputs: for a diag message of a listening
socket whose name starts with `/`, when `stat` of the name fails,
`unix_collect_one` takes the `goto err` after `stat`, returns -1 and leaves
both tables as they were: the name is not dropped and the socket is not
collected. -/
theorem unix_collect_one_stat_fails (o : CollectOutcomes) (m : unix_diag_msg)
    (tb : unix_rtattrs) (T : sk_tables) (data : List Nat)
    (hlisten : m.udiag_state = TCP_LISTEN)
    (hname : tb.UNIX_DIAG_NAME = some data) (habs : data.head? = some 47)
    (hstat : o.stat = none) :
    unix_collect_one o m tb T = (-1, T) := by
  obtain ⟨rest, hdata⟩ : ∃ rest, data = 47 :: rest := by
    cases data with
    | nil => simp at habs
    | cons b rest =>
      simp only [List.head?_cons, Option.some.injEq] at habs
      exact ⟨rest, by rw [habs]⟩
  subst hdata
  have hinit_state : (unix_desc_init m tb).state = TCP_LISTEN := by
    unfold unix_desc_init
    cases tb.UNIX_DIAG_PEER <;> exact hlisten
  have hcn : unix_collect_name o tb (unix_desc_init m tb) = none := by
    unfold unix_collect_name
    simp only [hname, hstat]
    have h0 : ((47 :: rest ++ [0]).headD 0 ≠ 0 ∧ (unix_desc_init m tb).state = TCP_LISTEN) :=
      ⟨by simp, hinit_state⟩
    split
    · rfl
    · cases tb.UNIX_DIAG_VFS <;> simp [h0.2]
  unfold unix_collect_one
  rw [hcn]
  split <;> rfl

/-- C22 at the listener 30 bound to `/tmp/s`, the file being deleted so that
`stat` fails: the call returns -1 and `lookup_socket(30)` finds nothing
afterwards. -/
theorem unix_collect_one_stat_fails_witness :
    (unix_collect_one collect_stat_fails listener_msg listener_attrs sk_tables_empty).1 = -1 ∧
    lookup_socket
      (unix_collect_one collect_stat_fails listener_msg listener_attrs
        sk_tables_empty).2.sockets 30 = none :=
  ⟨congrArg Prod.fst
    (unix_collect_one_stat_fails collect_stat_fails listener_msg listener_attrs sk_tables_empty
      [47, 116, 109, 112, 47, 115] (by decide) (by rfl) (by rfl) (by rfl)),
   by decide⟩

/-- C23, the code at the failing inputs: for a STREAM record in state LISTEN
with `namelen = 0`, `bind_unix_sk` refuses the name length, so that
`open_unix_sk_stream` returns -1 without a single call (no `bind`, no
`listen`) and leaves the restorer as it was. -/
theorem open_unix_sk_stream_nameless (S : Sys) (sk : Int) (ue : unix_sk_entry)
    (img_name : List Nat) (R : restorer)
    (hstate : ue.state = TCP_LISTEN) (hlen : ue.namelen = 0) :
    open_unix_sk_stream S sk ue img_name R = (-1, R) ∧
    (open_unix_sk_stream S sk ue img_name R).2.log = R.log := by
  have hb : bind_unix_sk S sk ue img_name R = (-1, R) := by
    unfold bind_unix_sk
    rw [if_pos (Or.inl hlen)]
  have h : open_unix_sk_stream S sk ue img_name R = (-1, R) := by
    unfold open_unix_sk_stream
    rw [if_pos hstate, hb]
    rfl
  exact ⟨h, by rw [h]⟩

/-- C23 at the record the dumper writes for the listener 30 whose bound path
was unlinked, every system call succeeding. -/
theorem open_unix_sk_stream_nameless_witness :
    (open_unix_sk_stream sys_all_ok 7 listener_nameless_entry [] restorer_empty).1 = -1 ∧
    (open_unix_sk_stream sys_all_ok 7 listener_nameless_entry [] restorer_empty).2.log = [] :=
  ⟨congrArg Prod.fst
    (open_unix_sk_stream_nameless sys_all_ok 7 listener_nameless_entry [] restorer_empty
      (by decide) (by decide)).1,
   by decide⟩

/-! ## Instruction pointer near the end of its mapping -/

theorem get_vma_by_ip_any_ip (A : Arch) (l : List vma_area) (ip ip2 : Nat) :
    get_vma_by_ip A l ip = get_vma_by_ip A l ip2 := by
  rw [get_vma_by_ip_eq_find, get_vma_by_ip_eq_find]

/-- C24, as stated, fails: with `code_syscall_size = 8`, the executable
mapping `[0x400000, 0x401000)` and `ip = 0x400ffc`, four bytes before the end,
`get_vma_by_ip` returns that mapping, although a later suitable one exists. -/
theorem get_vma_by_ip_near_end_counterexample :
    get_vma_by_ip { TASK_SIZE := 2 ^ 47 - 4096, code_syscall_size := 8 }
      [{ vma := { start := 4194304, «end» := 4198400, prot := 5, status := 0 } },
       { vma := { start := 8388608, «end» := 8392704, prot := 5, status := 0 } }] 4198396
      = some { vma := { start := 4194304, «end» := 4198400, prot := 5, status := 0 } } ∧
    (4194304 ≤ 4198396 ∧ 4198396 < 4198400) ∧ 4198400 - 4198396 < 8 ∧
    (5 : Nat) &&& PROT_EXEC ≠ 0 ∧ 4194304 < 2 ^ 47 - 4096 := by
  decide

/-- C24, amended: `get_vma_by_ip` returns the same VMA for every `ip`, also
for an `ip` inside an executable VMA `V` below `TASK_SIZE` with
`V.end - ip < code_syscall_size`. Where no VMA before `V` in the list is
suitable, it returns `V` when the opcode fits at the start of `V`
(`V.start < V.end - code_syscall_size`), and only otherwise skips `V` and
returns what the rest of the list gives. -/
theorem get_vma_by_ip_near_end (A : Arch) (before after : List vma_area) (V : vma_area)
    (ip : Nat)
    (hexec : V.vma.prot &&& PROT_EXEC ≠ 0) (htask : V.vma.start < A.TASK_SIZE)
    (hbefore : ∀ u ∈ before, ¬ (u.vma.start < A.TASK_SIZE ∧ u.vma.prot &&& PROT_EXEC ≠ 0 ∧
      u.vma.start < ulong_sub u.vma.«end» A.code_syscall_size)) :
    (∀ ip2, get_vma_by_ip A (before ++ V :: after) ip =
      get_vma_by_ip A (before ++ V :: after) ip2) ∧
    (V.vma.start < ulong_sub V.vma.«end» A.code_syscall_size →
      get_vma_by_ip A (before ++ V :: after) ip = some V) ∧
    (¬ V.vma.start < ulong_sub V.vma.«end» A.code_syscall_size →
      get_vma_by_ip A (before ++ V :: after) ip = get_vma_by_ip A after ip) := by
  refine ⟨fun ip2 => get_vma_by_ip_any_ip A _ ip ip2, ?_, ?_⟩
  · intro hfit
    rw [get_vma_by_ip_eq_find, List.find?_append]
    have hb : List.find? (fun v => decide (v.vma.start < A.TASK_SIZE) &&
        decide (v.vma.prot &&& PROT_EXEC ≠ 0) &&
        decide (v.vma.start < ulong_sub v.vma.«end» A.code_syscall_size)) before = none := by
      rw [List.find?_eq_none]
      intro u hu
      have := hbefore u hu
      simp only [Bool.and_eq_true, decide_eq_true_eq]
      intro hc
      exact this ⟨hc.1.1, hc.1.2, hc.2⟩
    rw [hb]
    simp [List.find?_cons, htask, hexec, hfit]
  · intro hfit
    rw [get_vma_by_ip_eq_find, get_vma_by_ip_eq_find, List.find?_append]
    have hb : List.find? (fun v => decide (v.vma.start < A.TASK_SIZE) &&
        decide (v.vma.prot &&& PROT_EXEC ≠ 0) &&
        decide (v.vma.start < ulong_sub v.vma.«end» A.code_syscall_size)) before = none := by
      rw [List.find?_eq_none]
      intro u hu
      have := hbefore u hu
      simp only [Bool.and_eq_true, decide_eq_true_eq]
      intro hc
      exact this ⟨hc.1.1, hc.1.2, hc.2⟩
    rw [hb]
    simp [List.find?_cons, hfit]

/-- The amended C24 at a data mapping followed by the executable mapping
`[0x400000, 0x401000)`, with `ip` four bytes before its end. -/
theorem get_vma_by_ip_near_end_witness :
    get_vma_by_ip { TASK_SIZE := 2 ^ 47 - 4096, code_syscall_size := 8 }
      ([{ vma := { start := 4096, «end» := 8192, prot := 3, status := 0 } }] ++
        { vma := { start := 4194304, «end» := 4198400, prot := 5, status := 0 } } ::
        [{ vma := { start := 8388608, «end» := 8392704, prot := 5, status := 0 } }]) 4198396
      = some { vma := { start := 4194304, «end» := 4198400, prot := 5, status := 0 } } :=
  (get_vma_by_ip_near_end { TASK_SIZE := 2 ^ 47 - 4096, code_syscall_size := 8 }
    [{ vma := { start := 4096, «end» := 8192, prot := 3, status := 0 } }]
    [{ vma := { start := 8388608, «end» := 8392704, prot := 5, status := 0 } }]
    { vma := { start := 4194304, «end» := 4198400, prot := 5, status := 0 } } 4198396
    (by decide) (by decide) (by decide)).2.1 (by decide)

/-! ## Pagemap scan -/

theorem scan_pages_zero (K : VmaKinds) (E : PagemapEnv) (vma : vma_area) (map : Nat → Nat)
    (pfn : Nat) : scan_pages K E vma map pfn 0 = [] := by
  simp [scan_pages]

theorem scan_pages_succ (K : VmaKinds) (E : PagemapEnv) (vma : vma_area) (map : Nat → Nat)
    (pfn left : Nat) :
    scan_pages K E vma map pfn (left + 1) =
      if should_dump_page K vma.vma (map pfn) then
        (vma.vma.start + pfn * E.PAGE_SIZE) % 2 ^ 64 :: scan_pages K E vma map (pfn + 1) left
      else scan_pages K E vma map (pfn + 1) left := by
  unfold scan_pages
  rw [List.range'_succ, List.filter_cons]
  by_cases h : should_dump_page K vma.vma (map pfn) = true
  · simp [h]
  · simp [h]

theorem generate_iovs_scan_spec {σ : Type} (K : VmaKinds) (E : PagemapEnv)
    (add : σ → Nat → Int × σ) (vma : vma_area) (map : Nat → Nat) :
    ∀ (left pfn : Nat) (pp : σ) (log : List pagemap_call),
      (page_pipe_accepts add pp (scan_pages K E vma map pfn left) = true →
        generate_iovs_scan K E add vma map left pfn pp log =
          (0, page_pipe_after add pp (scan_pages K E vma map pfn left),
            log ++ (scan_pages K E vma map pfn left).map pagemap_call.page_pipe_add_page)) ∧
      (∀ init a rest, scan_pages K E vma map pfn left = init ++ a :: rest →
        page_pipe_accepts add pp init = true →
        (add (page_pipe_after add pp init) a).1 ≠ 0 →
        generate_iovs_scan K E add vma map left pfn pp log =
          (-1, (add (page_pipe_after add pp init) a).2,
            log ++ (init ++ [a]).map pagemap_call.page_pipe_add_page)) := by
  intro left
  induction left with
  | zero =>
    intro pfn pp log
    rw [scan_pages_zero]
    refine ⟨?_, ?_⟩
    · intro _
      simp [generate_iovs_scan, page_pipe_after]
    · intro init a rest h
      simp at h
  | succ left ih =>
    intro pfn pp log
    rw [scan_pages_succ]
    unfold generate_iovs_scan
    by_cases hd : should_dump_page K vma.vma (map pfn) = true
    · rw [if_pos hd]
      simp only [hd, Bool.not_true, Bool.false_eq_true, if_false]
      refine ⟨?_, ?_⟩
      · intro hacc
        simp only [page_pipe_accepts, Bool.and_eq_true, decide_eq_true_eq] at hacc
        rw [if_neg (fun h => h hacc.1)]
        rw [(ih (pfn + 1) _ _).1 hacc.2]
        simp [page_pipe_after]
      · intro init a rest hsplit hacc hrej
        cases init with
        | nil =>
          simp only [List.nil_append, List.cons.injEq] at hsplit
          obtain ⟨ha, _⟩ := hsplit
          simp only [page_pipe_after] at hrej ⊢
          rw [← ha] at hrej ⊢
          rw [if_pos hrej]
          simp
        | cons b init2 =>
          simp only [List.cons_append, List.cons.injEq] at hsplit
          obtain ⟨hb, hrest⟩ := hsplit
          rw [← hb] at hacc hrej ⊢
          simp only [page_pipe_accepts, Bool.and_eq_true, decide_eq_true_eq] at hacc
          simp only [page_pipe_after] at hrej ⊢
          rw [if_neg (fun h => h hacc.1)]
          rw [(ih (pfn + 1) _ _).2 init2 a rest hrest hacc.2 hrej]
          simp
    · rw [if_neg hd]
      have hd2 : should_dump_page K vma.vma (map pfn) = false := by
        cases h : should_dump_page K vma.vma (map pfn)
        · rfl
        · exact absurd h hd
      simp only [hd2, Bool.not_false, if_true]
      exact ih (pfn + 1) pp log

theorem pages_to_dump_eq_scan_pages (K : VmaKinds) (E : PagemapEnv) (vma : vma_area)
    (hps : 8 ≤ E.PAGE_SIZE) (hfit : vma.vma.start + E.vma_area_len vma < 2 ^ 64) :
    scan_pages K E vma
      (fun pfn => E.pagemap (vma.vma.start / E.PAGE_SIZE * 8 % 2 ^ 64 / 8 + pfn)) 0
      (E.vma_area_len vma % 2 ^ 64 / E.PAGE_SIZE) = pages_to_dump K E vma := by
  have hpos : 0 < E.PAGE_SIZE := by omega
  have hq : vma.vma.start / E.PAGE_SIZE * 8 ≤ vma.vma.start := by
    calc vma.vma.start / E.PAGE_SIZE * 8
        ≤ vma.vma.start / E.PAGE_SIZE * E.PAGE_SIZE := Nat.mul_le_mul_left _ hps
      _ ≤ vma.vma.start := Nat.div_mul_le_self _ _
  have haux : vma.vma.start / E.PAGE_SIZE * 8 % 2 ^ 64 / 8 = vma.vma.start / E.PAGE_SIZE := by
    rw [Nat.mod_eq_of_lt (by omega)]
    exact Nat.mul_div_cancel _ (by decide)
  have hlen : E.vma_area_len vma % 2 ^ 64 = E.vma_area_len vma :=
    Nat.mod_eq_of_lt (by omega)
  unfold scan_pages pages_to_dump
  rw [haux, hlen, List.range_eq_range']
  apply List.map_congr_left
  intro i hi
  have hi2 := (List.mem_filter.mp hi).1
  rw [List.mem_range'_1] at hi2
  have hlt : i * E.PAGE_SIZE < E.vma_area_len vma := by
    have h1 : (i + 1) * E.PAGE_SIZE ≤ E.vma_area_len vma / E.PAGE_SIZE * E.PAGE_SIZE :=
      Nat.mul_le_mul_right _ (by omega)
    have h2 := Nat.div_mul_le_self (E.vma_area_len vma) E.PAGE_SIZE
    have h3 : (i + 1) * E.PAGE_SIZE = i * E.PAGE_SIZE + E.PAGE_SIZE := by ring
    omega
  exact Nat.mod_eq_of_lt (by omega)

theorem pages_to_dump_increasing (K : VmaKinds) (E : PagemapEnv) (vma : vma_area)
    (hpos : 0 < E.PAGE_SIZE) :
    (pages_to_dump K E vma).Pairwise (fun a b => a < b) := by
  unfold pages_to_dump
  apply List.Pairwise.map (fun i => vma.vma.start + i * E.PAGE_SIZE) _
    (List.Pairwise.filter _ (List.pairwise_lt_range _))
  intro a b hab
  have := (Nat.mul_lt_mul_right hpos).mpr hab
  show vma.vma.start + a * E.PAGE_SIZE < vma.vma.start + b * E.PAGE_SIZE
  omega

/-- C25: for a VMA that ends below 2^64, with `PAGE_SIZE` at least 8, when
`lseek` and `read` succeed `generate_iovs` seeks to the offset
`start / PAGE_SIZE * 8`, reads `length / PAGE_SIZE * 8` bytes and hands to the
page-pipe the addresses `start + i * PAGE_SIZE` of the pages `i` in
`[0, length / PAGE_SIZE)` whose pagemap entry satisfies `should_dump_page`, in
increasing address order and each once. When the page-pipe takes them all it
returns 0 after the last; otherwise it returns -1 right after the first page
the page-pipe refuses, the later pages not being handed over. -/
theorem generate_iovs_pages {σ : Type} (K : VmaKinds) (E : PagemapEnv)
    (add : σ → Nat → Int × σ) (vma : vma_area) (pp : σ)
    (hps : 8 ≤ E.PAGE_SIZE) (hfit : vma.vma.start + E.vma_area_len vma < 2 ^ 64)
    (hseek : to_ulong (E.lseek (vma.vma.start / E.PAGE_SIZE * 8)) =
      vma.vma.start / E.PAGE_SIZE * 8)
    (hread : to_ulong (E.read (vma.vma.start / E.PAGE_SIZE * 8)
        (E.vma_area_len vma / E.PAGE_SIZE * 8)) = E.vma_area_len vma / E.PAGE_SIZE * 8) :
    (pages_to_dump K E vma).Pairwise (fun a b => a < b) ∧
    (page_pipe_accepts add pp (pages_to_dump K E vma) = true →
      generate_iovs K E add vma pp =
        (0, page_pipe_after add pp (pages_to_dump K E vma),
          [pagemap_call.lseek (vma.vma.start / E.PAGE_SIZE * 8),
            pagemap_call.read (E.vma_area_len vma / E.PAGE_SIZE * 8)] ++
          (pages_to_dump K E vma).map pagemap_call.page_pipe_add_page)) ∧
    (∀ init a rest, pages_to_dump K E vma = init ++ a :: rest →
      page_pipe_accepts add pp init = true →
      (add (page_pipe_after add pp init) a).1 ≠ 0 →
      generate_iovs K E add vma pp =
        (-1, (add (page_pipe_after add pp init) a).2,
          [pagemap_call.lseek (vma.vma.start / E.PAGE_SIZE * 8),
            pagemap_call.read (E.vma_area_len vma / E.PAGE_SIZE * 8)] ++
          (init ++ [a]).map pagemap_call.page_pipe_add_page)) := by
  have hpos : 0 < E.PAGE_SIZE := by omega
  have hq : vma.vma.start / E.PAGE_SIZE * 8 ≤ vma.vma.start := by
    calc vma.vma.start / E.PAGE_SIZE * 8
        ≤ vma.vma.start / E.PAGE_SIZE * E.PAGE_SIZE := Nat.mul_le_mul_left _ hps
      _ ≤ vma.vma.start := Nat.div_mul_le_self _ _
  have hq2 : E.vma_area_len vma / E.PAGE_SIZE * 8 ≤ E.vma_area_len vma := by
    calc E.vma_area_len vma / E.PAGE_SIZE * 8
        ≤ E.vma_area_len vma / E.PAGE_SIZE * E.PAGE_SIZE := Nat.mul_le_mul_left _ hps
      _ ≤ E.vma_area_len vma := Nat.div_mul_le_self _ _
  have haux : vma.vma.start / E.PAGE_SIZE * 8 % 2 ^ 64 = vma.vma.start / E.PAGE_SIZE * 8 :=
    Nat.mod_eq_of_lt (by omega)
  have hlen : E.vma_area_len vma % 2 ^ 64 = E.vma_area_len vma :=
    Nat.mod_eq_of_lt (by omega)
  have hcnt : E.vma_area_len vma / E.PAGE_SIZE * 8 % 2 ^ 64 =
      E.vma_area_len vma / E.PAGE_SIZE * 8 :=
    Nat.mod_eq_of_lt (by omega)
  have hE := pages_to_dump_eq_scan_pages K E vma hps hfit
  have hspec := generate_iovs_scan_spec K E add vma
    (fun pfn => E.pagemap (vma.vma.start / E.PAGE_SIZE * 8 % 2 ^ 64 / 8 + pfn))
    (E.vma_area_len vma % 2 ^ 64 / E.PAGE_SIZE) 0 pp
    [pagemap_call.lseek (vma.vma.start / E.PAGE_SIZE * 8),
      pagemap_call.read (E.vma_area_len vma / E.PAGE_SIZE * 8)]
  rw [hE] at hspec
  have hgen : generate_iovs K E add vma pp =
      generate_iovs_scan K E add vma
        (fun pfn => E.pagemap (vma.vma.start / E.PAGE_SIZE * 8 % 2 ^ 64 / 8 + pfn))
        (E.vma_area_len vma % 2 ^ 64 / E.PAGE_SIZE) 0 pp
        [pagemap_call.lseek (vma.vma.start / E.PAGE_SIZE * 8),
          pagemap_call.read (E.vma_area_len vma / E.PAGE_SIZE * 8)] := by
    unfold generate_iovs
    dsimp only
    have hs : ¬ to_ulong (E.lseek (vma.vma.start / E.PAGE_SIZE * 8 % 2 ^ 64)) ≠
        vma.vma.start / E.PAGE_SIZE * 8 % 2 ^ 64 := by
      rw [haux]
      exact fun h => h hseek
    have hr : ¬ to_ulong (E.read (vma.vma.start / E.PAGE_SIZE * 8 % 2 ^ 64)
        (E.vma_area_len vma % 2 ^ 64 / E.PAGE_SIZE * 8 % 2 ^ 64)) ≠
        E.vma_area_len vma % 2 ^ 64 / E.PAGE_SIZE * 8 % 2 ^ 64 := by
      rw [haux, hlen, hcnt]
      exact fun h => h hread
    rw [if_neg hs, if_neg hr]
    conv_lhs =>
      arg 9
      rw [haux, hlen, hcnt]
  rw [hgen]
  exact ⟨pages_to_dump_increasing K E vma hpos, hspec.1, hspec.2⟩

/-- C25 at the mapping `[0x400000, 0x404000)` whose second page is absent:
with room in the page-pipe the three other pages are handed over in order;
with room for one page only, the scan stops with -1 at the second. -/
theorem generate_iovs_pages_witness :
    generate_iovs sample_kinds sample_pagemap (page_pipe_bounded 8) sample_scan_vma [] =
      (0, [4206592, 4202496, 4194304],
        [pagemap_call.lseek 8192, pagemap_call.read 32,
          pagemap_call.page_pipe_add_page 4194304, pagemap_call.page_pipe_add_page 4202496,
          pagemap_call.page_pipe_add_page 4206592]) ∧
    generate_iovs sample_kinds sample_pagemap (page_pipe_bounded 1) sample_scan_vma [] =
      (-1, [4194304],
        [pagemap_call.lseek 8192, pagemap_call.read 32,
          pagemap_call.page_pipe_add_page 4194304,
          pagemap_call.page_pipe_add_page 4202496]) :=
  ⟨((generate_iovs_pages sample_kinds sample_pagemap (page_pipe_bounded 8) sample_scan_vma []
      (by decide) (by decide) (by decide) (by decide)).2.1 (by decide)).trans (by decide),
   by decide⟩

/-! ## Socket table index -/

theorem to_int_tmod_neg (ino : Nat) (h31 : 2 ^ 31 ≤ ino) (h32 : ino < 2 ^ 32)
    (hm : ino % 32 ≠ 0) :
    Int.tmod (to_int ino) SK_HASH_SIZE = -(((2 ^ 32 - ino) % 32 : Nat) : Int) ∧
    Int.tmod (to_int ino) SK_HASH_SIZE < 0 := by
  have hto : to_int ino = -(((2 ^ 32 - ino : Nat)) : Int) := by
    unfold to_int
    rw [Nat.mod_eq_of_lt h32, if_neg (by omega)]
    omega
  have hval : Int.tmod (to_int ino) SK_HASH_SIZE = -(((2 ^ 32 - ino) % 32 : Nat) : Int) := by
    have hneg : ∀ k : Nat,
        Int.tmod (-(((k + 1 : Nat)) : Int)) SK_HASH_SIZE = -(((k + 1) % 32 : Nat) : Int) :=
      fun _ => rfl
    obtain ⟨k, hk⟩ : ∃ k, 2 ^ 32 - ino = k + 1 := ⟨2 ^ 32 - ino - 1, by omega⟩
    rw [hto, hk]
    exact hneg k
  refine ⟨hval, ?_⟩
  rw [hval]
  omega

theorem to_int_tmod_nonneg (ino : Nat) (h31 : ino < 2 ^ 31) :
    Int.tmod (to_int ino) SK_HASH_SIZE = ((ino % 32 : Nat) : Int) := by
  have hto : to_int ino = (ino : Int) := by
    unfold to_int
    rw [Nat.mod_eq_of_lt (by omega), if_pos h31]
  rw [hto]
  rfl

/-- C26, the code at the failing input: for the inode 2147483649 (2^31 + 1),
which reaches `sk_collect_one` as the `int` -2147483647, `SK_HASH_LINK`
computes the index -31: the descriptor is linked at `sockets[-31]`, outside
the 32 chains of the table, all of which stay empty. The index is negative
for every inode from 2^31 on that is not a multiple of 32, and it is
`ino % 32` for the inodes below 2^31. -/
theorem sk_collect_one_index_out_of_table :
    Int.tmod (to_int 2147483649) SK_HASH_SIZE = -31 ∧
    (sk_collect_one sk_hash_empty (to_int 2147483649) AF_UNIX
      (fun sd => sk_desc.unix (unix_desc_with_sd listener_nameless sd))).2 (-31) =
      [sk_desc.unix (unix_desc_with_sd listener_nameless
        { family := 1, ino := 2147483649 })] ∧
    (∀ i : Int, 0 ≤ i → i < SK_HASH_SIZE →
      (sk_collect_one sk_hash_empty (to_int 2147483649) AF_UNIX
        (fun sd => sk_desc.unix (unix_desc_with_sd listener_nameless sd))).2 i = []) ∧
    (∀ ino : Nat, 2 ^ 31 ≤ ino → ino < 2 ^ 32 → ino % 32 ≠ 0 →
      Int.tmod (to_int ino) SK_HASH_SIZE < 0) ∧
    (∀ ino : Nat, ino < 2 ^ 31 →
      0 ≤ Int.tmod (to_int ino) SK_HASH_SIZE ∧
      Int.tmod (to_int ino) SK_HASH_SIZE < SK_HASH_SIZE) := by
  have hidx : Int.tmod (to_int 2147483649) SK_HASH_SIZE = -31 := by decide
  refine ⟨hidx, by decide, ?_, ?_, ?_⟩
  · intro i h0 _
    unfold sk_collect_one SK_HASH_LINK
    simp only [hidx]
    rw [if_neg (by omega)]
    rfl
  · intro ino h31 h32 hm
    exact (to_int_tmod_neg ino h31 h32 hm).2
  · intro ino h31
    rw [to_int_tmod_nonneg ino h31]
    have : SK_HASH_SIZE = 32 := rfl
    rw [this]
    omega

/-! ## Rendezvous address of two sockets -/

/-- C27, the code at the failing inputs: the distinct ids 3000000000 and
3000000001 reach `prep_conn_addr` as the `int` values -1294967296 and
-1294967295, whose formatted names differ in the last digit only; the length
24 cuts that digit off, so that the two addresses agree on all their
`addrlen` bytes, whatever the buffers held before. -/
theorem prep_conn_addr_collision :
    (3000000000 : Nat) ≠ 3000000001 ∧
    to_int 3000000000 = -1294967296 ∧ to_int 3000000001 = -1294967295 ∧
    conn_name (to_int 3000000000) = "crtools-sk--1294967296".toList ∧
    conn_name (to_int 3000000001) = "crtools-sk--1294967295".toList ∧
    (∀ g g2 : sockaddr_un,
      (prep_conn_addr (to_int 3000000000) g).2 = (prep_conn_addr (to_int 3000000001) g2).2 ∧
      sockaddr_bytes (prep_conn_addr (to_int 3000000000) g).1
          (prep_conn_addr (to_int 3000000000) g).2 =
        sockaddr_bytes (prep_conn_addr (to_int 3000000001) g2).1
          (prep_conn_addr (to_int 3000000001) g2).2 ∧
      sockaddr_bytes (prep_conn_addr (to_int 3000000001) g2).1
          (prep_conn_addr (to_int 3000000001) g2).2 =
        [1, 0, 0] ++ "crtools-sk--129496729".toList.map Char.toNat) := by
  refine ⟨by decide, by decide, by decide, by decide, by decide, ?_⟩
  intro g g2
  rw [prep_conn_addr_len, prep_conn_addr_len, prep_conn_addr_bytes, prep_conn_addr_bytes]
  exact ⟨rfl, by decide, by decide⟩

end Criu
